import Mathlib

/-!
# Tpetra::Import: construction of the communication plan

Shallow embedding of `packages/tpetra/core/src/Tpetra_Import_def.hpp`.

* Global and local ordinals (`GO`, `LO`) are mathematical integers; a Map's
  local element count always fits in `LO`, so the conversion `as<LO>` of an
  array size is the identity on the sizes a Map can have.
* `Teuchos::Array` values are lists; `push_back` appends at the end, an
  indexed write is `List.set`, an indexed read is `List.getD`. Reads and writes
  past the end of an array are undefined in the source; here such a read gives
  `0` and such a write does nothing, and the theorems about the loops assume
  the array lengths that make every access in range.
* Exceptions are the `Except` monad over `ImportError`.
* The collaborators whose code lives elsewhere (the Map, the Distributor,
  `sort3`, the abuse-warning macro) are parameters or are modelled from the
  specification; each such definition says so. In particular
  `TPETRA_ABUSE_WARNING` is the diagnostic of sections 4.1 and 4.2 of the
  specification: it records a warning and never throws.
* A communicator is a list of (source Map, target Map) pairs, rank `q` at
  position `q`; the collective `createFromRecvs` sees the arrays submitted by
  all ranks.
* Where aliasing matters (the expert constructor swaps its array arguments with
  the arrays of the new plan), arrays live in a `Heap` of addressed cells, a plan
  object is a `PlanRef` holding the addresses of its arrays, and a method is a
  function from the heap before the call to the heap after it.
-/

namespace Tpetra

/-- Result status of a Map owner lookup (`Tpetra::LookupStatus`). -/
inductive LookupStatus where
  | AllIDsPresent
  | IDNotPresent
deriving DecidableEq, Repr

/-- Exceptions thrown while a plan is constructed. -/
inductive ImportError where
  | invalid_argument
  | logic_error
  | runtime_error
deriving DecidableEq, Repr

/-- Diagnostics issued through `TPETRA_ABUSE_WARNING`. -/
inductive AbuseWarning where
  | remoteLIDsButSourceNotDistributed
  | ownerLookupIDNotPresent
deriving DecidableEq, Repr

/-- Modelled from the spec: `Teuchos::OrdinalTraits<LO>::invalid ()` is declared
outside this file; it is the value `getLocalElement` returns for a GID that is
not in the Map ("LID or INVALID"). For a signed ordinal it is `-1`. -/
def LINVALID : Int := -1

/-- Modelled from the spec: the Map collaborator (section 6), as far as the
plan construction consumes it: `getNodeElementList`, `getLocalElement`,
`isDistributed` and the owner lookup `getRemoteIndexList`, which for a list of
GIDs returns the owning ranks (or `-1`) and a status. -/
structure Map where
  getNodeElementList : List Int
  getLocalElement : Int → Int
  isDistributed : Bool
  getRemoteIndexList : List Int → List Int × LookupStatus

/-- Modelled from the spec: `getGlobalElement(LID) -> GID`, the entry of the
node element list at position `lid`; `none` when `lid` is not a local index. -/
def Map.getGlobalElement (m : Map) (lid : Int) : Option Int :=
  if 0 ≤ lid then m.getNodeElementList.get? lid.toNat else none

/-- Modelled from the spec: a Map whose `getLocalElement` is the position of the
GID in the node element list (`LINVALID` when absent) and whose owner lookup is
the given function. -/
def Map.ofList (elems : List Int) (distributed : Bool)
    (lookup : List Int → List Int × LookupStatus) : Map where
  getNodeElementList := elems
  getLocalElement := fun g => if g ∈ elems then (elems.indexOf g : Int) else LINVALID
  isDistributed := distributed
  getRemoteIndexList := lookup

/-- The `ImportExportData` record held by an Import, with the log of abuse
warnings issued during construction. -/
structure ImportData where
  source_ : Map
  target_ : Map
  numSameIDs_ : Nat
  permuteToLIDs_ : List Int
  permuteFromLIDs_ : List Int
  remoteLIDs_ : List Int
  exportLIDs_ : List Int
  exportPIDs_ : List Int
  abuseWarnings : List AbuseWarning

/-- Modelled from the spec: the `ImportExportData (source, target, out, plist)`
constructor is declared outside this file; a fresh record holds the two Maps,
`numSameIDs_ = 0` and empty arrays. -/
def ImportData.new (source target : Map) : ImportData where
  source_ := source
  target_ := target
  numSameIDs_ := 0
  permuteToLIDs_ := []
  permuteFromLIDs_ := []
  remoteLIDs_ := []
  exportLIDs_ := []
  exportPIDs_ := []
  abuseWarnings := []

/-- Accessor `getNumSameIDs`. -/
def getNumSameIDs (d : ImportData) : Nat := d.numSameIDs_

/-- Accessor `getNumPermuteIDs`: the size of `permuteFromLIDs_`. -/
def getNumPermuteIDs (d : ImportData) : Nat := d.permuteFromLIDs_.length

/-- Accessor `getNumRemoteIDs`: the size of `remoteLIDs_`. -/
def getNumRemoteIDs (d : ImportData) : Nat := d.remoteLIDs_.length

/-- Accessor `getNumExportIDs`: the size of `exportLIDs_`. -/
def getNumExportIDs (d : ImportData) : Nat := d.exportLIDs_.length

/-- Modelled from the spec: `TPETRA_ABUSE_WARNING (test, Exception, msg)` is a
macro defined outside this file; the specification makes it a diagnostic
warning, not a hard failure: when `test` holds the warning is recorded and
construction goes on. -/
def TPETRA_ABUSE_WARNING (test : Bool) (w : AbuseWarning) (d : ImportData) : ImportData :=
  if test then { d with abuseWarnings := d.abuseWarnings ++ [w] } else d

/-- The loop of `setupSamePermuteRemote` that computes `numSameGids`:
`for ( ; numSameGids < numGids && rawSrcGids[numSameGids] == rawTgtGids[numSameGids]; ++numSameGids)`.
The first argument bounds the number of iterations; `numGids` iterations always
suffice because every iteration increments `numSameGids`. -/
def numSameLoop (rawSrcGids rawTgtGids : List Int) (numGids : Nat) : Nat → Nat → Nat
  | 0, numSameGids => numSameGids
  | fuel + 1, numSameGids =>
    if numSameGids < numGids ∧ rawSrcGids.getD numSameGids 0 = rawTgtGids.getD numSameGids 0 then
      numSameLoop rawSrcGids rawTgtGids numGids fuel (numSameGids + 1)
    else numSameGids

/-- One iteration of the classification loop of `setupSamePermuteRemote`
(the body of `for (LO tgtLid = numSameGids; tgtLid < numTgtLids; ++tgtLid)`),
acting on the plan data and the array `remoteGIDs`. -/
def classifyStep (source : Map) (rawTgtGids : List Int)
    (st : ImportData × List Int) (tgtLid : Nat) : ImportData × List Int :=
  let curTargetGid := rawTgtGids.getD tgtLid 0
  let srcLid := source.getLocalElement curTargetGid
  if srcLid ≠ LINVALID then
    ({ st.1 with
        permuteToLIDs_ := st.1.permuteToLIDs_ ++ [(tgtLid : Int)]
        permuteFromLIDs_ := st.1.permuteFromLIDs_ ++ [srcLid] }, st.2)
  else
    ({ st.1 with remoteLIDs_ := st.1.remoteLIDs_ ++ [(tgtLid : Int)] }, st.2 ++ [curTargetGid])

/-- The branch condition of the classification loop at target LID `tgtLid`:
`source.getLocalElement (rawTgtGids[tgtLid]) != LINVALID`. -/
def inSource (source : Map) (rawTgtGids : List Int) (tgtLid : Nat) : Bool :=
  decide (source.getLocalElement (rawTgtGids.getD tgtLid 0) ≠ LINVALID)

/-- The method `Import::setupSamePermuteRemote (remoteGIDs)`: returns the updated
plan data and the updated array `remoteGIDs`. -/
def setupSamePermuteRemote (d : ImportData) (remoteGIDs : List Int) : ImportData × List Int :=
  let source := d.source_
  let sourceGIDs := source.getNodeElementList
  let targetGIDs := d.target_.getNodeElementList
  let numSrcGids := sourceGIDs.length
  let numTgtGids := targetGIDs.length
  let numGids := min numSrcGids numTgtGids
  let numSameGids := numSameLoop sourceGIDs targetGIDs numGids numGids 0
  let d1 := { d with numSameIDs_ := numSameGids }
  let st := (List.range' numSameGids (numTgtGids - numSameGids)).foldl
    (classifyStep source targetGIDs) (d1, remoteGIDs)
  (TPETRA_ABUSE_WARNING (decide (getNumRemoteIDs st.1 > 0) && !source.isDistributed)
    AbuseWarning.remoteLIDsButSourceNotDistributed st.1, st.2)

/-- `Teuchos::Array::resize (n)`: the first `n` entries are kept and missing
entries are value-initialised. -/
def resize (xs : List Int) (n : Nat) : List Int :=
  xs.take n ++ List.replicate (n - xs.length) 0

/-- The three parallel remote arrays of `setupExport` together with the
counter `numValidRemote` of its packing loop. -/
structure PackState where
  remoteProcIDs : List Int
  remoteGIDs : List Int
  remoteLIDs : List Int
  numValidRemote : Nat

/-- One iteration `r` of the packing loop of `setupExport`: a valid entry is
copied down to position `numValidRemote` in all three arrays. -/
def packStep (st : PackState) (r : Nat) : PackState :=
  if st.remoteProcIDs.getD r 0 ≠ -1 then
    { remoteProcIDs := st.remoteProcIDs.set st.numValidRemote (st.remoteProcIDs.getD r 0)
      remoteGIDs := st.remoteGIDs.set st.numValidRemote (st.remoteGIDs.getD r 0)
      remoteLIDs := st.remoteLIDs.set st.numValidRemote (st.remoteLIDs.getD r 0)
      numValidRemote := st.numValidRemote + 1 }
  else st

/-- The packing loop `for (size_type r = 0; r < totalNumRemote; ++r)`. -/
def packLoop (remoteProcIDs remoteGIDs remoteLIDs : List Int) (totalNumRemote : Nat) : PackState :=
  (List.range totalNumRemote).foldl packStep
    { remoteProcIDs := remoteProcIDs, remoteGIDs := remoteGIDs, remoteLIDs := remoteLIDs,
      numValidRemote := 0 }

/-- Insertion of a triple before the first triple whose key is not smaller. -/
def sort3Insert (x : Int × Int × Int) : List (Int × Int × Int) → List (Int × Int × Int)
  | [] => [x]
  | y :: ys => if x.1 ≤ y.1 then x :: y :: ys else y :: sort3Insert x ys

/-- Stable sort of triples by their first component. -/
def sort3Triples : List (Int × Int × Int) → List (Int × Int × Int)
  | [] => []
  | x :: xs => sort3Insert x (sort3Triples xs)

/-- Modelled from the spec: `sort3 (first1, last1, first2, first3)` is defined
outside this file; it sorts the first array ascending and keeps the three arrays
co-permuted (a stable 3-way sort keyed on the first array). Only the first
`last1 - first1` entries of the second and third array take part. -/
def sort3 (first second third : List Int) : List Int × List Int × List Int :=
  let n := first.length
  let ts := sort3Triples (List.zip first (List.zip (second.take n) (third.take n)))
  (ts.map (fun t => t.1),
   ts.map (fun t => t.2.1) ++ second.drop n,
   ts.map (fun t => t.2.2) ++ third.drop n)

/-- What `setupExport` holds when it calls the Distributor: the plan data and
the arrays `remoteGIDs` and `remoteProcIDs`. -/
structure ExportRequest where
  data : ImportData
  remoteGIDs : List Int
  remoteProcIDs : List Int

/-- The entries of `xs` at the positions where `remoteProcIDs` holds an owner
other than `-1`, in their original order. -/
def keepValid (remoteProcIDs xs : List Int) : List Int :=
  ((List.zip remoteProcIDs xs).filter (fun e => decide (e.1 ≠ -1))).map (fun e => e.2)

/-- The block of `Import::setupExport` guarded by `if (lookup == IDNotPresent)`:
remote entries whose owner is `-1` are removed from the three parallel arrays
`(remoteProcIDs, remoteGIDs, remoteLIDs_)`. With `totalNumRemote =
getNumRemoteIDs ()`: all three arrays are cleared when every owner is `-1`,
otherwise the valid entries are packed to the front, the count is checked
(`std::logic_error`) and the arrays are resized. -/
def dropInvalidRemotes (lookup : LookupStatus) (remoteProcIDs remoteGIDs remoteLIDs : List Int) :
    Except ImportError (List Int × List Int × List Int) :=
  if lookup = LookupStatus.IDNotPresent then
    let numInvalidRemote := remoteProcIDs.countP (fun pid => decide ((-1 : Int) = pid))
    let totalNumRemote := remoteLIDs.length
    if numInvalidRemote = totalNumRemote then
      Except.ok ([], [], [])
    else
      let st := packLoop remoteProcIDs remoteGIDs remoteLIDs totalNumRemote
      if (st.numValidRemote : Int) ≠ (totalNumRemote : Int) - (numInvalidRemote : Int) then
        Except.error ImportError.logic_error
      else
        Except.ok (resize st.remoteProcIDs st.numValidRemote,
          resize st.remoteGIDs st.numValidRemote, resize st.remoteLIDs st.numValidRemote)
  else Except.ok (remoteProcIDs, remoteGIDs, remoteLIDs)

/-- The first part of `Import::setupExport`, up to and including `sort3`:
the sanity checks, the owner lookup, the removal of remote entries without an
owner, and the sort by owning process. -/
def setupExportRemotes (d : ImportData) (remoteGIDs : List Int) (useRemotePIDs : Bool)
    (userRemotePIDs : List Int) : Except ImportError ExportRequest :=
  let source := d.source_
  if !useRemotePIDs && decide (userRemotePIDs.length > 0) then
    Except.error ImportError.invalid_argument
  else if decide (userRemotePIDs.length > 0)
      && decide (remoteGIDs.length ≠ userRemotePIDs.length) then
    Except.error ImportError.invalid_argument
  else
    let looked : List Int × LookupStatus :=
      if !useRemotePIDs then source.getRemoteIndexList remoteGIDs
      else ([], LookupStatus.AllIDsPresent)
    let lookup := looked.2
    let remoteProcIDs := if useRemotePIDs then userRemotePIDs else looked.1
    let d1 := TPETRA_ABUSE_WARNING (decide (lookup = LookupStatus.IDNotPresent))
      AbuseWarning.ownerLookupIDNotPresent d
    match dropInvalidRemotes lookup remoteProcIDs remoteGIDs d1.remoteLIDs_ with
    | Except.error e => Except.error e
    | Except.ok kept =>
      let s := sort3 kept.1 kept.2.1 kept.2.2
      Except.ok { data := { d1 with remoteLIDs_ := s.2.2 }, remoteGIDs := s.2.1,
                  remoteProcIDs := s.1 }

/-- The last part of `Import::setupExport`: the export LIDs are the source LIDs
of the exported GIDs (`expLIDs[k] = source.getLocalElement (expGIDs[k])`). -/
def setExportLIDs (d : ImportData) (exportGIDs : List Int) : ImportData :=
  let numExportIDs := exportGIDs.length
  if numExportIDs > 0 then
    let expLIDs := (List.range numExportIDs).foldl
      (fun expLIDs k => expLIDs.set k (d.source_.getLocalElement (exportGIDs.getD k 0)))
      (resize d.exportLIDs_ numExportIDs)
    { d with exportLIDs_ := expLIDs }
  else d

/-- The method `Import::setupExport (remoteGIDs, useRemotePIDs, userRemotePIDs)`.
The Distributor call `createFromRecvs (remoteGIDs, remoteProcIDs, exportGIDs,
exportPIDs_)` is a parameter: it maps the two input arrays to the two output
arrays, or throws. -/
def setupExport (createFromRecvs : List Int → List Int → Except ImportError (List Int × List Int))
    (d : ImportData) (remoteGIDs : List Int) (useRemotePIDs : Bool)
    (userRemotePIDs : List Int) : Except ImportError ImportData :=
  match setupExportRemotes d remoteGIDs useRemotePIDs userRemotePIDs with
  | Except.error e => Except.error e
  | Except.ok req =>
    match createFromRecvs req.remoteGIDs req.remoteProcIDs with
    | Except.error e => Except.error e
    | Except.ok out =>
      Except.ok (setExportLIDs { req.data with exportPIDs_ := out.2 } out.1)

/-- The method `Import::init (source, target, useRemotePIDs, remotePIDs, plist)`
behind every from-Maps constructor. -/
def init (createFromRecvs : List Int → List Int → Except ImportError (List Int × List Int))
    (source target : Map) (useRemotePIDs : Bool) (remotePIDs : List Int) :
    Except ImportError ImportData :=
  let c := setupSamePermuteRemote (ImportData.new source target) []
  if source.isDistributed then
    setupExport createFromRecvs c.1 c.2 useRemotePIDs remotePIDs
  else Except.ok c.1

/-- The arrays `(remoteGIDs, remoteProcIDs)` a rank hands to `createFromRecvs`
when its plan is built by `init` without user PIDs; a rank that does not reach
the call hands over nothing. -/
def rankSubmission (source target : Map) : List Int × List Int :=
  let c := setupSamePermuteRemote (ImportData.new source target) []
  if source.isDistributed then
    match setupExportRemotes c.1 c.2 false [] with
    | Except.ok req => (req.remoteGIDs, req.remoteProcIDs)
    | Except.error _ => ([], [])
  else ([], [])

/-- The submissions of all ranks, rank `q` at position `q`. -/
def allSubmissions (maps : List (Map × Map)) : List (List Int × List Int) :=
  maps.map (fun m => rankSubmission m.1 m.2)

/-- The pairs `(q, g)` such that rank `q ≠ p` submitted GID `g` naming `p` as
the owner, ranks ascending and each rank's entries in submitted order. -/
def requestsNaming (submitted : List (List Int × List Int)) (p : Nat) : List (Int × Int) :=
  (List.range submitted.length).flatMap (fun q =>
    if q = p then []
    else
      ((List.zip (submitted.getD q ([], [])).2 (submitted.getD q ([], [])).1).filter
        (fun e => decide (e.1 = (p : Int)))).map (fun e => ((q : Int), e.2)))

/-- Modelled from the spec: `Distributor::createFromRecvs` as the dual exchange
of section 4.3: every rank learns the (peer rank, GID) pairs that the other
ranks need from it. The result is `(exportGIDs, exportPIDs)`. -/
def createFromRecvs (submitted : List (List Int × List Int)) (myRank : Nat) :
    Except ImportError (List Int × List Int) :=
  Except.ok ((requestsNaming submitted myRank).map (fun e => e.2),
             (requestsNaming submitted myRank).map (fun e => e.1))

/-- The from-Maps constructor run on rank `p` of a communicator whose rank `q`
holds the Maps `maps[q] = (source, target)`; `exchange` is the collective
`createFromRecvs`, given the submissions of all ranks and the calling rank. -/
def importOnRank
    (exchange : List (List Int × List Int) → Nat → Except ImportError (List Int × List Int))
    (maps : List (Map × Map)) (p : Nat) : Except ImportError ImportData :=
  match maps.get? p with
  | none => Except.error ImportError.invalid_argument
  | some m =>
    init (fun gids pids => exchange ((allSubmissions maps).set p (gids, pids)) p)
      m.1 m.2 false []

/-- Modelled from the spec: the owner lookup of section 4.2 over the source
element lists of all ranks: for every GID the first rank whose list holds it, or
`-1`; the status is `IDNotPresent` exactly when some GID has no owner. -/
def directoryLookup (sources : List (List Int)) (gids : List Int) : List Int × LookupStatus :=
  let pids := gids.map (fun g =>
    match sources.findIdx? (fun s => decide (g ∈ s)) with
    | some p => (p : Int)
    | none => (-1 : Int))
  (pids, if (-1 : Int) ∈ pids then LookupStatus.IDNotPresent else LookupStatus.AllIDsPresent)

/-- The number of remote entries `setupExport` removes while `init` builds a
plan: none unless the source is distributed, the owner lookup was run and
reported `IDNotPresent`; then the number of remote GIDs with owner `-1`. -/
def numDroppedRemotes (source target : Map) (useRemotePIDs : Bool) : Nat :=
  let c := setupSamePermuteRemote (ImportData.new source target) []
  if source.isDistributed = true ∧ useRemotePIDs = false
      ∧ (source.getRemoteIndexList c.2).2 = LookupStatus.IDNotPresent then
    (source.getRemoteIndexList c.2).1.countP (fun pid => decide ((-1 : Int) = pid))
  else 0

/-- Scenario A of the specification: two ranks, source element lists
`[0,1,2,3]` and `[4,5,6,7]`, target element lists `[0,1,4,5]` and `[2,3,6,7]`. -/
def scenarioA : List (Map × Map) :=
  [ (Map.ofList [0, 1, 2, 3] true (directoryLookup [[0, 1, 2, 3], [4, 5, 6, 7]]),
     Map.ofList [0, 1, 4, 5] true (directoryLookup [[0, 1, 2, 3], [4, 5, 6, 7]])),
    (Map.ofList [4, 5, 6, 7] true (directoryLookup [[0, 1, 2, 3], [4, 5, 6, 7]]),
     Map.ofList [2, 3, 6, 7] true (directoryLookup [[0, 1, 2, 3], [4, 5, 6, 7]])) ]

/-- Two ranks with source element lists `[0]` and `[1]`; the target of rank 0
is `[0, 5]`, and no rank owns GID 5 in the source Map. -/
def scenarioUnowned : List (Map × Map) :=
  [ (Map.ofList [0] true (directoryLookup [[0], [1]]),
     Map.ofList [0, 5] true (directoryLookup [[0], [1]])),
    (Map.ofList [1] true (directoryLookup [[0], [1]]),
     Map.ofList [1] true (directoryLookup [[0], [1]])) ]

/-- The Map holds GID `g` on the calling rank: `getLocalElement (g)` is a valid
LID and the node element list has `g` at that position. -/
def Map.Owns (m : Map) (g : Int) : Prop :=
  m.getLocalElement g ≠ LINVALID ∧ m.getGlobalElement (m.getLocalElement g) = some g

/-- The pairs `(q, g)` such that rank `q` lists `g` as a remote GID and the
owner lookup on rank `q` names rank `p` as the owner of `g`; ranks ascending,
each rank's remote GIDs in classification order. -/
def remotesOwnedBy (maps : List (Map × Map)) (p : Nat) : List (Int × Int) :=
  (List.range maps.length).flatMap (fun q =>
    match maps.get? q with
    | none => []
    | some m =>
      ((List.zip
          (m.1.getRemoteIndexList (setupSamePermuteRemote (ImportData.new m.1 m.2) []).2).1
          (setupSamePermuteRemote (ImportData.new m.1 m.2) []).2).filter
        (fun e => decide (e.1 = (p : Int)))).map (fun e => ((q : Int), e.2)))

/-- The owner lookup is correct on every rank: for the remote GIDs of the rank
it fills one owner per GID, and every owner is either `-1` or a rank whose
source Map holds the GID. -/
def OwnerLookupCorrect (maps : List (Map × Map)) : Prop :=
  ∀ q m, maps.get? q = some m →
    (m.1.getRemoteIndexList (setupSamePermuteRemote (ImportData.new m.1 m.2) []).2).1.length
      = (setupSamePermuteRemote (ImportData.new m.1 m.2) []).2.length ∧
    ∀ e ∈ List.zip
        (m.1.getRemoteIndexList (setupSamePermuteRemote (ImportData.new m.1 m.2) []).2).1
        (setupSamePermuteRemote (ImportData.new m.1 m.2) []).2,
      e.1 = -1 ∨ ∃ (p : Nat) (mp : Map × Map),
        e.1 = (p : Int) ∧ maps.get? p = some mp ∧ mp.1.Owns e.2

/-- The collective `createFromRecvs` is the dual exchange: on every rank it
returns, in some order, exactly the (requesting rank, GID) pairs that the other
ranks submitted naming that rank as the owner. -/
def ExchangeIsDual
    (exchange : List (List Int × List Int) → Nat → Except ImportError (List Int × List Int)) :
    Prop :=
  ∀ submitted p, p < submitted.length →
    ∃ out, exchange submitted p = Except.ok out ∧ out.1.length = out.2.length ∧
      (List.zip out.2 out.1).Perm (requestsNaming submitted p)

/-- Scenario B of the specification on two ranks: on each rank the source and
the target Map have the same element list. -/
def scenarioB : List (Map × Map) :=
  [ (Map.ofList [0, 1] true (directoryLookup [[0, 1], [2, 3]]),
     Map.ofList [0, 1] true (directoryLookup [[0, 1], [2, 3]])),
    (Map.ofList [2, 3] true (directoryLookup [[0, 1], [2, 3]]),
     Map.ofList [2, 3] true (directoryLookup [[0, 1], [2, 3]])) ]

/-- A single rank whose source Map `[0]` is not distributed and whose target Map
`[0, 5]` asks for a GID the source does not hold. -/
def scenarioSubmap : List (Map × Map) :=
  [ (Map.ofList [0] false (directoryLookup [[0]]),
     Map.ofList [0, 5] false (directoryLookup [[0]])) ]

/-- The list `S` with the entries at positions `i` and `j` swapped. -/
def swapEntries (S : List Int) (i j : Nat) : List Int :=
  (S.set i (S.getD j 0)).set j (S.getD i 0)

/-- A Map is consistent when a valid `getLocalElement` answer points at the
GID in its node element list. -/
def Map.Consistent (m : Map) : Prop :=
  ∀ g : Int, m.getLocalElement g ≠ LINVALID →
    m.getGlobalElement (m.getLocalElement g) = some g

/-- Two ranks with source element lists `[0]` and `[1]` whose owner lookup
wrongly names rank 1 as the owner of every GID; the target of rank 0 asks for
GID 9, which no rank holds. -/
def scenarioWrongOwner : List (Map × Map) :=
  [ (Map.ofList [0] true (fun gids => (gids.map (fun _ => 1), LookupStatus.AllIDsPresent)),
     Map.ofList [0, 9] true (fun gids => (gids.map (fun _ => 1), LookupStatus.AllIDsPresent))),
    (Map.ofList [1] true (fun gids => (gids.map (fun _ => 1), LookupStatus.AllIDsPresent)),
     Map.ofList [1] true (fun gids => (gids.map (fun _ => 1), LookupStatus.AllIDsPresent))) ]

/-- Modelled from the spec: `Teuchos::OrdinalTraits<GO>::invalid ()`, the value
`getGlobalElement` returns for an LID that is not a local index. For a signed
ordinal it is `-1`. -/
def GINVALID : Int := -1

/-- The value of `getGlobalElement (lid)` as a global ordinal: the GID at
position `lid` of the node element list, `GINVALID` when `lid` is not local. -/
def Map.globalElement (m : Map) (lid : Int) : Int :=
  (m.getGlobalElement lid).getD GINVALID

/-- Modelled from the spec: `getNodeNumElements ()`, the number of entries of the
node element list (an LID is a dense zero-based index into it). -/
def Map.getNodeNumElements (m : Map) : Nat := m.getNodeElementList.length

/-- The array arguments of the expert constructor, which it takes by
reference. -/
structure ExpertArrays where
  permuteToLIDs : List Int
  permuteFromLIDs : List Int
  remoteLIDs : List Int
  exportLIDs : List Int
  exportPIDs : List Int

/-- The expert constructor `Import (source, target, numSameIDs, permuteToLIDs,
permuteFromLIDs, remoteLIDs, exportLIDs, exportPIDs, distributor, out, plist)`:
a fresh `ImportExportData` is created, `numSameIDs_` is set and every array is
swapped with the corresponding argument. The result is the new plan together
with the argument arrays as the call leaves them. The constructor has no
`throw`. -/
def Import.expert (source target : Map) (numSameIDs : Nat) (args : ExpertArrays) :
    Except ImportError (ImportData × ExpertArrays) :=
  let d0 := ImportData.new source target
  let d1 := { d0 with numSameIDs_ := numSameIDs }
  let d2 := { d1 with permuteToLIDs_ := args.permuteToLIDs }
  let a2 := { args with permuteToLIDs := d1.permuteToLIDs_ }
  let d3 := { d2 with permuteFromLIDs_ := a2.permuteFromLIDs }
  let a3 := { a2 with permuteFromLIDs := d2.permuteFromLIDs_ }
  let d4 := { d3 with remoteLIDs_ := a3.remoteLIDs }
  let a4 := { a3 with remoteLIDs := d3.remoteLIDs_ }
  let d5 := { d4 with exportLIDs_ := a4.exportLIDs }
  let a5 := { a4 with exportLIDs := d4.exportLIDs_ }
  let d6 := { d5 with exportPIDs_ := a5.exportPIDs }
  let a6 := { a5 with exportPIDs := d5.exportPIDs_ }
  Except.ok (d6, a6)

/-- The copy constructor `Import (const Import& rhs)`: the new object shares the
`ImportExportData` of `rhs`. -/
def Import.copy (rhs : ImportData) : ImportData := rhs

/-- `Teuchos::ArrayView::operator() (offset, size)`: the view of `size` entries
starting at position `offset`. -/
def view (xs : List Int) (offset size : Nat) : List Int :=
  (xs.drop offset).take size

/-- `std::sort` on an array of GIDs: ascending order. -/
def std.sort (xs : List Int) : List Int :=
  xs.insertionSort (fun a b => a ≤ b)

/-- `operator<=` derived from `operator<` of `std::pair<int, GO>`: lexicographic,
the process rank first. -/
def pairLE (a b : Int × Int) : Prop :=
  a.1 < b.1 ∨ (a.1 = b.1 ∧ a.2 ≤ b.2)

instance pairLE.decidable : DecidableRel pairLE :=
  fun a b => inferInstanceAs (Decidable (a.1 < b.1 ∨ (a.1 = b.1 ∧ a.2 ≤ b.2)))

/-- `std::sort` on an array of (PID, GID) pairs. -/
def std.sortPairs (xs : List (Int × Int)) : List (Int × Int) :=
  xs.insertionSort pairLE

/-- `std::set_difference (first1, last1, first2, last2, out)`, the two-cursor
loop of the standard library: with `a` and `b` under the cursors, `a < b` copies
`a` and advances the first cursor, `b < a` advances the second cursor, otherwise
both advance; what is left of the first range is copied. Entries `b < a` are
skipped in one step here. The loop assumes both ranges sorted. -/
def std.set_difference : List Int → List Int → List Int
  | [], _ => []
  | a :: as, bs =>
    match bs.dropWhile (fun b => decide (b < a)) with
    | [] => a :: as
    | b :: rest =>
      if a < b then a :: std.set_difference as (b :: rest)
      else std.set_difference as rest

/-- `std::set_union (first1, last1, first2, last2, out)`, the two-cursor loop of
the standard library: `a < b` copies `a`, `b < a` copies `b`, otherwise `a` is
copied and both cursors advance; what is left of either range is copied. -/
def std.set_union : List Int → List Int → List Int
  | [], bs => bs
  | a :: as, bs =>
    bs.takeWhile (fun b => decide (b < a)) ++
      (match bs.dropWhile (fun b => decide (b < a)) with
       | [] => a :: as
       | b :: rest =>
         if a < b then a :: std.set_union as (b :: rest)
         else a :: std.set_union as rest)

/-- `std::merge` on two arrays of (PID, GID) pairs: the entry of the second
range is copied while it is smaller than the entry of the first range,
otherwise the entry of the first range. -/
def std.merge : List (Int × Int) → List (Int × Int) → List (Int × Int)
  | [], bs => bs
  | a :: as, bs =>
    bs.takeWhile (fun b => decide (¬ pairLE a b)) ++
      a :: std.merge as (bs.dropWhile (fun b => decide (¬ pairLE a b)))

/-- `std::unique` followed by the `resize` to the returned end: of every run of
equal consecutive entries the first is kept. -/
def std.unique : List (Int × Int) → List (Int × Int)
  | [] => []
  | [a] => [a]
  | a :: b :: rest => if a = b then std.unique (b :: rest) else a :: std.unique (b :: rest)

/-- The method `Import::setUnion (rhs)`, in the build without
`HAVE_TPETRA_DEBUG` and without `TPETRA_IMPORT_SETUNION_USE_CREATE_FROM_SENDS`.
Collaborators are parameters: `isSameAs` is `Map::isSameAs`, `mapCtor` is the Map
constructor applied to the union target GIDs, `createFromRecvs` is the
Distributor call, and `remotePIDs1`, `remotePIDs2` are the arrays filled by
`Import_Util::getRemotePIDs` for `this` and for `rhs`. A loop that fills a
freshly sized array in index order is written as a `map` over the index range. -/
def setUnion (isSameAs : Map → Map → Bool) (mapCtor : List Int → Map)
    (createFromRecvs : List Int → List Int → Except ImportError (List Int × List Int))
    (this rhs : ImportData) (remotePIDs1 remotePIDs2 : List Int) :
    Except ImportError ImportData :=
  let srcMap := this.source_
  let tgtMap1 := this.target_
  let tgtMap2 := rhs.target_
  if isSameAs tgtMap1 tgtMap2 then
    Except.ok (Import.copy this)
  else
    let tgtGIDs1 := tgtMap1.getNodeElementList
    let tgtGIDs2 := tgtMap2.getNodeElementList
    -- the initial sequence of "same" GIDs
    let numSameGIDs1 := getNumSameIDs this
    let numSameGIDs2 := getNumSameIDs rhs
    let sameGIDs1 := view tgtGIDs1 0 numSameGIDs1
    let sameGIDs2 := view tgtGIDs2 0 numSameGIDs2
    let tgtMap1HadMaxSameGIDs := decide (numSameGIDs1 ≥ numSameGIDs2)
    let numSameIDsUnion := if tgtMap1HadMaxSameGIDs then numSameGIDs1 else numSameGIDs2
    let unionTgtGIDs0 := if tgtMap1HadMaxSameGIDs then sameGIDs1 else sameGIDs2
    let doubleCountedSameGIDs :=
      if tgtMap1HadMaxSameGIDs then view tgtGIDs1 numSameGIDs2 (numSameGIDs1 - numSameGIDs2)
      else view tgtGIDs2 numSameGIDs1 (numSameGIDs2 - numSameGIDs1)
    -- the permute IDs
    let curTgtLid0 : Int := Int.ofNat numSameIDsUnion
    let permuteToLIDs1 := this.permuteToLIDs_
    let permuteToLIDs2 := rhs.permuteToLIDs_
    let numPermuteIDs1 := getNumPermuteIDs this
    let numPermuteIDs2 := getNumPermuteIDs rhs
    let permuteGIDs1 := std.sort ((List.range numPermuteIDs1).map
      (fun k => tgtMap1.globalElement (permuteToLIDs1.getD k 0)))
    let permuteGIDs2 := std.sort ((List.range numPermuteIDs2).map
      (fun k => tgtMap2.globalElement (permuteToLIDs2.getD k 0)))
    let reduced1 :=
      if tgtMap1HadMaxSameGIDs then permuteGIDs1
      else std.set_difference permuteGIDs1 doubleCountedSameGIDs
    let reduced2 :=
      if tgtMap1HadMaxSameGIDs then std.set_difference permuteGIDs2 doubleCountedSameGIDs
      else permuteGIDs2
    let unionTgtGIDs1 := unionTgtGIDs0 ++ std.set_union reduced1 reduced2
    let numPermuteIDsUnion := unionTgtGIDs1.length - numSameIDsUnion
    let permuteGIDsUnion := view unionTgtGIDs1 numSameIDsUnion numPermuteIDsUnion
    let permuteToLIDsUnion := (List.range numPermuteIDsUnion).map
      (fun (k : Nat) => curTgtLid0 + Int.ofNat k)
    let curTgtLid1 : Int := curTgtLid0 + Int.ofNat numPermuteIDsUnion
    let permuteFromLIDsUnion := (List.range numPermuteIDsUnion).map
      (fun k => srcMap.getLocalElement (permuteGIDsUnion.getD k 0))
    -- the remote IDs
    let remoteLIDs1 := this.remoteLIDs_
    let remoteLIDs2 := rhs.remoteLIDs_
    let remotePGIDs1 := std.sortPairs ((List.range remotePIDs1.length).map
      (fun k => (remotePIDs1.getD k 0, tgtMap1.globalElement (remoteLIDs1.getD k 0))))
    let remotePGIDs2 := std.sortPairs ((List.range remotePIDs2.length).map
      (fun k => (remotePIDs2.getD k 0, tgtMap2.globalElement (remoteLIDs2.getD k 0))))
    let remotePGUnion := std.unique (std.merge remotePGIDs1 remotePGIDs2)
    let numRemoteIDsUnion := remotePGUnion.length
    let remoteLIDsUnion := (List.range numRemoteIDsUnion).map
      (fun (k : Nat) => curTgtLid1 + Int.ofNat k)
    let remotePIDsUnion := (List.range numRemoteIDsUnion).map
      (fun k => (remotePGUnion.getD k (0, 0)).1)
    let remoteGIDsUnion := (List.range numRemoteIDsUnion).map
      (fun k => (remotePGUnion.getD k (0, 0)).2)
    let unionTgtGIDs2 := unionTgtGIDs1 ++ (List.range numRemoteIDsUnion).map
      (fun k => remoteGIDsUnion.getD k 0)
    -- the union target Map
    let unionTgtMap := mapCtor unionTgtGIDs2
    -- the export IDs
    match createFromRecvs remoteGIDsUnion remotePIDsUnion with
    | Except.error e => Except.error e
    | Except.ok out =>
      let exportGIDsUnion := out.1
      let exportPIDsUnion := out.2
      let numExportIDsUnion := exportGIDsUnion.length
      let exportLIDsUnion := (List.range numExportIDsUnion).map
        (fun k => srcMap.getLocalElement (exportGIDsUnion.getD k 0))
      match Import.expert srcMap unionTgtMap numSameIDsUnion
          { permuteToLIDs := permuteToLIDsUnion, permuteFromLIDs := permuteFromLIDsUnion,
            remoteLIDs := remoteLIDsUnion, exportLIDs := exportLIDsUnion,
            exportPIDs := exportPIDsUnion } with
      | Except.error e => Except.error e
      | Except.ok r => Except.ok r.1

/-- The method `Import::setUnion ()` without argument: the union of the plan
with its own source Map. `mapCtor` is the Map constructor applied to the new
target GIDs. -/
def setUnionSelf (mapCtor : List Int → Map) (this : ImportData) :
    Except ImportError ImportData :=
  let srcMap := this.source_
  let tgtMap := this.target_
  let srcGIDs := srcMap.getNodeElementList
  let tgtGIDs := tgtMap.getNodeElementList
  let numSameIDsNew := srcMap.getNodeNumElements
  let numRemoteIDsNew := getNumRemoteIDs this
  let permuteToLIDsNew : List Int := []
  let permuteFromLIDsNew : List Int := []
  let remoteLIDsOld := this.remoteLIDs_
  let GIDs0 := List.replicate (numSameIDsNew + numRemoteIDsNew) (0 : Int)
  let GIDs1 := (List.range numSameIDsNew).foldl
    (fun GIDs i => GIDs.set i (srcGIDs.getD i 0)) GIDs0
  let st := (List.range numRemoteIDsNew).foldl
    (fun (st : List Int × List Int) i =>
      (st.1.set (numSameIDsNew + i) (tgtGIDs.getD (remoteLIDsOld.getD i 0).toNat 0),
       st.2.set i (Int.ofNat numSameIDsNew + Int.ofNat i)))
    (GIDs1, List.replicate numRemoteIDsNew (0 : Int))
  let targetMapNew := mapCtor st.1
  let exportPIDsnew := this.exportPIDs_
  let exportLIDsnew := this.exportLIDs_
  match Import.expert srcMap targetMapNew numSameIDsNew
      { permuteToLIDs := permuteToLIDsNew, permuteFromLIDs := permuteFromLIDsNew,
        remoteLIDs := st.2, exportLIDs := exportLIDsnew, exportPIDs := exportPIDsnew } with
  | Except.error e => Except.error e
  | Except.ok r => Except.ok r.1

/-- One iteration `i` of the loop of `createRemoteOnlyImport`: the new remote
LID is looked up and stored, and the order test throws `std::runtime_error`. -/
def remoteOnlyStep (remoteTarget target : Map) (oldRemoteLIDs : List Int)
    (newRemoteLIDs : List Int) (i : Nat) : Except ImportError (List Int) :=
  let stored := newRemoteLIDs.set i
    (remoteTarget.getLocalElement (target.globalElement (oldRemoteLIDs.getD i 0)))
  if i > 0 ∧ stored.getD i 0 < stored.getD (i - 1) 0 then
    Except.error ImportError.runtime_error
  else Except.ok stored

/-- The loop `for (size_t i = 0; i < NumRemotes; ++i)` of
`createRemoteOnlyImport`, stopped by the first `throw`. -/
def remoteOnlyLoop (remoteTarget target : Map) (oldRemoteLIDs : List Int) :
    List Nat → List Int → Except ImportError (List Int)
  | [], newRemoteLIDs => Except.ok newRemoteLIDs
  | i :: is, newRemoteLIDs =>
    match remoteOnlyStep remoteTarget target oldRemoteLIDs newRemoteLIDs i with
    | Except.error e => Except.error e
    | Except.ok stored => remoteOnlyLoop remoteTarget target oldRemoteLIDs is stored

/-- The method `Import::createRemoteOnlyImport (remoteTarget)`. -/
def createRemoteOnlyImport (this : ImportData) (remoteTarget : Map) :
    Except ImportError ImportData :=
  let NumRemotes := getNumRemoteIDs this
  if NumRemotes ≠ remoteTarget.getNodeNumElements then
    Except.error ImportError.runtime_error
  else
    let oldRemoteLIDs := this.remoteLIDs_
    match remoteOnlyLoop remoteTarget this.target_ oldRemoteLIDs (List.range NumRemotes)
        (List.replicate NumRemotes (0 : Int)) with
    | Except.error e => Except.error e
    | Except.ok newRemoteLIDs =>
      let newExportPIDs := this.exportPIDs_
      let newExportLIDs := this.exportLIDs_
      let dummy : List Int := []
      match Import.expert this.source_ remoteTarget 0
          { permuteToLIDs := dummy, permuteFromLIDs := dummy, remoteLIDs := newRemoteLIDs,
            exportLIDs := newExportLIDs, exportPIDs := newExportPIDs } with
      | Except.error e => Except.error e
      | Except.ok r => Except.ok r.1

/-- Modelled from the spec: `Map::isSameAs` as the same-structure check of
section 4.5, on one rank: the two Maps have the same node element list. -/
def sameElementLists (a b : Map) : Bool :=
  decide (a.getNodeElementList = b.getNodeElementList)

/-- The remote LIDs `createRemoteOnlyImport` computes for the plan `this` and
the Map `remoteTarget`: entry `i` is
`remoteTarget.getLocalElement (target.getGlobalElement (oldRemoteLIDs[i]))`. -/
def recomputedRemoteLIDs (this : ImportData) (remoteTarget : Map) : List Int :=
  this.remoteLIDs_.map (fun r => remoteTarget.getLocalElement (this.target_.globalElement r))

/-- The number of "same" IDs of the union plan computed by `setUnion`:
`numSameIDsUnion`. -/
def unionNumSame (this rhs : ImportData) : Nat :=
  if getNumSameIDs this ≥ getNumSameIDs rhs then getNumSameIDs this else getNumSameIDs rhs

/-- The initial "same" GIDs `setUnion` copies to `unionTgtGIDs`: the same-prefix
of target 1 when it is at least as long as that of target 2, else of target 2. -/
def unionSameGIDs (this rhs : ImportData) : List Int :=
  if getNumSameIDs this ≥ getNumSameIDs rhs then
    view this.target_.getNodeElementList 0 (getNumSameIDs this)
  else view rhs.target_.getNodeElementList 0 (getNumSameIDs rhs)

/-- The view `doubleCountedSameGIDs` of `setUnion`. -/
def unionDoubleCounted (this rhs : ImportData) : List Int :=
  if getNumSameIDs this ≥ getNumSameIDs rhs then
    view this.target_.getNodeElementList (getNumSameIDs rhs)
      (getNumSameIDs this - getNumSameIDs rhs)
  else
    view rhs.target_.getNodeElementList (getNumSameIDs this)
      (getNumSameIDs rhs - getNumSameIDs this)

/-- The array `permuteGIDs1` (for `this`) or `permuteGIDs2` (for `rhs`) of
`setUnion` after `std::sort`: the GIDs at the permute-to LIDs of one input. -/
def sortedPermuteGIDs (d : ImportData) : List Int :=
  std.sort ((List.range (getNumPermuteIDs d)).map
    (fun k => d.target_.globalElement (d.permuteToLIDs_.getD k 0)))

/-- The permute GIDs `setUnion` appends to `unionTgtGIDs`: the `std::set_union`
of the two sorted permute GID arrays, after the `std::set_difference` with
`doubleCountedSameGIDs` on the input with the shorter same-prefix. -/
def unionPermuteGIDs (this rhs : ImportData) : List Int :=
  if getNumSameIDs this ≥ getNumSameIDs rhs then
    std.set_union (sortedPermuteGIDs this)
      (std.set_difference (sortedPermuteGIDs rhs) (unionDoubleCounted this rhs))
  else
    std.set_union (std.set_difference (sortedPermuteGIDs this) (unionDoubleCounted this rhs))
      (sortedPermuteGIDs rhs)

/-- The array `remotePGIDs1` (or `remotePGIDs2`) of `setUnion` after `std::sort`:
the (owner PID, GID) pairs of the remote LIDs of one input. -/
def sortedRemotePGIDs (d : ImportData) (remotePIDs : List Int) : List (Int × Int) :=
  std.sortPairs ((List.range remotePIDs.length).map
    (fun k => (remotePIDs.getD k 0, d.target_.globalElement (d.remoteLIDs_.getD k 0))))

/-- The array `remotePGUnion` of `setUnion` after `std::merge`, `std::unique`
and `resize`. -/
def unionRemotePGs (this rhs : ImportData) (remotePIDs1 remotePIDs2 : List Int) :
    List (Int × Int) :=
  std.unique (std.merge (sortedRemotePGIDs this remotePIDs1) (sortedRemotePGIDs rhs remotePIDs2))

/-- The array `unionTgtGIDs` of `setUnion` when it is handed to the Map
constructor: same GIDs, then permute GIDs, then remote GIDs. -/
def unionTgtGIDs (this rhs : ImportData) (remotePIDs1 remotePIDs2 : List Int) : List Int :=
  unionSameGIDs this rhs ++ unionPermuteGIDs this rhs
    ++ (unionRemotePGs this rhs remotePIDs1 remotePIDs2).map (fun e => e.2)

/-- The invariants the classifier establishes for a plan: the same-prefix of
the target is the prefix of the source, the two permute lists are parallel, and
the same, permute and remote LIDs together are exactly the target LIDs. -/
def ClassifierInvariant (d : ImportData) : Prop :=
  d.numSameIDs_ ≤ d.source_.getNodeElementList.length ∧
  d.numSameIDs_ ≤ d.target_.getNodeElementList.length ∧
  d.target_.getNodeElementList.take d.numSameIDs_
    = d.source_.getNodeElementList.take d.numSameIDs_ ∧
  d.permuteToLIDs_.length = d.permuteFromLIDs_.length ∧
  List.Perm ((List.range d.numSameIDs_).map Int.ofNat ++ (d.permuteToLIDs_ ++ d.remoteLIDs_))
    ((List.range d.target_.getNodeElementList.length).map Int.ofNat)

/-- The plan the classifier `setupSamePermuteRemote` builds on one rank for a
source Map with element list `S` and a target Map with element list `T`, both
distributed, before any export set-up. -/
def classifiedPlan (S T : List Int) : ImportData :=
  (setupSamePermuteRemote
    (ImportData.new (Map.ofList S true (directoryLookup [S]))
      (Map.ofList T true (directoryLookup [S]))) []).1

/-- A Map constructor for the union target of `setUnion` in one-rank examples:
the Map with the given element list. -/
def unionMapCtor (S : List Int) (elems : List Int) : Map :=
  Map.ofList elems true (directoryLookup [S])

/-- A Distributor call `createFromRecvs` on one rank that no other rank asks
for anything: no export GIDs, no export PIDs. -/
def noExports (_remoteGIDs _remotePIDs : List Int) :
    Except ImportError (List Int × List Int) :=
  Except.ok ([], [])

/-- `operator<` of `std::pair<int, GO>`: lexicographic, the process rank first. -/
def pairLT (a b : Int × Int) : Prop :=
  a.1 < b.1 ∨ (a.1 = b.1 ∧ a.2 < b.2)

instance pairLT.decidable : DecidableRel pairLT :=
  fun a b => inferInstanceAs (Decidable (a.1 < b.1 ∨ (a.1 = b.1 ∧ a.2 < b.2)))

/-- The array `remotePGIDs1` (or `remotePGIDs2`) of `setUnion` as its loop fills
it, before `std::sort`: entry `k` is the pair of `remotePIDs[k]` and the GID of
the target at `remoteLIDs[k]`. -/
def remotePGIDs (d : ImportData) (remotePIDs : List Int) : List (Int × Int) :=
  (List.range remotePIDs.length).map
    (fun k => (remotePIDs.getD k 0, d.target_.globalElement (d.remoteLIDs_.getD k 0)))

/-- The plan invariant on the permute entries ("its GID exists in source"): the
GID of the target at every permute-to LID is held by the source Map. -/
def PermutesInSource (d : ImportData) : Prop :=
  ∀ l ∈ d.permuteToLIDs_, d.source_.getLocalElement (d.target_.globalElement l) ≠ LINVALID

/-- One iteration of the classification loop of the "createExpert" constructor
(the body of `for (LO tgtLid = numSameGids; tgtLid < numTgtLids; ++tgtLid)`),
acting on the plan data and the array `remoteGIDs`: a target GID that the source
does not hold is recorded only `if (!useRemotePIDGID)`. -/
def createExpertStep (source : Map) (targetGIDs : List Int) (useRemotePIDGID : Bool)
    (st : ImportData × List Int) (tgtLid : Nat) : ImportData × List Int :=
  let curTargetGid := targetGIDs.getD tgtLid 0
  let srcLid := source.getLocalElement curTargetGid
  if srcLid ≠ LINVALID then
    ({ st.1 with
        permuteToLIDs_ := st.1.permuteToLIDs_ ++ [(tgtLid : Int)]
        permuteFromLIDs_ := st.1.permuteFromLIDs_ ++ [srcLid] }, st.2)
  else
    if !useRemotePIDGID then
      ({ st.1 with remoteLIDs_ := st.1.remoteLIDs_ ++ [(tgtLid : Int)] },
        st.2 ++ [curTargetGid])
    else st

/-- What the "createExpert" constructor leaves behind: the new plan and the two
arrays it takes by non-const reference, `userRemotePIDs` and `remoteGIDs`. -/
structure CreateExpertResult where
  plan : ImportData
  userRemotePIDs : List Int
  remoteGIDs : List Int

/-- The "createExpert" constructor `Import (source, target, userRemotePIDs,
remoteGIDs, userExportLIDs, userExportPIDs, useRemotePIDGID, plist, out)`. The
Distributor call `createFromSendsAndRecvs (exportPIDs_, remoteProcIDs)` is a
parameter: it returns or throws. -/
def Import.createExpert
    (createFromSendsAndRecvs : List Int → List Int → Except ImportError Unit)
    (source target : Map) (userRemotePIDs remoteGIDs userExportLIDs userExportPIDs : List Int)
    (useRemotePIDGID : Bool) : Except ImportError CreateExpertResult :=
  let sourceGIDs := source.getNodeElementList
  let targetGIDs := target.getNodeElementList
  let numSrcGids := sourceGIDs.length
  let numTgtGids := targetGIDs.length
  let numGids := min numSrcGids numTgtGids
  let numSameGids := numSameLoop sourceGIDs targetGIDs numGids numGids 0
  let d0 := { ImportData.new source target with numSameIDs_ := numSameGids }
  let remoteGIDs0 := if !useRemotePIDGID then [] else remoteGIDs
  let d1 := if !useRemotePIDGID then { d0 with remoteLIDs_ := [] } else d0
  let st := (List.range' numSameGids (numTgtGids - numSameGids)).foldl
    (createExpertStep source targetGIDs useRemotePIDGID) (d1, remoteGIDs0)
  let d2 := TPETRA_ABUSE_WARNING (decide (getNumRemoteIDs st.1 > 0) && !source.isDistributed)
    AbuseWarning.remoteLIDsButSourceNotDistributed st.1
  let remoteGIDs1 := st.2
  let looked := source.getRemoteIndexList remoteGIDs1
  let remotePIDs := looked.1
  let lookup := looked.2
  let remoteProcIDs := if useRemotePIDGID then userRemotePIDs else remotePIDs
  if lookup = LookupStatus.IDNotPresent then
    Except.error ImportError.runtime_error
  else if ¬ (remoteProcIDs.length = remoteGIDs1.length
      ∧ remoteGIDs1.length = d2.remoteLIDs_.length) then
    Except.error ImportError.runtime_error
  else
    let s := sort3 remoteProcIDs remoteGIDs1 d2.remoteLIDs_
    let d3 := { d2 with remoteLIDs_ := s.2.2 }
    let numExport := userExportPIDs.length
    let filled := (List.range numExport).foldl
      (fun (arrays : List Int × List Int) i =>
        (arrays.1.set i (userExportPIDs.getD i 0), arrays.2.set i (userExportLIDs.getD i 0)))
      (List.replicate numExport (0 : Int), List.replicate numExport (0 : Int))
    let d4 := { d3 with exportPIDs_ := filled.1, exportLIDs_ := filled.2 }
    match createFromSendsAndRecvs d4.exportPIDs_ s.1 with
    | Except.error e => Except.error e
    | Except.ok _ =>
      Except.ok { plan := d4, userRemotePIDs := if useRemotePIDGID then s.1 else userRemotePIDs,
                  remoteGIDs := s.2.1 }

/-- The classifier invariants of a plan in full, as `setupSamePermuteRemote`
establishes them for every pair of Maps: those of `ClassifierInvariant`, and
every target LID classified as permute holds a GID of the source ("permute (its
GID exists in source)"). -/
def PlanInvariant (d : ImportData) : Prop :=
  ClassifierInvariant d ∧ PermutesInSource d

/-- The arrays of the running program: `cells a` is the content of the
`Teuchos::Array` at address `a`, and the addresses below `next` are in use. -/
structure Heap where
  cells : Nat → List Int
  next : Nat

/-- The content of the array at address `a`. -/
def Heap.read (h : Heap) (a : Nat) : List Int := h.cells a

/-- Assignment of the content `v` to the array at address `a`. -/
def Heap.write (h : Heap) (a : Nat) (v : List Int) : Heap :=
  { h with cells := fun b => if b = a then v else h.cells b }

/-- Construction of a new array with content `v` (a local `Teuchos::Array`, or a
member of a new object): the heap with the new array, and its address. -/
def Heap.alloc (h : Heap) (v : List Int) : Heap × Nat :=
  ({ cells := fun b => if b = h.next then v else h.cells b, next := h.next + 1 }, h.next)

/-- `Teuchos::Array::swap`: the arrays at the addresses `a` and `b` exchange
their contents. -/
def Heap.swap (h : Heap) (a b : Nat) : Heap :=
  (h.write a (h.read b)).write b (h.read a)

/-- An `ImportExportData` object in the heap: its Maps, `numSameIDs_`, and the
addresses of its five arrays. -/
structure PlanRef where
  source_ : Map
  target_ : Map
  numSameIDs_ : Nat
  permuteToLIDs_ : Nat
  permuteFromLIDs_ : Nat
  remoteLIDs_ : Nat
  exportLIDs_ : Nat
  exportPIDs_ : Nat

/-- What the accessors of the plan object `p` return in the heap `h`: the plan
data with the current contents of its arrays. -/
def PlanRef.load (p : PlanRef) (h : Heap) : ImportData :=
  { source_ := p.source_, target_ := p.target_, numSameIDs_ := p.numSameIDs_,
    permuteToLIDs_ := h.read p.permuteToLIDs_,
    permuteFromLIDs_ := h.read p.permuteFromLIDs_,
    remoteLIDs_ := h.read p.remoteLIDs_,
    exportLIDs_ := h.read p.exportLIDs_,
    exportPIDs_ := h.read p.exportPIDs_,
    abuseWarnings := [] }

/-- The arrays of the plan object `p` are arrays of the heap `h`. -/
def PlanRef.Allocated (p : PlanRef) (h : Heap) : Prop :=
  p.permuteToLIDs_ < h.next ∧ p.permuteFromLIDs_ < h.next ∧ p.remoteLIDs_ < h.next ∧
  p.exportLIDs_ < h.next ∧ p.exportPIDs_ < h.next

/-- The addresses of the array arguments of the expert constructor, which it
takes by non-const reference. -/
structure ArrayRefs where
  permuteToLIDs : Nat
  permuteFromLIDs : Nat
  remoteLIDs : Nat
  exportLIDs : Nat
  exportPIDs : Nat

/-- The expert constructor on the heap: a fresh `ImportExportData` with five
empty arrays is created, `numSameIDs_` is set, and each array of the new object
is swapped with the argument array (`permuteToLIDs_.swap (permuteToLIDs)`, then
`permuteFromLIDs_`, `remoteLIDs_`, `exportLIDs_`, `exportPIDs_`). Returns the
heap after the call and the new plan object. -/
def Import.expertRef (h : Heap) (source target : Map) (numSameIDs : Nat) (args : ArrayRefs) :
    Except ImportError (Heap × PlanRef) :=
  let a1 := h.alloc []
  let a2 := a1.1.alloc []
  let a3 := a2.1.alloc []
  let a4 := a3.1.alloc []
  let a5 := a4.1.alloc []
  let p : PlanRef :=
    { source_ := source, target_ := target, numSameIDs_ := numSameIDs,
      permuteToLIDs_ := a1.2, permuteFromLIDs_ := a2.2, remoteLIDs_ := a3.2,
      exportLIDs_ := a4.2, exportPIDs_ := a5.2 }
  let h1 := a5.1.swap p.permuteToLIDs_ args.permuteToLIDs
  let h2 := h1.swap p.permuteFromLIDs_ args.permuteFromLIDs
  let h3 := h2.swap p.remoteLIDs_ args.remoteLIDs
  let h4 := h3.swap p.exportLIDs_ args.exportLIDs
  let h5 := h4.swap p.exportPIDs_ args.exportPIDs
  Except.ok (h5, p)

/-- The body of `Import::setUnion (rhs)` up to the call of the expert
constructor, on the data its accessors read: `none` when the targets are the
same (the method then returns a copy of `*this`), else the union target Map,
`numSameIDsUnion` and the contents of the local arrays `permuteToLIDsUnion`,
`permuteFromLIDsUnion`, `remoteLIDsUnion`, `exportLIDsUnion`, `exportPIDsUnion`
that the method hands to the constructor. -/
def setUnionArgs (isSameAs : Map → Map → Bool) (mapCtor : List Int → Map)
    (createFromRecvs : List Int → List Int → Except ImportError (List Int × List Int))
    (this rhs : ImportData) (remotePIDs1 remotePIDs2 : List Int) :
    Except ImportError (Option (Map × Nat × ExpertArrays)) :=
  let srcMap := this.source_
  let tgtMap1 := this.target_
  let tgtMap2 := rhs.target_
  if isSameAs tgtMap1 tgtMap2 then
    Except.ok none
  else
    let tgtGIDs1 := tgtMap1.getNodeElementList
    let tgtGIDs2 := tgtMap2.getNodeElementList
    -- the initial sequence of "same" GIDs
    let numSameGIDs1 := getNumSameIDs this
    let numSameGIDs2 := getNumSameIDs rhs
    let sameGIDs1 := view tgtGIDs1 0 numSameGIDs1
    let sameGIDs2 := view tgtGIDs2 0 numSameGIDs2
    let tgtMap1HadMaxSameGIDs := decide (numSameGIDs1 ≥ numSameGIDs2)
    let numSameIDsUnion := if tgtMap1HadMaxSameGIDs then numSameGIDs1 else numSameGIDs2
    let unionTgtGIDs0 := if tgtMap1HadMaxSameGIDs then sameGIDs1 else sameGIDs2
    let doubleCountedSameGIDs :=
      if tgtMap1HadMaxSameGIDs then view tgtGIDs1 numSameGIDs2 (numSameGIDs1 - numSameGIDs2)
      else view tgtGIDs2 numSameGIDs1 (numSameGIDs2 - numSameGIDs1)
    -- the permute IDs
    let curTgtLid0 : Int := Int.ofNat numSameIDsUnion
    let permuteToLIDs1 := this.permuteToLIDs_
    let permuteToLIDs2 := rhs.permuteToLIDs_
    let numPermuteIDs1 := getNumPermuteIDs this
    let numPermuteIDs2 := getNumPermuteIDs rhs
    let permuteGIDs1 := std.sort ((List.range numPermuteIDs1).map
      (fun k => tgtMap1.globalElement (permuteToLIDs1.getD k 0)))
    let permuteGIDs2 := std.sort ((List.range numPermuteIDs2).map
      (fun k => tgtMap2.globalElement (permuteToLIDs2.getD k 0)))
    let reduced1 :=
      if tgtMap1HadMaxSameGIDs then permuteGIDs1
      else std.set_difference permuteGIDs1 doubleCountedSameGIDs
    let reduced2 :=
      if tgtMap1HadMaxSameGIDs then std.set_difference permuteGIDs2 doubleCountedSameGIDs
      else permuteGIDs2
    let unionTgtGIDs1 := unionTgtGIDs0 ++ std.set_union reduced1 reduced2
    let numPermuteIDsUnion := unionTgtGIDs1.length - numSameIDsUnion
    let permuteGIDsUnion := view unionTgtGIDs1 numSameIDsUnion numPermuteIDsUnion
    let permuteToLIDsUnion := (List.range numPermuteIDsUnion).map
      (fun (k : Nat) => curTgtLid0 + Int.ofNat k)
    let curTgtLid1 : Int := curTgtLid0 + Int.ofNat numPermuteIDsUnion
    let permuteFromLIDsUnion := (List.range numPermuteIDsUnion).map
      (fun k => srcMap.getLocalElement (permuteGIDsUnion.getD k 0))
    -- the remote IDs
    let remoteLIDs1 := this.remoteLIDs_
    let remoteLIDs2 := rhs.remoteLIDs_
    let remotePGIDs1 := std.sortPairs ((List.range remotePIDs1.length).map
      (fun k => (remotePIDs1.getD k 0, tgtMap1.globalElement (remoteLIDs1.getD k 0))))
    let remotePGIDs2 := std.sortPairs ((List.range remotePIDs2.length).map
      (fun k => (remotePIDs2.getD k 0, tgtMap2.globalElement (remoteLIDs2.getD k 0))))
    let remotePGUnion := std.unique (std.merge remotePGIDs1 remotePGIDs2)
    let numRemoteIDsUnion := remotePGUnion.length
    let remoteLIDsUnion := (List.range numRemoteIDsUnion).map
      (fun (k : Nat) => curTgtLid1 + Int.ofNat k)
    let remotePIDsUnion := (List.range numRemoteIDsUnion).map
      (fun k => (remotePGUnion.getD k (0, 0)).1)
    let remoteGIDsUnion := (List.range numRemoteIDsUnion).map
      (fun k => (remotePGUnion.getD k (0, 0)).2)
    let unionTgtGIDs2 := unionTgtGIDs1 ++ (List.range numRemoteIDsUnion).map
      (fun k => remoteGIDsUnion.getD k 0)
    -- the union target Map
    let unionTgtMap := mapCtor unionTgtGIDs2
    -- the export IDs
    match createFromRecvs remoteGIDsUnion remotePIDsUnion with
    | Except.error e => Except.error e
    | Except.ok out =>
      let exportGIDsUnion := out.1
      let exportPIDsUnion := out.2
      let numExportIDsUnion := exportGIDsUnion.length
      let exportLIDsUnion := (List.range numExportIDsUnion).map
        (fun k => srcMap.getLocalElement (exportGIDsUnion.getD k 0))
      Except.ok (some (unionTgtMap, numSameIDsUnion,
        { permuteToLIDs := permuteToLIDsUnion, permuteFromLIDs := permuteFromLIDsUnion,
          remoteLIDs := remoteLIDsUnion, exportLIDs := exportLIDsUnion,
          exportPIDs := exportPIDsUnion }))

/-- The method `Import::setUnion (rhs)` on the heap: `this` and `rhs` are read
through their accessors; when the targets are the same the new Import shares
the `ImportExportData` of `this`; else the five local arrays are constructed and
handed by reference to the expert constructor. -/
def setUnionRef (isSameAs : Map → Map → Bool) (mapCtor : List Int → Map)
    (createFromRecvs : List Int → List Int → Except ImportError (List Int × List Int))
    (h : Heap) (this rhs : PlanRef) (remotePIDs1 remotePIDs2 : List Int) :
    Except ImportError (Heap × PlanRef) :=
  match setUnionArgs isSameAs mapCtor createFromRecvs (this.load h) (rhs.load h)
      remotePIDs1 remotePIDs2 with
  | Except.error e => Except.error e
  | Except.ok none => Except.ok (h, this)
  | Except.ok (some a) =>
    let permuteFromLIDsUnion := h.alloc a.2.2.permuteFromLIDs
    let permuteToLIDsUnion := permuteFromLIDsUnion.1.alloc a.2.2.permuteToLIDs
    let remoteLIDsUnion := permuteToLIDsUnion.1.alloc a.2.2.remoteLIDs
    let exportLIDsUnion := remoteLIDsUnion.1.alloc a.2.2.exportLIDs
    let exportPIDsUnion := exportLIDsUnion.1.alloc a.2.2.exportPIDs
    Import.expertRef exportPIDsUnion.1 this.source_ a.1 a.2.1
      { permuteToLIDs := permuteToLIDsUnion.2, permuteFromLIDs := permuteFromLIDsUnion.2,
        remoteLIDs := remoteLIDsUnion.2, exportLIDs := exportLIDsUnion.2,
        exportPIDs := exportPIDsUnion.2 }

/-- The method `Import::setUnion ()` on the heap: the local arrays
`permuteToLIDsNew`, `permuteFromLIDsNew` (empty), `remoteLIDsNew`, and the copies
`exportPIDsnew (getExportPIDs ())`, `exportLIDsnew (getExportLIDs ())` are
constructed and handed by reference to the expert constructor. -/
def setUnionSelfRef (mapCtor : List Int → Map) (h : Heap) (this : PlanRef) :
    Except ImportError (Heap × PlanRef) :=
  let srcMap := this.source_
  let tgtMap := this.target_
  let srcGIDs := srcMap.getNodeElementList
  let tgtGIDs := tgtMap.getNodeElementList
  let numSameIDsNew := srcMap.getNodeNumElements
  let numRemoteIDsNew := (h.read this.remoteLIDs_).length
  let permuteToLIDsNew := h.alloc []
  let permuteFromLIDsNew := permuteToLIDsNew.1.alloc []
  let remoteLIDsOld := permuteFromLIDsNew.1.read this.remoteLIDs_
  let GIDs0 := List.replicate (numSameIDsNew + numRemoteIDsNew) (0 : Int)
  let GIDs1 := (List.range numSameIDsNew).foldl
    (fun GIDs i => GIDs.set i (srcGIDs.getD i 0)) GIDs0
  let st := (List.range numRemoteIDsNew).foldl
    (fun (st : List Int × List Int) i =>
      (st.1.set (numSameIDsNew + i) (tgtGIDs.getD (remoteLIDsOld.getD i 0).toNat 0),
       st.2.set i (Int.ofNat numSameIDsNew + Int.ofNat i)))
    (GIDs1, List.replicate numRemoteIDsNew (0 : Int))
  let remoteLIDsNew := permuteFromLIDsNew.1.alloc st.2
  let targetMapNew := mapCtor st.1
  let exportPIDsnew := remoteLIDsNew.1.alloc (remoteLIDsNew.1.read this.exportPIDs_)
  let exportLIDsnew := exportPIDsnew.1.alloc (exportPIDsnew.1.read this.exportLIDs_)
  Import.expertRef exportLIDsnew.1 srcMap targetMapNew numSameIDsNew
    { permuteToLIDs := permuteToLIDsNew.2, permuteFromLIDs := permuteFromLIDsNew.2,
      remoteLIDs := remoteLIDsNew.2, exportLIDs := exportLIDsnew.2,
      exportPIDs := exportPIDsnew.2 }

/-- The method `Import::createRemoteOnlyImport (remoteTarget)` on the heap: the
local array `newRemoteLIDs`, the copies `newExportPIDs (getExportPIDs ())`,
`newExportLIDs (getExportLIDs ())` and the empty array `dummy` are constructed,
and the expert constructor is called with `dummy` for both permute arrays. -/
def createRemoteOnlyImportRef (h : Heap) (this : PlanRef) (remoteTarget : Map) :
    Except ImportError (Heap × PlanRef) :=
  let NumRemotes := (h.read this.remoteLIDs_).length
  if NumRemotes ≠ remoteTarget.getNodeNumElements then
    Except.error ImportError.runtime_error
  else
    let oldRemoteLIDs := h.read this.remoteLIDs_
    match remoteOnlyLoop remoteTarget this.target_ oldRemoteLIDs (List.range NumRemotes)
        (List.replicate NumRemotes (0 : Int)) with
    | Except.error e => Except.error e
    | Except.ok filled =>
      let newRemoteLIDs := h.alloc filled
      let newExportPIDs := newRemoteLIDs.1.alloc (newRemoteLIDs.1.read this.exportPIDs_)
      let newExportLIDs := newExportPIDs.1.alloc (newExportPIDs.1.read this.exportLIDs_)
      let dummy := newExportLIDs.1.alloc []
      Import.expertRef dummy.1 this.source_ remoteTarget 0
        { permuteToLIDs := dummy.2, permuteFromLIDs := dummy.2,
          remoteLIDs := newRemoteLIDs.2, exportLIDs := newExportLIDs.2,
          exportPIDs := newExportPIDs.2 }

/-- A heap holding the five arrays of one plan for source `[0, 1, 2]` and target
`[0, 2, 9, 7]`: permute-to `[1]`, permute-from `[2]`, remote LIDs `[2, 3]`,
export LIDs `[1]`, export PIDs `[3]`, at the addresses 0 to 4. -/
def exampleHeap : Heap :=
  { cells := fun a =>
      if a = 0 then [1] else if a = 1 then [2] else if a = 2 then [2, 3]
      else if a = 3 then [1] else if a = 4 then [3] else [],
    next := 5 }

/-- The plan object whose arrays `exampleHeap` holds. -/
def examplePlanRef : PlanRef :=
  { source_ := Map.ofList [0, 1, 2] true (directoryLookup [[0, 1, 2], [7, 9]]),
    target_ := Map.ofList [0, 2, 9, 7] true (directoryLookup [[0, 1, 2], [7, 9]]),
    numSameIDs_ := 1, permuteToLIDs_ := 0, permuteFromLIDs_ := 1, remoteLIDs_ := 2,
    exportLIDs_ := 3, exportPIDs_ := 4 }

end Tpetra

/-! # Theorems -/

namespace Tpetra

/-! ## The same-prefix scan -/

theorem numSameLoop_spec (S T : List Int) (numGids : Nat) :
    ∀ (fuel i : Nat), i ≤ numGids → numGids ≤ i + fuel →
      (∀ j, j < i → S.getD j 0 = T.getD j 0) →
      i ≤ numSameLoop S T numGids fuel i ∧
      numSameLoop S T numGids fuel i ≤ numGids ∧
      (∀ j, j < numSameLoop S T numGids fuel i → S.getD j 0 = T.getD j 0) ∧
      (numSameLoop S T numGids fuel i = numGids ∨
        S.getD (numSameLoop S T numGids fuel i) 0
          ≠ T.getD (numSameLoop S T numGids fuel i) 0) := by
  intro fuel
  induction fuel with
  | zero =>
    intro i h1 h2 h3
    simp only [numSameLoop]
    exact ⟨le_refl _, h1, h3, Or.inl (by omega)⟩
  | succ k ih =>
    intro i h1 h2 h3
    simp only [numSameLoop]
    split
    · rename_i h
      obtain ⟨a, b, c, e⟩ := ih (i + 1) (by omega) (by omega) (by
        intro j hj
        rcases Nat.lt_succ_iff_lt_or_eq.mp hj with hlt | heq
        · exact h3 j hlt
        · subst heq; exact h.2)
      exact ⟨by omega, b, c, e⟩
    · rename_i h
      refine ⟨le_refl _, h1, h3, ?_⟩
      by_cases hlt : i < numGids
      · right; intro heq; exact h ⟨hlt, heq⟩
      · left; omega

/-- The iteration bound of the scan is never what stops it: any two bounds of
at least `numGids - i` give the same result. -/
theorem numSameLoop_fuel_irrelevant (S T : List Int) (numGids : Nat) :
    ∀ (fuel fuel2 i : Nat), numGids ≤ i + fuel → numGids ≤ i + fuel2 →
      numSameLoop S T numGids fuel i = numSameLoop S T numGids fuel2 i := by
  intro fuel
  induction fuel with
  | zero =>
    intro fuel2 i h1 _
    cases fuel2 with
    | zero => rfl
    | succ m =>
      simp only [numSameLoop]
      rw [if_neg]
      intro h; omega
  | succ k ih =>
    intro fuel2 i h1 h2
    cases fuel2 with
    | zero =>
      simp only [numSameLoop]
      rw [if_neg]
      intro h; omega
    | succ m =>
      simp only [numSameLoop]
      split
      · exact ih m (i + 1) (by omega) (by omega)
      · rfl

theorem getD_eq_get?_of_lt (L : List Int) (i : Nat) (h : i < L.length) :
    L[i]? = some (L.getD i 0) := by
  simp [List.getD, List.getElem?_eq_getElem h]

/-! ## The classification loop -/

theorem classifyStep_local (source : Map) (T : List Int) (st : ImportData × List Int)
    (t : Nat) (h : inSource source T t = true) :
    classifyStep source T st t =
      ({ st.1 with
          permuteToLIDs_ := st.1.permuteToLIDs_ ++ [(t : Int)]
          permuteFromLIDs_ := st.1.permuteFromLIDs_ ++ [source.getLocalElement (T.getD t 0)] },
        st.2) := by
  have hp : source.getLocalElement (T.getD t 0) ≠ LINVALID := by
    simpa [inSource] using h
  simp only [classifyStep]
  rw [if_pos hp]

theorem classifyStep_remote (source : Map) (T : List Int) (st : ImportData × List Int)
    (t : Nat) (h : inSource source T t = false) :
    classifyStep source T st t =
      ({ st.1 with remoteLIDs_ := st.1.remoteLIDs_ ++ [(t : Int)] }, st.2 ++ [T.getD t 0]) := by
  have hp : ¬ source.getLocalElement (T.getD t 0) ≠ LINVALID := by
    simpa [inSource] using h
  simp only [classifyStep]
  rw [if_neg hp]

theorem classify_foldl (source : Map) (T : List Int) :
    ∀ (ts : List Nat) (st : ImportData × List Int),
      (ts.foldl (classifyStep source T) st).1.permuteToLIDs_
        = st.1.permuteToLIDs_ ++ (ts.filter (inSource source T)).map Int.ofNat ∧
      (ts.foldl (classifyStep source T) st).1.permuteFromLIDs_
        = st.1.permuteFromLIDs_
          ++ (ts.filter (inSource source T)).map (fun t => source.getLocalElement (T.getD t 0)) ∧
      (ts.foldl (classifyStep source T) st).1.remoteLIDs_
        = st.1.remoteLIDs_
          ++ (ts.filter (fun t => !inSource source T t)).map Int.ofNat ∧
      (ts.foldl (classifyStep source T) st).2
        = st.2 ++ (ts.filter (fun t => !inSource source T t)).map (fun t => T.getD t 0) ∧
      (ts.foldl (classifyStep source T) st).1.numSameIDs_ = st.1.numSameIDs_ ∧
      (ts.foldl (classifyStep source T) st).1.exportLIDs_ = st.1.exportLIDs_ ∧
      (ts.foldl (classifyStep source T) st).1.exportPIDs_ = st.1.exportPIDs_ ∧
      (ts.foldl (classifyStep source T) st).1.source_ = st.1.source_ ∧
      (ts.foldl (classifyStep source T) st).1.target_ = st.1.target_ ∧
      (ts.foldl (classifyStep source T) st).1.abuseWarnings = st.1.abuseWarnings := by
  intro ts
  induction ts with
  | nil => intro st; simp
  | cons t ts ih =>
    intro st
    simp only [List.foldl_cons]
    obtain ⟨h1, h2, h3, h4, h5, h6, h7, h8, h9, h10⟩ := ih (classifyStep source T st t)
    rw [h1, h2, h3, h4, h5, h6, h7, h8, h9, h10]
    cases hin : inSource source T t with
    | true =>
      rw [classifyStep_local source T st t hin]
      simp [List.filter_cons, hin]
    | false =>
      rw [classifyStep_remote source T st t hin]
      simp [List.filter_cons, hin]

@[simp]
theorem TPETRA_ABUSE_WARNING_source (test : Bool) (w : AbuseWarning) (d : ImportData) :
    (TPETRA_ABUSE_WARNING test w d).source_ = d.source_ := by
  cases test <;> simp [TPETRA_ABUSE_WARNING]

@[simp]
theorem TPETRA_ABUSE_WARNING_target (test : Bool) (w : AbuseWarning) (d : ImportData) :
    (TPETRA_ABUSE_WARNING test w d).target_ = d.target_ := by
  cases test <;> simp [TPETRA_ABUSE_WARNING]

@[simp]
theorem TPETRA_ABUSE_WARNING_numSameIDs (test : Bool) (w : AbuseWarning) (d : ImportData) :
    (TPETRA_ABUSE_WARNING test w d).numSameIDs_ = d.numSameIDs_ := by
  cases test <;> simp [TPETRA_ABUSE_WARNING]

@[simp]
theorem TPETRA_ABUSE_WARNING_permuteToLIDs (test : Bool) (w : AbuseWarning) (d : ImportData) :
    (TPETRA_ABUSE_WARNING test w d).permuteToLIDs_ = d.permuteToLIDs_ := by
  cases test <;> simp [TPETRA_ABUSE_WARNING]

@[simp]
theorem TPETRA_ABUSE_WARNING_permuteFromLIDs (test : Bool) (w : AbuseWarning) (d : ImportData) :
    (TPETRA_ABUSE_WARNING test w d).permuteFromLIDs_ = d.permuteFromLIDs_ := by
  cases test <;> simp [TPETRA_ABUSE_WARNING]

@[simp]
theorem TPETRA_ABUSE_WARNING_remoteLIDs (test : Bool) (w : AbuseWarning) (d : ImportData) :
    (TPETRA_ABUSE_WARNING test w d).remoteLIDs_ = d.remoteLIDs_ := by
  cases test <;> simp [TPETRA_ABUSE_WARNING]

@[simp]
theorem TPETRA_ABUSE_WARNING_exportLIDs (test : Bool) (w : AbuseWarning) (d : ImportData) :
    (TPETRA_ABUSE_WARNING test w d).exportLIDs_ = d.exportLIDs_ := by
  cases test <;> simp [TPETRA_ABUSE_WARNING]

@[simp]
theorem TPETRA_ABUSE_WARNING_exportPIDs (test : Bool) (w : AbuseWarning) (d : ImportData) :
    (TPETRA_ABUSE_WARNING test w d).exportPIDs_ = d.exportPIDs_ := by
  cases test <;> simp [TPETRA_ABUSE_WARNING]

/-- The same-prefix length computed for two element lists. -/
theorem numSame_def (S T : List Int) :
    numSameLoop S T (min S.length T.length) (min S.length T.length) 0 ≤ min S.length T.length ∧
    (∀ j, j < numSameLoop S T (min S.length T.length) (min S.length T.length) 0 →
      S.getD j 0 = T.getD j 0) ∧
    (numSameLoop S T (min S.length T.length) (min S.length T.length) 0 = min S.length T.length ∨
      S.getD (numSameLoop S T (min S.length T.length) (min S.length T.length) 0) 0
        ≠ T.getD (numSameLoop S T (min S.length T.length) (min S.length T.length) 0) 0) := by
  obtain ⟨_, b, c, e⟩ := numSameLoop_spec S T (min S.length T.length)
    (min S.length T.length) 0 (Nat.zero_le _) (by omega) (by intro j hj; omega)
  exact ⟨b, c, e⟩

/-- Closed form of every field written by `setupSamePermuteRemote`. -/
theorem setupSamePermuteRemote_fields (d : ImportData) (remoteGIDs : List Int) :
    (setupSamePermuteRemote d remoteGIDs).1.numSameIDs_
      = numSameLoop d.source_.getNodeElementList d.target_.getNodeElementList
          (min d.source_.getNodeElementList.length d.target_.getNodeElementList.length)
          (min d.source_.getNodeElementList.length d.target_.getNodeElementList.length) 0 ∧
    (setupSamePermuteRemote d remoteGIDs).1.permuteToLIDs_
      = d.permuteToLIDs_ ++
        ((List.range' (setupSamePermuteRemote d remoteGIDs).1.numSameIDs_
            (d.target_.getNodeElementList.length
              - (setupSamePermuteRemote d remoteGIDs).1.numSameIDs_)).filter
          (inSource d.source_ d.target_.getNodeElementList)).map Int.ofNat ∧
    (setupSamePermuteRemote d remoteGIDs).1.permuteFromLIDs_
      = d.permuteFromLIDs_ ++
        ((List.range' (setupSamePermuteRemote d remoteGIDs).1.numSameIDs_
            (d.target_.getNodeElementList.length
              - (setupSamePermuteRemote d remoteGIDs).1.numSameIDs_)).filter
          (inSource d.source_ d.target_.getNodeElementList)).map
          (fun t => d.source_.getLocalElement (d.target_.getNodeElementList.getD t 0)) ∧
    (setupSamePermuteRemote d remoteGIDs).1.remoteLIDs_
      = d.remoteLIDs_ ++
        ((List.range' (setupSamePermuteRemote d remoteGIDs).1.numSameIDs_
            (d.target_.getNodeElementList.length
              - (setupSamePermuteRemote d remoteGIDs).1.numSameIDs_)).filter
          (fun t => !inSource d.source_ d.target_.getNodeElementList t)).map Int.ofNat ∧
    (setupSamePermuteRemote d remoteGIDs).2
      = remoteGIDs ++
        ((List.range' (setupSamePermuteRemote d remoteGIDs).1.numSameIDs_
            (d.target_.getNodeElementList.length
              - (setupSamePermuteRemote d remoteGIDs).1.numSameIDs_)).filter
          (fun t => !inSource d.source_ d.target_.getNodeElementList t)).map
          (fun t => d.target_.getNodeElementList.getD t 0) ∧
    (setupSamePermuteRemote d remoteGIDs).1.exportLIDs_ = d.exportLIDs_ ∧
    (setupSamePermuteRemote d remoteGIDs).1.exportPIDs_ = d.exportPIDs_ ∧
    (setupSamePermuteRemote d remoteGIDs).1.source_ = d.source_ ∧
    (setupSamePermuteRemote d remoteGIDs).1.target_ = d.target_ := by
  simp only [setupSamePermuteRemote, TPETRA_ABUSE_WARNING_source, TPETRA_ABUSE_WARNING_target,
    TPETRA_ABUSE_WARNING_numSameIDs, TPETRA_ABUSE_WARNING_permuteToLIDs,
    TPETRA_ABUSE_WARNING_permuteFromLIDs, TPETRA_ABUSE_WARNING_remoteLIDs,
    TPETRA_ABUSE_WARNING_exportLIDs, TPETRA_ABUSE_WARNING_exportPIDs]
  generalize numSameLoop d.source_.getNodeElementList d.target_.getNodeElementList
    (min d.source_.getNodeElementList.length d.target_.getNodeElementList.length)
    (min d.source_.getNodeElementList.length d.target_.getNodeElementList.length) 0 = n
  obtain ⟨h1, h2, h3, h4, h5, h6, h7, h8, h9, _⟩ := classify_foldl d.source_
    d.target_.getNodeElementList (List.range' n (d.target_.getNodeElementList.length - n))
    ({ d with numSameIDs_ := n }, remoteGIDs)
  rw [h5]
  exact ⟨rfl, h1, h2, h3, h4, h6, h7, h8, h9⟩

/-- C1: `setupSamePermuteRemote` sets `numSameIDs_` to the length `n` of the
longest common prefix of the source element list `S` and the target element
list `T`: `n ≤ min (|S|, |T|)`, `S[i] = T[i]` for every `i < n`, and either
`n = min (|S|, |T|)` or `S[n] ≠ T[n]`. -/
theorem setupSamePermuteRemote_numSame_longest_common_prefix
    (d : ImportData) (remoteGIDs : List Int) :
    getNumSameIDs (setupSamePermuteRemote d remoteGIDs).1
      ≤ min d.source_.getNodeElementList.length d.target_.getNodeElementList.length ∧
    (∀ i, i < getNumSameIDs (setupSamePermuteRemote d remoteGIDs).1 →
      d.source_.getNodeElementList[i]? = d.target_.getNodeElementList[i]? ∧
      d.source_.getNodeElementList[i]? ≠ none) ∧
    (getNumSameIDs (setupSamePermuteRemote d remoteGIDs).1
        = min d.source_.getNodeElementList.length d.target_.getNodeElementList.length ∨
      d.source_.getNodeElementList[getNumSameIDs (setupSamePermuteRemote d remoteGIDs).1]?
        ≠ d.target_.getNodeElementList[getNumSameIDs (setupSamePermuteRemote d remoteGIDs).1]?) := by
  unfold getNumSameIDs
  rw [(setupSamePermuteRemote_fields d remoteGIDs).1]
  obtain ⟨a, b, c⟩ := numSame_def d.source_.getNodeElementList d.target_.getNodeElementList
  refine ⟨a, ?_, ?_⟩
  · intro i hi
    have hS : i < d.source_.getNodeElementList.length := by omega
    have hT : i < d.target_.getNodeElementList.length := by omega
    rw [getD_eq_get?_of_lt _ i hS, getD_eq_get?_of_lt _ i hT, b i hi]
    simp
  · rcases c with c | c
    · exact Or.inl c
    · by_cases hlt : numSameLoop d.source_.getNodeElementList d.target_.getNodeElementList
          (min d.source_.getNodeElementList.length d.target_.getNodeElementList.length)
          (min d.source_.getNodeElementList.length d.target_.getNodeElementList.length) 0
          < min d.source_.getNodeElementList.length d.target_.getNodeElementList.length
      · right
        rw [getD_eq_get?_of_lt _ _ (by omega), getD_eq_get?_of_lt _ _ (by omega)]
        intro h
        exact c (Option.some.inj h)
      · left; omega

theorem classified_lids_perm (source : Map) (T : List Int) (ts : List Nat) :
    List.Perm ((ts.filter (inSource source T)).map Int.ofNat
      ++ (ts.filter (fun t => !inSource source T t)).map Int.ofNat) (ts.map Int.ofNat) := by
  rw [← List.map_append]
  exact (List.filter_append_perm (inSource source T) ts).map Int.ofNat

theorem range_append_range' (n m : Nat) (h : n ≤ m) :
    List.range n ++ List.range' n (m - n) = List.range m := by
  rw [List.range_eq_range', List.range_eq_range']
  have := List.range'_append 0 n (m - n) 1
  simp only [Nat.one_mul, Nat.zero_add] at this
  rw [this]
  congr 1
  omega

theorem nodup_map_ofNat (l : List Nat) (h : l.Nodup) : (l.map Int.ofNat).Nodup :=
  h.map (fun _ _ hab => Int.ofNat.inj hab)

/-- C2: after `setupSamePermuteRemote` on a fresh plan, the index sets
`[0, numSame)`, `permuteToLIDs` and `remoteLIDs` are pairwise disjoint,
duplicate-free and together equal `[0, |T|)`, and every target LID `t` with
`numSame ≤ t < |T|` occurs exactly once in `permuteToLIDs ++ remoteLIDs`. -/
theorem setupSamePermuteRemote_partitions_target_lids (source target : Map) :
    List.Perm
      ((List.range (setupSamePermuteRemote (ImportData.new source target) []).1.numSameIDs_).map
          Int.ofNat
        ++ ((setupSamePermuteRemote (ImportData.new source target) []).1.permuteToLIDs_
          ++ (setupSamePermuteRemote (ImportData.new source target) []).1.remoteLIDs_))
      ((List.range target.getNodeElementList.length).map Int.ofNat) ∧
    ((List.range (setupSamePermuteRemote (ImportData.new source target) []).1.numSameIDs_).map
          Int.ofNat
        ++ ((setupSamePermuteRemote (ImportData.new source target) []).1.permuteToLIDs_
          ++ (setupSamePermuteRemote (ImportData.new source target) []).1.remoteLIDs_)).Nodup ∧
    (∀ t : Nat, (setupSamePermuteRemote (ImportData.new source target) []).1.numSameIDs_ ≤ t →
      t < target.getNodeElementList.length →
      ((setupSamePermuteRemote (ImportData.new source target) []).1.permuteToLIDs_
        ++ (setupSamePermuteRemote (ImportData.new source target) []).1.remoteLIDs_).count
          (t : Int) = 1) := by
  obtain ⟨hn, hP, -, hR, -⟩ := setupSamePermuteRemote_fields (ImportData.new source target) []
  have hle : (setupSamePermuteRemote (ImportData.new source target) []).1.numSameIDs_
      ≤ target.getNodeElementList.length := by
    rw [hn]
    have := (numSame_def source.getNodeElementList target.getNodeElementList).1
    simp only [ImportData.new]
    omega
  rw [hP, hR]
  generalize (setupSamePermuteRemote (ImportData.new source target) []).1.numSameIDs_ = n at hle ⊢
  simp only [ImportData.new, List.nil_append]
  have hperm := classified_lids_perm source target.getNodeElementList
    (List.range' n (target.getNodeElementList.length - n))
  have hfull : List.Perm
      ((List.range n).map Int.ofNat
        ++ (((List.range' n (target.getNodeElementList.length - n)).filter
              (inSource source target.getNodeElementList)).map Int.ofNat
          ++ ((List.range' n (target.getNodeElementList.length - n)).filter
              (fun t => !inSource source target.getNodeElementList t)).map Int.ofNat))
      ((List.range target.getNodeElementList.length).map Int.ofNat) := by
    rw [← range_append_range' n _ hle, List.map_append]
    exact hperm.append_left _
  refine ⟨hfull, ?_, ?_⟩
  · exact hfull.nodup_iff.mpr (nodup_map_ofNat _ (List.nodup_range _))
  · intro t h1 h2
    rw [hperm.count_eq]
    apply List.count_eq_one_of_mem
    · exact nodup_map_ofNat _ (List.nodup_range' _ _)
    · refine List.mem_map.mpr ⟨t, ?_, rfl⟩
      rw [List.mem_range']
      exact ⟨t - n, by omega, by omega⟩

theorem Map.ofList_consistent (elems : List Int) (distributed : Bool)
    (lookup : List Int → List Int × LookupStatus) :
    (Map.ofList elems distributed lookup).Consistent := by
  intro g hg
  simp only [Map.ofList] at hg ⊢
  by_cases hmem : g ∈ elems
  · simp only [if_pos hmem, Map.getGlobalElement]
    have hlt : elems.indexOf g < elems.length := List.indexOf_lt_length.mpr hmem
    simp [List.getElem?_eq_getElem hlt]
  · simp [if_neg hmem] at hg

theorem mem_range'_filter_bounds (p : Nat → Bool) (n k t : Nat)
    (h : t ∈ (List.range' n k).filter p) : n ≤ t ∧ t < n + k ∧ p t = true := by
  rw [List.mem_filter, List.mem_range'] at h
  obtain ⟨⟨i, hi, rfl⟩, hp⟩ := h
  exact ⟨by omega, by omega, hp⟩

theorem Map.getGlobalElement_ofNat (m : Map) (t : Nat) (h : t < m.getNodeElementList.length) :
    m.getGlobalElement (Int.ofNat t) = some (m.getNodeElementList.getD t 0) := by
  have h0 : (0 : Int) ≤ Int.ofNat t := Int.ofNat_nonneg t
  simp only [Map.getGlobalElement, if_pos h0, Int.toNat_ofNat]
  simp [List.getD, List.getElem?_eq_getElem h]

/-- C3: for a plan classified by `setupSamePermuteRemote` over a consistent
source Map, `permuteToLIDs` and `permuteFromLIDs` have equal length and for
every index `i` the GID at target slot `permuteToLIDs[i]` is the GID at source
slot `permuteFromLIDs[i]`. -/
theorem setupSamePermuteRemote_permute_pairs_same_gid (source target : Map)
    (hS : source.Consistent) :
    (setupSamePermuteRemote (ImportData.new source target) []).1.permuteToLIDs_.length
      = (setupSamePermuteRemote (ImportData.new source target) []).1.permuteFromLIDs_.length ∧
    ∀ i, i < (setupSamePermuteRemote (ImportData.new source target) []).1.permuteToLIDs_.length →
      ∃ g, target.getGlobalElement
            ((setupSamePermuteRemote (ImportData.new source target) []).1.permuteToLIDs_.getD i 0)
            = some g ∧
          source.getGlobalElement
            ((setupSamePermuteRemote (ImportData.new source target) []).1.permuteFromLIDs_.getD i 0)
            = some g := by
  obtain ⟨hn, hP, hF, -⟩ := setupSamePermuteRemote_fields (ImportData.new source target) []
  have hle : (setupSamePermuteRemote (ImportData.new source target) []).1.numSameIDs_
      ≤ target.getNodeElementList.length := by
    rw [hn]
    have := (numSame_def source.getNodeElementList target.getNodeElementList).1
    simp only [ImportData.new]
    omega
  rw [hP, hF]
  generalize (setupSamePermuteRemote (ImportData.new source target) []).1.numSameIDs_ = n at hle ⊢
  simp only [ImportData.new, List.nil_append, List.length_map]
  refine ⟨trivial, ?_⟩
  intro i hi
  have hmem := List.getElem_mem hi
  obtain ⟨h1, h2, h3⟩ := mem_range'_filter_bounds _ _ _ _ hmem
  refine ⟨target.getNodeElementList.getD
    (((List.range' n (target.getNodeElementList.length - n)).filter
      (inSource source target.getNodeElementList))[i]) 0, ?_, ?_⟩
  · rw [List.getD_eq_getElem _ _ (by simpa using hi), List.getElem_map]
    exact Map.getGlobalElement_ofNat target _ (by omega)
  · rw [List.getD_eq_getElem _ _ (by simpa using hi), List.getElem_map]
    apply hS
    simpa [inSource] using h3

/-- Witness for C3: source `[0, 1, 2]`, target `[1, 0, 2]`. -/
theorem setupSamePermuteRemote_permute_pairs_same_gid_witness :
    (Map.ofList [0, 1, 2] false (directoryLookup [[0, 1, 2]])).Consistent ∧
    ((setupSamePermuteRemote (ImportData.new
        (Map.ofList [0, 1, 2] false (directoryLookup [[0, 1, 2]]))
        (Map.ofList [1, 0, 2] false (directoryLookup [[0, 1, 2]]))) []).1.permuteToLIDs_.length
      = (setupSamePermuteRemote (ImportData.new
        (Map.ofList [0, 1, 2] false (directoryLookup [[0, 1, 2]]))
        (Map.ofList [1, 0, 2] false (directoryLookup [[0, 1, 2]]))) []).1.permuteFromLIDs_.length ∧
    ∀ i, i < (setupSamePermuteRemote (ImportData.new
        (Map.ofList [0, 1, 2] false (directoryLookup [[0, 1, 2]]))
        (Map.ofList [1, 0, 2] false (directoryLookup [[0, 1, 2]]))) []).1.permuteToLIDs_.length →
      ∃ g, (Map.ofList [1, 0, 2] false (directoryLookup [[0, 1, 2]])).getGlobalElement
            ((setupSamePermuteRemote (ImportData.new
              (Map.ofList [0, 1, 2] false (directoryLookup [[0, 1, 2]]))
              (Map.ofList [1, 0, 2] false (directoryLookup [[0, 1, 2]]))) []).1.permuteToLIDs_.getD
                i 0)
            = some g ∧
          (Map.ofList [0, 1, 2] false (directoryLookup [[0, 1, 2]])).getGlobalElement
            ((setupSamePermuteRemote (ImportData.new
              (Map.ofList [0, 1, 2] false (directoryLookup [[0, 1, 2]]))
              (Map.ofList [1, 0, 2] false (directoryLookup [[0, 1, 2]]))) []).1.permuteFromLIDs_.getD
                i 0)
            = some g) :=
  ⟨Map.ofList_consistent _ _ _,
   setupSamePermuteRemote_permute_pairs_same_gid _ _ (Map.ofList_consistent _ _ _)⟩

/-- C4: for a plan classified by `setupSamePermuteRemote`, every entry `r` of
`remoteLIDs` is a target slot whose GID the source Map does not hold:
`source.getLocalElement (T[r])` is the invalid LID. -/
theorem setupSamePermuteRemote_remote_gid_not_in_source (source target : Map) (r : Int)
    (hr : r ∈ (setupSamePermuteRemote (ImportData.new source target) []).1.remoteLIDs_) :
    ∃ g, target.getGlobalElement r = some g ∧ source.getLocalElement g = LINVALID := by
  obtain ⟨hn, -, -, hR, -⟩ := setupSamePermuteRemote_fields (ImportData.new source target) []
  have hle : (setupSamePermuteRemote (ImportData.new source target) []).1.numSameIDs_
      ≤ target.getNodeElementList.length := by
    rw [hn]
    have := (numSame_def source.getNodeElementList target.getNodeElementList).1
    simp only [ImportData.new]
    omega
  rw [hR] at hr
  generalize (setupSamePermuteRemote (ImportData.new source target) []).1.numSameIDs_ = n
    at hle hr
  simp only [ImportData.new, List.nil_append] at hr
  obtain ⟨t, ht, rfl⟩ := List.mem_map.mp hr
  obtain ⟨h1, h2, h3⟩ := mem_range'_filter_bounds _ _ _ _ ht
  refine ⟨target.getNodeElementList.getD t 0,
    Map.getGlobalElement_ofNat target t (by omega), ?_⟩
  simpa [inSource] using h3

/-- Witness for C4: source `[0]`, target `[0, 5]`; target slot 1 is remote. -/
theorem setupSamePermuteRemote_remote_gid_not_in_source_witness :
    (1 : Int) ∈ (setupSamePermuteRemote (ImportData.new
        (Map.ofList [0] true (directoryLookup [[0]]))
        (Map.ofList [0, 5] true (directoryLookup [[0]]))) []).1.remoteLIDs_ ∧
    ∃ g, (Map.ofList [0, 5] true (directoryLookup [[0]])).getGlobalElement 1 = some g ∧
      (Map.ofList [0] true (directoryLookup [[0]])).getLocalElement g = LINVALID :=
  ⟨by decide, setupSamePermuteRemote_remote_gid_not_in_source _ _ 1 (by decide)⟩

/-! ## sort3 -/

theorem sort3Insert_perm (x : Int × Int × Int) (l : List (Int × Int × Int)) :
    (sort3Insert x l).Perm (x :: l) := by
  induction l with
  | nil => exact List.Perm.refl _
  | cons y ys ih =>
    simp only [sort3Insert]
    split
    · exact List.Perm.refl _
    · exact (List.Perm.cons y ih).trans (List.Perm.swap x y ys)

theorem sort3Triples_perm (l : List (Int × Int × Int)) : (sort3Triples l).Perm l := by
  induction l with
  | nil => exact List.Perm.refl _
  | cons x xs ih =>
    simp only [sort3Triples]
    exact (sort3Insert_perm x _).trans (List.Perm.cons x ih)

theorem sort3_nil (second third : List Int) : sort3 [] second third = ([], second, third) := by
  simp [sort3, sort3Triples]

theorem sort3_length (first second third : List Int)
    (h2 : first.length ≤ second.length) (h3 : first.length ≤ third.length) :
    (sort3 first second third).1.length = first.length ∧
    (sort3 first second third).2.1.length = second.length ∧
    (sort3 first second third).2.2.length = third.length := by
  have hl : (sort3Triples (List.zip first
      (List.zip (second.take first.length) (third.take first.length)))).length
      = first.length := by
    rw [(sort3Triples_perm _).length_eq]
    simp only [List.length_zip, List.length_take]
    omega
  simp only [sort3, List.length_map, List.length_append, List.length_drop]
  omega

theorem resize_length (xs : List Int) (n : Nat) : (resize xs n).length = n := by
  simp only [resize, List.length_append, List.length_take, List.length_replicate]
  omega

/-! ## setupExport -/

theorem setExportLIDs_fields (d : ImportData) (exportGIDs : List Int) :
    (setExportLIDs d exportGIDs).source_ = d.source_ ∧
    (setExportLIDs d exportGIDs).target_ = d.target_ ∧
    (setExportLIDs d exportGIDs).numSameIDs_ = d.numSameIDs_ ∧
    (setExportLIDs d exportGIDs).permuteToLIDs_ = d.permuteToLIDs_ ∧
    (setExportLIDs d exportGIDs).permuteFromLIDs_ = d.permuteFromLIDs_ ∧
    (setExportLIDs d exportGIDs).remoteLIDs_ = d.remoteLIDs_ ∧
    (setExportLIDs d exportGIDs).exportPIDs_ = d.exportPIDs_ := by
  simp only [setExportLIDs]
  split <;> simp

theorem dropInvalidRemotes_ok_lengths (lookup : LookupStatus)
    (remoteProcIDs remoteGIDs remoteLIDs : List Int) (kept : List Int × List Int × List Int)
    (h : dropInvalidRemotes lookup remoteProcIDs remoteGIDs remoteLIDs = Except.ok kept) :
    (lookup = LookupStatus.IDNotPresent →
      kept.1.length = kept.2.2.length ∧ kept.2.1.length = kept.2.2.length ∧
      kept.2.2.length + remoteProcIDs.countP (fun pid => decide ((-1 : Int) = pid))
        = remoteLIDs.length) ∧
    (lookup ≠ LookupStatus.IDNotPresent → kept = (remoteProcIDs, remoteGIDs, remoteLIDs)) := by
  simp only [dropInvalidRemotes] at h
  by_cases c1 : lookup = LookupStatus.IDNotPresent
  · rw [if_pos c1] at h
    refine ⟨fun _ => ?_, fun hne => absurd c1 hne⟩
    by_cases c2 : remoteProcIDs.countP (fun pid => decide ((-1 : Int) = pid)) = remoteLIDs.length
    · rw [if_pos c2] at h
      cases h
      exact ⟨rfl, rfl, by simpa using c2⟩
    · rw [if_neg c2] at h
      by_cases c3 : ((packLoop remoteProcIDs remoteGIDs remoteLIDs remoteLIDs.length).numValidRemote
          : Int) ≠ (remoteLIDs.length : Int)
            - (remoteProcIDs.countP (fun pid => decide ((-1 : Int) = pid)) : Int)
      · rw [if_pos c3] at h
        cases h
      · rw [if_neg c3] at h
        cases h
        simp only [resize_length]
        refine ⟨trivial, trivial, ?_⟩
        simp only [ne_eq, not_not] at c3
        omega
  · rw [if_neg c1] at h
    cases h
    exact ⟨fun hl => absurd hl c1, fun _ => rfl⟩

/-- Inversion of a successful run of the first part of `setupExport`. -/
theorem setupExportRemotes_ok (d : ImportData) (remoteGIDs : List Int)
    (useRemotePIDs : Bool) (userRemotePIDs : List Int) (req : ExportRequest)
    (h : setupExportRemotes d remoteGIDs useRemotePIDs userRemotePIDs = Except.ok req) :
    ∃ kept,
      dropInvalidRemotes
        (if !useRemotePIDs then d.source_.getRemoteIndexList remoteGIDs
          else ([], LookupStatus.AllIDsPresent)).2
        (if useRemotePIDs then userRemotePIDs
          else (if !useRemotePIDs then d.source_.getRemoteIndexList remoteGIDs
            else ([], LookupStatus.AllIDsPresent)).1)
        remoteGIDs d.remoteLIDs_ = Except.ok kept ∧
      (useRemotePIDs = false → userRemotePIDs = []) ∧
      (userRemotePIDs ≠ [] → remoteGIDs.length = userRemotePIDs.length) ∧
      req.data.source_ = d.source_ ∧ req.data.target_ = d.target_ ∧
      req.data.numSameIDs_ = d.numSameIDs_ ∧
      req.data.permuteToLIDs_ = d.permuteToLIDs_ ∧
      req.data.permuteFromLIDs_ = d.permuteFromLIDs_ ∧
      req.data.exportLIDs_ = d.exportLIDs_ ∧
      req.data.exportPIDs_ = d.exportPIDs_ ∧
      req.data.remoteLIDs_ = (sort3 kept.1 kept.2.1 kept.2.2).2.2 ∧
      req.remoteGIDs = (sort3 kept.1 kept.2.1 kept.2.2).2.1 ∧
      req.remoteProcIDs = (sort3 kept.1 kept.2.1 kept.2.2).1 := by
  simp only [setupExportRemotes, TPETRA_ABUSE_WARNING_remoteLIDs] at h
  by_cases c1 : (!useRemotePIDs && decide (userRemotePIDs.length > 0)) = true
  · rw [if_pos c1] at h
    cases h
  · rw [if_neg c1] at h
    by_cases c2 : (decide (userRemotePIDs.length > 0)
        && decide (remoteGIDs.length ≠ userRemotePIDs.length)) = true
    · rw [if_pos c2] at h
      cases h
    · rw [if_neg c2] at h
      split at h
      · cases h
      · rename_i kept hk
        cases h
        refine ⟨kept, hk, ?_, ?_, ?_⟩
        · intro hu
          subst hu
          cases userRemotePIDs with
          | nil => rfl
          | cons a l => simp at c1
        · intro hne
          cases userRemotePIDs with
          | nil => exact absurd rfl hne
          | cons a l => simpa using c2
        · simp

/-! ## init -/

theorem setupSamePermuteRemote_counts (source target : Map) :
    (setupSamePermuteRemote (ImportData.new source target) []).1.numSameIDs_
      + (setupSamePermuteRemote (ImportData.new source target) []).1.permuteFromLIDs_.length
      + (setupSamePermuteRemote (ImportData.new source target) []).1.remoteLIDs_.length
      = target.getNodeElementList.length ∧
    (setupSamePermuteRemote (ImportData.new source target) []).2.length
      = (setupSamePermuteRemote (ImportData.new source target) []).1.remoteLIDs_.length := by
  obtain ⟨hn, -, hF, hR, hG, -⟩ := setupSamePermuteRemote_fields (ImportData.new source target) []
  have hle : (setupSamePermuteRemote (ImportData.new source target) []).1.numSameIDs_
      ≤ target.getNodeElementList.length := by
    rw [hn]
    have := (numSame_def source.getNodeElementList target.getNodeElementList).1
    simp only [ImportData.new]
    omega
  rw [hF, hR, hG]
  generalize (setupSamePermuteRemote (ImportData.new source target) []).1.numSameIDs_ = n at hle ⊢
  simp only [ImportData.new, List.nil_append, List.length_map]
  have hperm := (List.filter_append_perm (inSource source target.getNodeElementList)
    (List.range' n (target.getNodeElementList.length - n))).length_eq
  simp only [List.length_append, List.length_range'] at hperm
  exact ⟨by omega, trivial⟩

/-- Inversion of a successful run of `init`. -/
theorem init_ok (cfr : List Int → List Int → Except ImportError (List Int × List Int))
    (source target : Map) (useRemotePIDs : Bool) (remotePIDs : List Int) (d : ImportData)
    (h : init cfr source target useRemotePIDs remotePIDs = Except.ok d) :
    (source.isDistributed = false ∧
      d = (setupSamePermuteRemote (ImportData.new source target) []).1) ∨
    (source.isDistributed = true ∧ ∃ req out,
      setupExportRemotes (setupSamePermuteRemote (ImportData.new source target) []).1
        (setupSamePermuteRemote (ImportData.new source target) []).2 useRemotePIDs remotePIDs
        = Except.ok req ∧
      cfr req.remoteGIDs req.remoteProcIDs = Except.ok out ∧
      d = setExportLIDs { req.data with exportPIDs_ := out.2 } out.1) := by
  simp only [init] at h
  cases hd : source.isDistributed with
  | false =>
    rw [hd] at h
    simp only [Bool.false_eq_true, if_false] at h
    cases h
    exact Or.inl ⟨rfl, rfl⟩
  | true =>
    rw [hd] at h
    simp only [if_true, setupExport] at h
    right
    refine ⟨rfl, ?_⟩
    split at h
    · cases h
    · rename_i req hreq
      split at h
      · cases h
      · rename_i out hout
        cases h
        exact ⟨req, out, hreq, hout, rfl⟩

theorem setExportLIDs_with_exportPIDs (d : ImportData) (exportPIDs exportGIDs : List Int) :
    (setExportLIDs { d with exportPIDs_ := exportPIDs } exportGIDs).source_ = d.source_ ∧
    (setExportLIDs { d with exportPIDs_ := exportPIDs } exportGIDs).target_ = d.target_ ∧
    (setExportLIDs { d with exportPIDs_ := exportPIDs } exportGIDs).numSameIDs_
      = d.numSameIDs_ ∧
    (setExportLIDs { d with exportPIDs_ := exportPIDs } exportGIDs).permuteToLIDs_
      = d.permuteToLIDs_ ∧
    (setExportLIDs { d with exportPIDs_ := exportPIDs } exportGIDs).permuteFromLIDs_
      = d.permuteFromLIDs_ ∧
    (setExportLIDs { d with exportPIDs_ := exportPIDs } exportGIDs).remoteLIDs_
      = d.remoteLIDs_ ∧
    (setExportLIDs { d with exportPIDs_ := exportPIDs } exportGIDs).exportPIDs_
      = exportPIDs :=
  setExportLIDs_fields { d with exportPIDs_ := exportPIDs } exportGIDs

/-- The number of remote LIDs after the first part of `setupExport`: it drops by
the number of `-1` owners exactly when the owner lookup was run and reported
`IDNotPresent`. -/
theorem setupExportRemotes_numRemote (d : ImportData) (remoteGIDs : List Int)
    (useRemotePIDs : Bool) (userRemotePIDs : List Int) (req : ExportRequest)
    (hg : remoteGIDs.length = d.remoteLIDs_.length)
    (hlen : (d.source_.getRemoteIndexList remoteGIDs).1.length = remoteGIDs.length)
    (h : setupExportRemotes d remoteGIDs useRemotePIDs userRemotePIDs = Except.ok req) :
    req.data.remoteLIDs_.length
      + (if useRemotePIDs = false
            ∧ (d.source_.getRemoteIndexList remoteGIDs).2 = LookupStatus.IDNotPresent then
          (d.source_.getRemoteIndexList remoteGIDs).1.countP (fun pid => decide ((-1 : Int) = pid))
        else 0)
      = d.remoteLIDs_.length := by
  obtain ⟨kept, hk, -, hu2, -, -, -, -, -, -, -, e8, -, -⟩ :=
    setupExportRemotes_ok _ _ _ _ _ h
  rw [e8]
  obtain ⟨k1, k2⟩ := dropInvalidRemotes_ok_lengths _ _ _ _ _ hk
  cases useRemotePIDs with
  | true =>
    simp only [Bool.not_true, Bool.false_eq_true, if_false, if_true] at k1 k2
    have hkept := k2 (by decide)
    rw [hkept]
    simp only [Bool.true_eq_false, false_and, if_false, Nat.add_zero]
    by_cases hnil : userRemotePIDs = []
    · subst hnil
      simp only [sort3_nil]
    · have hl := hu2 hnil
      exact (sort3_length userRemotePIDs remoteGIDs d.remoteLIDs_ (by omega) (by omega)).2.2
  | false =>
    simp only [Bool.not_false, if_true, Bool.false_eq_true, if_false] at k1 k2
    by_cases hst : (d.source_.getRemoteIndexList remoteGIDs).2 = LookupStatus.IDNotPresent
    · obtain ⟨a, b, c⟩ := k1 hst
      rw [if_pos ⟨rfl, hst⟩, (sort3_length _ _ _ (by omega) (by omega)).2.2]
      exact c
    · have hkept := k2 hst
      rw [hkept, if_neg (fun hc => hst hc.2)]
      exact (sort3_length (d.source_.getRemoteIndexList remoteGIDs).1 remoteGIDs d.remoteLIDs_
        (by omega) (by omega)).2.2

/-- The amended C5: the plan completed by `init` satisfies
`getNumSameIDs + getNumPermuteIDs + getNumRemoteIDs = |target| - k`, where `k` is
the number of remote entries `setupExport` removed: `k = 0` when the source is
not distributed or the owner lookup reports `AllIDsPresent`, and `k` is the
number of remote GIDs with owner `-1` when the lookup reports `IDNotPresent`. -/
theorem init_counts_with_dropped_remotes
    (cfr : List Int → List Int → Except ImportError (List Int × List Int))
    (source target : Map) (useRemotePIDs : Bool) (remotePIDs : List Int) (d : ImportData)
    (hlen : ∀ gids, (source.getRemoteIndexList gids).1.length = gids.length)
    (h : init cfr source target useRemotePIDs remotePIDs = Except.ok d) :
    getNumSameIDs d + getNumPermuteIDs d + getNumRemoteIDs d
      + numDroppedRemotes source target useRemotePIDs = target.getNodeElementList.length := by
  obtain ⟨hcount, hgl⟩ := setupSamePermuteRemote_counts source target
  have hsrc : (setupSamePermuteRemote (ImportData.new source target) []).1.source_ = source :=
    (setupSamePermuteRemote_fields (ImportData.new source target) []).2.2.2.2.2.2.2.1
  simp only [getNumSameIDs, getNumPermuteIDs, getNumRemoteIDs, numDroppedRemotes]
  rcases init_ok cfr source target useRemotePIDs remotePIDs d h with
    ⟨hd, rfl⟩ | ⟨hd, req, out, hreq, -, rfl⟩
  · simp only [hd, Bool.false_eq_true, false_and, if_false]
    omega
  · obtain ⟨_, -, -, -, -, -, e3, -, e5, -⟩ := setupExportRemotes_ok _ _ _ _ _ hreq
    obtain ⟨-, -, s3, -, s5, s6, -⟩ := setExportLIDs_with_exportPIDs req.data out.2 out.1
    have hnum := setupExportRemotes_numRemote _ _ _ _ _ hgl (by rw [hsrc]; exact hlen _) hreq
    rw [hsrc] at hnum
    rw [s3, s5, s6, e3, e5]
    simp only [hd, true_and]
    omega

theorem directoryLookup_length (sources : List (List Int)) (gids : List Int) :
    (directoryLookup sources gids).1.length = gids.length := by
  simp [directoryLookup]

/-- C5, counterexample: on rank 0 of `scenarioUnowned` the target has two
entries, but the completed plan has one same ID, no permute ID and no remote
ID, because the remote GID 5 has no owner and is dropped by `setupExport`. -/
theorem init_counts_counterexample :
    ∃ d, importOnRank createFromRecvs scenarioUnowned 0 = Except.ok d ∧
      getNumSameIDs d + getNumPermuteIDs d + getNumRemoteIDs d
        ≠ (Map.ofList [0, 5] true (directoryLookup [[0], [1]])).getNodeElementList.length :=
  ⟨_, rfl, by decide⟩

/-- Witness for the amended C5 on rank 0 of `scenarioUnowned`. -/
theorem init_counts_with_dropped_remotes_witness :
    ∃ d, init (fun _ _ => Except.ok ([], []))
        (Map.ofList [0] true (directoryLookup [[0], [1]]))
        (Map.ofList [0, 5] true (directoryLookup [[0], [1]])) false [] = Except.ok d ∧
      getNumSameIDs d + getNumPermuteIDs d + getNumRemoteIDs d
        + numDroppedRemotes (Map.ofList [0] true (directoryLookup [[0], [1]]))
            (Map.ofList [0, 5] true (directoryLookup [[0], [1]])) false
        = (Map.ofList [0, 5] true (directoryLookup [[0], [1]])).getNodeElementList.length :=
  ⟨_, rfl, init_counts_with_dropped_remotes (fun _ _ => Except.ok ([], []))
    (Map.ofList [0] true (directoryLookup [[0], [1]]))
    (Map.ofList [0, 5] true (directoryLookup [[0], [1]])) false [] _
    (fun gids => directoryLookup_length _ gids) rfl⟩

/-! ## The packing loop of setupExport -/

theorem take_succ_eq_append_getD (X : List Int) (r : Nat) (h : r < X.length) :
    X.take (r + 1) = X.take r ++ [X.getD r 0] := by
  rw [List.take_succ, List.getElem?_eq_getElem h, List.getD_eq_getElem _ _ h]
  rfl

theorem keepValid_take_succ (P X : List Int) (r : Nat) (hP : r < P.length) (hX : r < X.length) :
    keepValid (P.take (r + 1)) (X.take (r + 1))
      = keepValid (P.take r) (X.take r)
        ++ (if P.getD r 0 ≠ -1 then [X.getD r 0] else []) := by
  rw [take_succ_eq_append_getD P r hP, take_succ_eq_append_getD X r hX]
  simp only [keepValid]
  rw [List.zip_append (by simp only [List.length_take]; omega), List.filter_append,
    List.map_append]
  congr 1
  generalize P.getD r 0 = a
  generalize X.getD r 0 = b
  by_cases hv : a ≠ -1
  · simp [List.filter_cons, hv]
  · simp [List.filter_cons, hv]

theorem keepValid_length_le (P X : List Int) : (keepValid P X).length ≤ P.length := by
  simp only [keepValid, List.length_map]
  exact (List.length_filter_le _ _).trans (by simp only [List.length_zip]; omega)

theorem getD_eq_of_drop_eq (A A0 : List Int) (r : Nat) (h : A.drop r = A0.drop r) :
    A.getD r 0 = A0.getD r 0 := by
  have h1 : (A.drop r)[0]? = (A0.drop r)[0]? := by rw [h]
  simp only [List.getElem?_drop, Nat.add_zero] at h1
  simp only [List.getD_eq_getElem?_getD, h1]

/-- One array of the packing loop when entry `r` is kept: it is copied to
position `k ≤ r`; the packed prefix grows by that entry and the entries after
`r` are untouched. -/
theorem pack_keep (A0 A : List Int) (k r : Nat) (hk : k ≤ r) (hr : r < A0.length)
    (hlen : A.length = A0.length) (hdrop : A.drop r = A0.drop r) :
    (A.set k (A.getD r 0)).length = A0.length ∧
    (A.set k (A.getD r 0)).take (k + 1) = A.take k ++ [A0.getD r 0] ∧
    (A.set k (A.getD r 0)).drop (r + 1) = A0.drop (r + 1) := by
  refine ⟨by simp [hlen], ?_, ?_⟩
  · rw [getD_eq_of_drop_eq A A0 r hdrop, List.set_eq_take_append_cons_drop,
      if_pos (by omega), List.take_append_eq_append_take]
    simp only [List.length_take]
    have hmin : min k A.length = k := by omega
    rw [hmin, List.take_of_length_le (by simp only [List.length_take]; omega)]
    have h1 : k + 1 - k = 1 := by omega
    rw [h1]
    rfl
  · rw [List.drop_set_of_lt _ _ (by omega)]
    have h1 : A.drop (r + 1) = (A.drop r).drop 1 := by rw [List.drop_drop]
    have h2 : A0.drop (r + 1) = (A0.drop r).drop 1 := by rw [List.drop_drop]
    rw [h1, h2, hdrop]

theorem drop_succ_eq_of_drop_eq (A A0 : List Int) (r : Nat) (h : A.drop r = A0.drop r) :
    A.drop (r + 1) = A0.drop (r + 1) := by
  have h1 : A.drop (r + 1) = (A.drop r).drop 1 := by rw [List.drop_drop]
  have h2 : A0.drop (r + 1) = (A0.drop r).drop 1 := by rw [List.drop_drop]
  rw [h1, h2, h]

/-- Invariant of the packing loop after `r` iterations over three arrays of
equal length. -/
theorem packLoop_invariant (P G L : List Int) (hG : G.length = P.length)
    (hL : L.length = P.length) :
    ∀ r, r ≤ P.length →
      (packLoop P G L r).numValidRemote = (keepValid (P.take r) (P.take r)).length ∧
      (packLoop P G L r).remoteProcIDs.length = P.length ∧
      (packLoop P G L r).remoteGIDs.length = P.length ∧
      (packLoop P G L r).remoteLIDs.length = P.length ∧
      (packLoop P G L r).remoteProcIDs.take (packLoop P G L r).numValidRemote
        = keepValid (P.take r) (P.take r) ∧
      (packLoop P G L r).remoteGIDs.take (packLoop P G L r).numValidRemote
        = keepValid (P.take r) (G.take r) ∧
      (packLoop P G L r).remoteLIDs.take (packLoop P G L r).numValidRemote
        = keepValid (P.take r) (L.take r) ∧
      (packLoop P G L r).remoteProcIDs.drop r = P.drop r ∧
      (packLoop P G L r).remoteGIDs.drop r = G.drop r ∧
      (packLoop P G L r).remoteLIDs.drop r = L.drop r := by
  intro r
  induction r with
  | zero =>
    intro _
    simp [packLoop, keepValid, hG, hL]
  | succ r ih =>
    intro hr
    obtain ⟨i1, i2, i3, i4, i5, i6, i7, i8, i9, i10⟩ := ih (by omega)
    have hstep : packLoop P G L (r + 1) = packStep (packLoop P G L r) r := by
      simp only [packLoop, List.range_succ, List.foldl_append, List.foldl_cons, List.foldl_nil]
    have hkr : (packLoop P G L r).numValidRemote ≤ r := by
      rw [i1]
      exact (keepValid_length_le _ _).trans (by simp only [List.length_take]; omega)
    have hcur : (packLoop P G L r).remoteProcIDs.getD r 0 = P.getD r 0 :=
      getD_eq_of_drop_eq _ _ r i8
    rw [hstep, keepValid_take_succ P P r (by omega) (by omega),
      keepValid_take_succ P G r (by omega) (by omega),
      keepValid_take_succ P L r (by omega) (by omega)]
    by_cases hv : P.getD r 0 ≠ -1
    · have hv2 : (packLoop P G L r).remoteProcIDs.getD r 0 ≠ -1 := by rw [hcur]; exact hv
      simp only [packStep, if_pos hv2, if_pos hv, List.length_append, List.length_singleton]
      obtain ⟨a1, a2, a3⟩ := pack_keep P (packLoop P G L r).remoteProcIDs
        (packLoop P G L r).numValidRemote r hkr (by omega) i2 i8
      obtain ⟨b1, b2, b3⟩ := pack_keep G (packLoop P G L r).remoteGIDs
        (packLoop P G L r).numValidRemote r hkr (by omega) (by omega) i9
      obtain ⟨c1, c2, c3⟩ := pack_keep L (packLoop P G L r).remoteLIDs
        (packLoop P G L r).numValidRemote r hkr (by omega) (by omega) i10
      rw [a2, b2, c2, i5, i6, i7]
      exact ⟨by omega, a1, by omega, by omega, rfl, rfl, rfl, a3, b3, c3⟩
    · have hv2 : ¬ (packLoop P G L r).remoteProcIDs.getD r 0 ≠ -1 := by rw [hcur]; exact hv
      simp only [packStep, if_neg hv2, if_neg hv, List.append_nil]
      exact ⟨i1, i2, i3, i4, i5, i6, i7, drop_succ_eq_of_drop_eq _ _ r i8,
        drop_succ_eq_of_drop_eq _ _ r i9, drop_succ_eq_of_drop_eq _ _ r i10⟩

theorem keepValid_length_add_countP (P X : List Int) (hX : X.length = P.length) :
    (keepValid P X).length + P.countP (fun pid => decide ((-1 : Int) = pid)) = P.length := by
  induction P generalizing X with
  | nil => simp [keepValid]
  | cons a P ih =>
    cases X with
    | nil => simp at hX
    | cons b X =>
      have hX2 : X.length = P.length := by simpa using hX
      have := ih X hX2
      simp only [keepValid, List.length_map] at this ⊢
      by_cases hv : a = -1
      · subst hv
        simp [List.filter_cons] at this ⊢
        omega
      · have hv2 : ¬ (-1 : Int) = a := fun h => hv h.symm
        simp [List.filter_cons, hv, hv2] at this ⊢
        omega

theorem keepValid_eq_nil_of_all_invalid (P X : List Int)
    (h : P.countP (fun pid => decide ((-1 : Int) = pid)) = P.length) : keepValid P X = [] := by
  have hall : ∀ a ∈ P, (fun pid => decide ((-1 : Int) = pid)) a = true :=
    List.countP_eq_length.mp h
  simp only [keepValid, List.map_eq_nil_iff, List.filter_eq_nil_iff]
  intro e he
  have h1 : e.1 ∈ P := (List.of_mem_zip he).1
  have h2 := hall e.1 h1
  simp only [decide_eq_true_eq] at h2
  simp [← h2]

theorem resize_eq_take (xs : List Int) (n : Nat) (h : n ≤ xs.length) :
    resize xs n = xs.take n := by
  simp only [resize]
  have : n - xs.length = 0 := by omega
  rw [this]
  simp

/-- Closed form of the removal block of `setupExport` on three arrays of equal
length: it never throws, and under `IDNotPresent` it keeps exactly the entries
whose owner is not `-1`, in order. -/
theorem dropInvalidRemotes_eq (lookup : LookupStatus) (P G L : List Int)
    (hG : G.length = P.length) (hL : L.length = P.length) :
    dropInvalidRemotes lookup P G L
      = Except.ok (if lookup = LookupStatus.IDNotPresent then
          (keepValid P P, keepValid P G, keepValid P L) else (P, G, L)) := by
  simp only [dropInvalidRemotes]
  by_cases c1 : lookup = LookupStatus.IDNotPresent
  · rw [if_pos c1, if_pos c1]
    by_cases c2 : P.countP (fun pid => decide ((-1 : Int) = pid)) = L.length
    · rw [if_pos c2]
      have c2b : P.countP (fun pid => decide ((-1 : Int) = pid)) = P.length := by omega
      rw [keepValid_eq_nil_of_all_invalid P P c2b, keepValid_eq_nil_of_all_invalid P G c2b,
        keepValid_eq_nil_of_all_invalid P L c2b]
    · rw [if_neg c2]
      obtain ⟨i1, i2, i3, i4, i5, i6, i7, -⟩ := packLoop_invariant P G L hG hL P.length
        (le_refl _)
      have hP : P.take P.length = P := List.take_length _
      have hGt : G.take P.length = G := by rw [← hG]; exact List.take_length _
      have hLt : L.take P.length = L := by rw [← hL]; exact List.take_length _
      rw [hP] at i1 i5 i6 i7
      rw [hGt] at i6
      rw [hLt] at i7
      have hcnt := keepValid_length_add_countP P P rfl
      rw [hL]
      have hk : (packLoop P G L P.length).numValidRemote ≤ P.length := by omega
      rw [if_neg (by
        simp only [ne_eq, not_not]
        omega)]
      rw [resize_eq_take _ _ (by omega), resize_eq_take _ _ (by omega),
        resize_eq_take _ _ (by omega), i5, i6, i7]
  · rw [if_neg c1, if_neg c1]

/-! ## sort3 on parallel arrays -/

theorem map_zip_zip_fst_snd (f s t : List Int) (h : min f.length s.length ≤ t.length) :
    (List.zip f (List.zip s t)).map (fun a => (a.1, a.2.1)) = List.zip f s := by
  induction f generalizing s t with
  | nil => simp
  | cons a f ih =>
    cases s with
    | nil => simp
    | cons b s =>
      cases t with
      | nil => simp at h
      | cons c t =>
        simp only [List.zip_cons_cons, List.map_cons, List.cons.injEq, true_and]
        exact ih s t (by simp only [List.length_cons] at h; omega)

/-- On arrays of equal length `sort3` permutes the (owner, GID) pairs. -/
theorem sort3_pairs_perm (f s t : List Int) (hs : s.length = f.length)
    (ht : t.length = f.length) :
    (List.zip (sort3 f s t).1 (sort3 f s t).2.1).Perm (List.zip f s) := by
  have hs2 : s.take f.length = s := by rw [← hs]; exact List.take_length _
  have ht2 : t.take f.length = t := by rw [← ht]; exact List.take_length _
  have hd : s.drop f.length = [] := by rw [← hs]; exact List.drop_length s
  simp only [sort3, hs2, ht2, hd, List.append_nil]
  rw [List.zip_map', ← map_zip_zip_fst_snd f s t (by omega)]
  exact (sort3Triples_perm _).map _

/-! ## The export LIDs -/

theorem take_set_succ (A : List Int) (r : Nat) (v : Int) (h : r < A.length) :
    (A.set r v).take (r + 1) = A.take r ++ [v] := by
  rw [List.set_eq_take_append_cons_drop, if_pos h, List.take_append_eq_append_take]
  simp only [List.length_take]
  have hmin : min r A.length = r := by omega
  rw [hmin, List.take_of_length_le (by simp only [List.length_take]; omega)]
  have h1 : r + 1 - r = 1 := by omega
  rw [h1]
  rfl

theorem exportLIDs_loop (f : Int → Int) (xs : List Int) (init : List Int)
    (hinit : init.length = xs.length) :
    ∀ r, r ≤ xs.length →
      ((List.range r).foldl (fun expLIDs k => expLIDs.set k (f (xs.getD k 0))) init).length
        = xs.length ∧
      ((List.range r).foldl (fun expLIDs k => expLIDs.set k (f (xs.getD k 0))) init).take r
        = (xs.take r).map f := by
  intro r
  induction r with
  | zero => intro _; simp [hinit]
  | succ r ih =>
    intro hr
    obtain ⟨h1, h2⟩ := ih (by omega)
    simp only [List.range_succ, List.foldl_append, List.foldl_cons, List.foldl_nil]
    refine ⟨by rw [List.length_set]; exact h1, ?_⟩
    rw [take_set_succ _ _ _ (by omega), h2, take_succ_eq_append_getD xs r (by omega),
      List.map_append]
    rfl

/-- Closed form of the export LIDs written by `setupExport` into a plan whose
`exportLIDs_` is still empty. -/
theorem setExportLIDs_exportLIDs (d : ImportData) (exportGIDs : List Int)
    (h : d.exportLIDs_ = []) :
    (setExportLIDs d exportGIDs).exportLIDs_ = exportGIDs.map d.source_.getLocalElement := by
  simp only [setExportLIDs]
  by_cases hn : exportGIDs.length > 0
  · rw [if_pos hn]
    obtain ⟨h1, h2⟩ := exportLIDs_loop d.source_.getLocalElement exportGIDs
      (resize d.exportLIDs_ exportGIDs.length) (resize_length _ _) exportGIDs.length (le_refl _)
    have h3 := List.take_of_length_le (le_of_eq h1)
    rw [h3, List.take_length] at h2
    exact h2
  · rw [if_neg hn, h]
    have : exportGIDs = [] := List.eq_nil_of_length_eq_zero (by omega)
    rw [this]
    rfl

/-! ## Export/remote duality -/

theorem zip_keepValid (P G : List Int) (hG : G.length = P.length) :
    List.zip (keepValid P P) (keepValid P G)
      = (List.zip P G).filter (fun e => decide (e.1 ≠ -1)) := by
  induction P generalizing G with
  | nil => simp [keepValid]
  | cons a P ih =>
    cases G with
    | nil => simp at hG
    | cons b G =>
      have hG2 : G.length = P.length := by simpa using hG
      have := ih G hG2
      simp only [keepValid] at this ⊢
      by_cases hv : a = -1
      · subst hv
        simp [List.filter_cons] at this ⊢
        exact this
      · simp [List.filter_cons, hv] at this ⊢
        exact this

theorem keepValid_length_eq (P G : List Int) (hG : G.length = P.length) :
    (keepValid P G).length = (keepValid P P).length := by
  have h1 := keepValid_length_add_countP P G hG
  have h2 := keepValid_length_add_countP P P rfl
  omega

/-- The first part of `setupExport`, run without user PIDs on parallel arrays
and an owner lookup that fills one owner per GID, succeeds; the (owner, GID)
pairs it hands to the Distributor are a permutation of the looked-up pairs,
without the pairs of owner `-1` when the lookup reported `IDNotPresent`. -/
theorem setupExportRemotes_request (d : ImportData) (G : List Int)
    (hG : G.length = d.remoteLIDs_.length)
    (hlen : (d.source_.getRemoteIndexList G).1.length = G.length) :
    ∃ req, setupExportRemotes d G false [] = Except.ok req ∧
      req.remoteGIDs.length = req.remoteProcIDs.length ∧
      (List.zip req.remoteProcIDs req.remoteGIDs).Perm
        (if (d.source_.getRemoteIndexList G).2 = LookupStatus.IDNotPresent then
          (List.zip (d.source_.getRemoteIndexList G).1 G).filter (fun e => decide (e.1 ≠ -1))
        else List.zip (d.source_.getRemoteIndexList G).1 G) ∧
      req.data.source_ = d.source_ ∧ req.data.exportLIDs_ = d.exportLIDs_ := by
  have hdrop := dropInvalidRemotes_eq (d.source_.getRemoteIndexList G).2
    (d.source_.getRemoteIndexList G).1 G d.remoteLIDs_ (by omega) (by omega)
  simp only [setupExportRemotes, TPETRA_ABUSE_WARNING_remoteLIDs, List.length_nil,
    gt_iff_lt, Nat.lt_irrefl, decide_False, Bool.and_false, Bool.false_and,
    Bool.false_eq_true, if_false, Bool.not_false, if_true, hdrop]
  refine ⟨_, rfl, ?_⟩
  by_cases hst : (d.source_.getRemoteIndexList G).2 = LookupStatus.IDNotPresent
  · simp only [if_pos hst, TPETRA_ABUSE_WARNING_source, TPETRA_ABUSE_WARNING_exportLIDs]
    have hl1 := keepValid_length_eq (d.source_.getRemoteIndexList G).1 G (by omega)
    have hl2 := keepValid_length_eq (d.source_.getRemoteIndexList G).1 d.remoteLIDs_ (by omega)
    obtain ⟨s1, s2, -⟩ := sort3_length _ _ _ (le_of_eq hl1.symm) (le_of_eq hl2.symm)
    refine ⟨by rw [s1, s2, hl1], ?_, trivial, trivial⟩
    rw [← zip_keepValid _ _ (by omega)]
    exact sort3_pairs_perm _ _ _ hl1 hl2
  · simp only [if_neg hst, TPETRA_ABUSE_WARNING_source, TPETRA_ABUSE_WARNING_exportLIDs]
    obtain ⟨s1, s2, -⟩ := sort3_length (d.source_.getRemoteIndexList G).1 G d.remoteLIDs_
      (by omega) (by omega)
    refine ⟨by rw [s1, s2, hlen], ?_, trivial, trivial⟩
    exact sort3_pairs_perm _ _ _ (by omega) (by omega)

/-- Every GID the classifier lists as remote has no local index in the source
Map. -/
theorem setupSamePermuteRemote_remoteGIDs_invalid (source target : Map) (g : Int)
    (hg : g ∈ (setupSamePermuteRemote (ImportData.new source target) []).2) :
    source.getLocalElement g = LINVALID := by
  obtain ⟨-, -, -, -, hG, -⟩ := setupSamePermuteRemote_fields (ImportData.new source target) []
  rw [hG] at hg
  simp only [ImportData.new, List.nil_append] at hg
  obtain ⟨t, ht, rfl⟩ := List.mem_map.mp hg
  obtain ⟨-, -, h3⟩ := mem_range'_filter_bounds _ _ _ _ ht
  simpa [inSource] using h3

/-- What a rank with a distributed source hands to `createFromRecvs`. -/
theorem rankSubmission_request (source target : Map) (hd : source.isDistributed = true)
    (hlen : (source.getRemoteIndexList
        (setupSamePermuteRemote (ImportData.new source target) []).2).1.length
      = (setupSamePermuteRemote (ImportData.new source target) []).2.length) :
    ∃ req,
      setupExportRemotes (setupSamePermuteRemote (ImportData.new source target) []).1
        (setupSamePermuteRemote (ImportData.new source target) []).2 false [] = Except.ok req ∧
      rankSubmission source target = (req.remoteGIDs, req.remoteProcIDs) ∧
      req.remoteGIDs.length = req.remoteProcIDs.length ∧
      (∀ p : Nat,
        ((List.zip req.remoteProcIDs req.remoteGIDs).filter
            (fun e => decide (e.1 = (p : Int)))).Perm
          ((List.zip (source.getRemoteIndexList
              (setupSamePermuteRemote (ImportData.new source target) []).2).1
            (setupSamePermuteRemote (ImportData.new source target) []).2).filter
            (fun e => decide (e.1 = (p : Int))))) ∧
      req.data.source_ = source ∧ req.data.exportLIDs_ = [] := by
  have hsrc : (setupSamePermuteRemote (ImportData.new source target) []).1.source_ = source :=
    (setupSamePermuteRemote_fields (ImportData.new source target) []).2.2.2.2.2.2.2.1
  have hexp : (setupSamePermuteRemote (ImportData.new source target) []).1.exportLIDs_ = [] :=
    (setupSamePermuteRemote_fields (ImportData.new source target) []).2.2.2.2.2.1
  obtain ⟨-, hgl⟩ := setupSamePermuteRemote_counts source target
  obtain ⟨req, hreq, hl, hperm, hs, he⟩ := setupExportRemotes_request
    (setupSamePermuteRemote (ImportData.new source target) []).1
    (setupSamePermuteRemote (ImportData.new source target) []).2 hgl (by rw [hsrc]; exact hlen)
  rw [hsrc] at hperm
  refine ⟨req, hreq, ?_, hl, ?_, hs.trans hsrc, he.trans hexp⟩
  · simp only [rankSubmission, hd, if_true, hreq]
  · intro p
    have hp := hperm.filter (fun e => decide (e.1 = (p : Int)))
    refine hp.trans ?_
    split
    · rw [List.filter_filter]
      apply List.Perm.of_eq
      apply List.filter_congr
      intro e _
      by_cases he1 : e.1 = (p : Int)
      · have : e.1 ≠ -1 := by omega
        simp [he1, this]
      · simp [he1]
    · exact List.Perm.refl _

theorem requestsNaming_set_self (submitted : List (List Int × List Int)) (p : Nat)
    (x : List Int × List Int) :
    requestsNaming (submitted.set p x) p = requestsNaming submitted p := by
  simp only [requestsNaming, List.length_set]
  apply List.flatMap_congr
  intro q _
  by_cases hq : q = p
  · simp [hq]
  · simp only [if_neg hq]
    have : (submitted.set p x).getD q ([], []) = submitted.getD q ([], []) := by
      simp only [List.getD_eq_getElem?_getD]
      rw [List.getElem?_set_ne (fun h => hq h.symm)]
    rw [this]

theorem allSubmissions_getD (maps : List (Map × Map)) (q : Nat) (m : Map × Map)
    (hq : maps.get? q = some m) :
    (allSubmissions maps).getD q ([], []) = rankSubmission m.1 m.2 := by
  simp only [allSubmissions, List.getD_eq_getElem?_getD, List.getElem?_map]
  rw [List.get?_eq_getElem?] at hq
  rw [hq]
  rfl

/-- The requests the dual exchange delivers to rank `p` are, up to order, the
remote GIDs of all ranks whose looked-up owner is `p`. -/
theorem requestsNaming_perm_remotesOwnedBy (maps : List (Map × Map))
    (hdist : ∀ m ∈ maps, m.1.isDistributed = true) (hlookup : OwnerLookupCorrect maps)
    (p : Nat) (m : Map × Map) (hp : maps.get? p = some m) :
    (requestsNaming (allSubmissions maps) p).Perm (remotesOwnedBy maps p) := by
  simp only [requestsNaming, remotesOwnedBy, allSubmissions, List.length_map]
  apply List.Perm.flatMap_left
  intro q hq
  have hqlt : q < maps.length := List.mem_range.mp hq
  have hget : maps.get? q = some maps[q] := by
    rw [List.get?_eq_getElem?, List.getElem?_eq_getElem hqlt]
  have hsub := allSubmissions_getD maps q maps[q] hget
  simp only [allSubmissions] at hsub
  rw [hget, hsub]
  dsimp only
  obtain ⟨hlen, howner⟩ := hlookup q maps[q] hget
  by_cases hqp : q = p
  · subst hqp
    rw [if_pos rfl]
    have hm : maps[q] = m := by
      rw [hget] at hp
      exact Option.some.inj hp
    have hnil : (List.zip
        (maps[q].1.getRemoteIndexList
          (setupSamePermuteRemote (ImportData.new maps[q].1 maps[q].2) []).2).1
        (setupSamePermuteRemote (ImportData.new maps[q].1 maps[q].2) []).2).filter
        (fun e => decide (e.1 = (q : Int))) = [] := by
      rw [List.filter_eq_nil_iff]
      intro e he
      simp only [decide_eq_true_eq]
      intro he1
      rcases howner e he with hneg | ⟨p2, mp, hp2, hmp, hown⟩
      · omega
      · have hpq : p2 = q := by omega
        subst hpq
        rw [hget] at hmp
        have hmp2 : maps[p2] = mp := Option.some.inj hmp
        subst hmp2
        exact hown.1 (setupSamePermuteRemote_remoteGIDs_invalid _ _ e.2 (List.of_mem_zip he).2)
    rw [hnil]
    exact List.Perm.refl _
  · rw [if_neg hqp]
    obtain ⟨req, -, hrs, -, hperm, -⟩ := rankSubmission_request maps[q].1 maps[q].2
      (hdist _ (List.getElem_mem hqlt)) hlen
    rw [hrs]
    exact (hperm p).map _

theorem createFromRecvs_isDual : ExchangeIsDual createFromRecvs := by
  intro submitted p _
  refine ⟨_, rfl, by simp, ?_⟩
  simp only [List.zip_map']
  apply List.Perm.of_eq
  simp

theorem mem_remotesOwnedBy_owned (maps : List (Map × Map)) (hlookup : OwnerLookupCorrect maps)
    (p : Nat) (m : Map × Map) (hp : maps.get? p = some m) (e : Int × Int)
    (he : e ∈ remotesOwnedBy maps p) : m.1.Owns e.2 := by
  simp only [remotesOwnedBy, List.mem_flatMap, List.mem_range] at he
  obtain ⟨q, hq, he⟩ := he
  have hget : maps.get? q = some maps[q] := by
    rw [List.get?_eq_getElem?, List.getElem?_eq_getElem hq]
  rw [hget] at he
  dsimp only at he
  obtain ⟨x, hx, rfl⟩ := List.mem_map.mp he
  rw [List.mem_filter] at hx
  obtain ⟨hx1, hx2⟩ := hx
  simp only [decide_eq_true_eq] at hx2
  rcases (hlookup q maps[q] hget).2 x hx1 with hneg | ⟨p2, mp, hp2, hmp, hown⟩
  · omega
  · have hpq : p2 = p := by omega
    subst hpq
    rw [hp] at hmp
    cases hmp
    exact hown

/-- C6: assume the owner lookup returns for each remote GID a rank that owns it
(or `-1`), and `createFromRecvs` returns on each rank exactly the (requesting
rank, GID) pairs that the other ranks submitted naming that rank as owner. Then
for plans built from distributed Maps on all ranks, on every rank `p` the
multiset of pairs `(exportPIDs[i], S_p[exportLIDs[i]])` equals the multiset of
pairs `(q, g)` such that rank `q` lists `g` as a remote GID with owner `p`. -/
theorem setupExport_exports_dual_to_remotes
    (exchange : List (List Int × List Int) → Nat → Except ImportError (List Int × List Int))
    (maps : List (Map × Map))
    (hdist : ∀ m ∈ maps, m.1.isDistributed = true)
    (hlookup : OwnerLookupCorrect maps) (hex : ExchangeIsDual exchange)
    (p : Nat) (m : Map × Map) (hp : maps.get? p = some m) :
    ∃ d, importOnRank exchange maps p = Except.ok d ∧
      d.exportLIDs_.length = d.exportPIDs_.length ∧
      (List.zip d.exportPIDs_ (d.exportLIDs_.map m.1.getGlobalElement)).Perm
        ((remotesOwnedBy maps p).map (fun e => (e.1, some e.2))) := by
  have hplt : p < maps.length := by
    rw [List.get?_eq_getElem?] at hp
    exact (List.getElem?_eq_some_iff.mp hp).1
  have hmem : m ∈ maps := by
    rw [List.get?_eq_getElem?] at hp
    obtain ⟨h, hm⟩ := List.getElem?_eq_some_iff.mp hp
    exact hm ▸ List.getElem_mem h
  obtain ⟨req, hreq, -, -, -, hsrc, hexp⟩ := rankSubmission_request m.1 m.2 (hdist m hmem)
    (hlookup p m hp).1
  obtain ⟨out, hout, houtlen, hperm⟩ := hex
    ((allSubmissions maps).set p (req.remoteGIDs, req.remoteProcIDs)) p
    (by simp only [List.length_set, allSubmissions, List.length_map]; exact hplt)
  rw [requestsNaming_set_self] at hperm
  have hperm2 := hperm.trans (requestsNaming_perm_remotesOwnedBy maps hdist hlookup p m hp)
  have hL : (setExportLIDs { req.data with exportPIDs_ := out.2 } out.1).exportLIDs_
      = out.1.map m.1.getLocalElement := by
    have h1 := setExportLIDs_exportLIDs { req.data with exportPIDs_ := out.2 } out.1 hexp
    have h2 : ({ req.data with exportPIDs_ := out.2 } : ImportData).source_ = m.1 := hsrc
    rw [h1, h2]
  have hP : (setExportLIDs { req.data with exportPIDs_ := out.2 } out.1).exportPIDs_ = out.2 :=
    (setExportLIDs_with_exportPIDs req.data out.2 out.1).2.2.2.2.2.2
  refine ⟨setExportLIDs { req.data with exportPIDs_ := out.2 } out.1, ?_, ?_, ?_⟩
  · simp only [importOnRank, hp, init, hdist m hmem, if_true, setupExport, hreq, hout]
  · rw [hL, hP, List.length_map]
    exact houtlen
  · rw [hL, hP, List.map_map]
    have hzip : List.zip out.2 (out.1.map (m.1.getGlobalElement ∘ m.1.getLocalElement))
        = (List.zip out.2 out.1).map (fun e => (e.1, some e.2)) := by
      rw [← List.map_id out.2, List.zip_map, List.map_id]
      apply List.map_congr_left
      intro e he
      have hown := mem_remotesOwnedBy_owned maps hlookup p m hp e (hperm2.subset he)
      simp only [Prod.map, id, Function.comp]
      rw [hown.2]
    rw [hzip]
    exact hperm2.map _

theorem scenarioA_distributed : ∀ m ∈ scenarioA, m.1.isDistributed = true := by
  intro m hm
  simp only [scenarioA, List.mem_cons, List.mem_singleton, List.not_mem_nil, or_false] at hm
  rcases hm with rfl | rfl <;> rfl

theorem scenarioA_ownerLookupCorrect : OwnerLookupCorrect scenarioA := by
  intro q m hq
  match q, hq with
  | 0, hq =>
    cases hq
    refine ⟨by decide, ?_⟩
    intro e he
    have hz : List.zip
        ((scenarioA.get ⟨0, by decide⟩).1.getRemoteIndexList (setupSamePermuteRemote
          (ImportData.new (scenarioA.get ⟨0, by decide⟩).1 (scenarioA.get ⟨0, by decide⟩).2) []).2).1
        (setupSamePermuteRemote
          (ImportData.new (scenarioA.get ⟨0, by decide⟩).1 (scenarioA.get ⟨0, by decide⟩).2) []).2
        = [(1, 4), (1, 5)] := by decide
    have he2 : e ∈ [((1 : Int), (4 : Int)), (1, 5)] := hz ▸ he
    simp only [List.mem_cons, List.mem_singleton, List.not_mem_nil, or_false] at he2
    rcases he2 with rfl | rfl
    · exact Or.inr ⟨1, scenarioA.get ⟨1, by decide⟩, rfl, rfl, by decide, by decide⟩
    · exact Or.inr ⟨1, scenarioA.get ⟨1, by decide⟩, rfl, rfl, by decide, by decide⟩
  | 1, hq =>
    cases hq
    refine ⟨by decide, ?_⟩
    intro e he
    have hz : List.zip
        ((scenarioA.get ⟨1, by decide⟩).1.getRemoteIndexList (setupSamePermuteRemote
          (ImportData.new (scenarioA.get ⟨1, by decide⟩).1 (scenarioA.get ⟨1, by decide⟩).2) []).2).1
        (setupSamePermuteRemote
          (ImportData.new (scenarioA.get ⟨1, by decide⟩).1 (scenarioA.get ⟨1, by decide⟩).2) []).2
        = [(0, 2), (0, 3)] := by decide
    have he2 : e ∈ [((0 : Int), (2 : Int)), (0, 3)] := hz ▸ he
    simp only [List.mem_cons, List.mem_singleton, List.not_mem_nil, or_false] at he2
    rcases he2 with rfl | rfl
    · exact Or.inr ⟨0, scenarioA.get ⟨0, by decide⟩, rfl, rfl, by decide, by decide⟩
    · exact Or.inr ⟨0, scenarioA.get ⟨0, by decide⟩, rfl, rfl, by decide, by decide⟩
  | n + 2, hq => cases hq

/-- Witness for C6: rank 1 of Scenario A with the dual exchange. -/
theorem setupExport_exports_dual_to_remotes_witness :
    (∀ m ∈ scenarioA, m.1.isDistributed = true) ∧ OwnerLookupCorrect scenarioA ∧
    ExchangeIsDual createFromRecvs ∧
    ∃ d, importOnRank createFromRecvs scenarioA 1 = Except.ok d ∧
      d.exportLIDs_.length = d.exportPIDs_.length ∧
      (List.zip d.exportPIDs_ (d.exportLIDs_.map
          (Map.ofList [4, 5, 6, 7] true
            (directoryLookup [[0, 1, 2, 3], [4, 5, 6, 7]])).getGlobalElement)).Perm
        ((remotesOwnedBy scenarioA 1).map (fun e => (e.1, some e.2))) :=
  ⟨scenarioA_distributed, scenarioA_ownerLookupCorrect, createFromRecvs_isDual,
   setupExport_exports_dual_to_remotes createFromRecvs scenarioA scenarioA_distributed
     scenarioA_ownerLookupCorrect createFromRecvs_isDual 1
     (Map.ofList [4, 5, 6, 7] true (directoryLookup [[0, 1, 2, 3], [4, 5, 6, 7]]),
      Map.ofList [2, 3, 6, 7] true (directoryLookup [[0, 1, 2, 3], [4, 5, 6, 7]])) rfl⟩

/-! ## Scenarios -/

/-- C7 (Scenario A): with source element lists `[0,1,2,3]` on rank 0 and
`[4,5,6,7]` on rank 1, and target lists `[0,1,4,5]` and `[2,3,6,7]`, the plan on
rank 0 has `numSame = 2`, empty permute lists and remote LIDs `[2, 3]` carrying
GIDs 4 and 5 with owner rank 1; with `createFromRecvs` the dual exchange, the
export lists of rank 1 are the source LIDs 0 and 1 (GIDs 4 and 5), both
destined to rank 0. -/
theorem scenarioA_plan :
    ∃ d0 d1, importOnRank createFromRecvs scenarioA 0 = Except.ok d0 ∧
      importOnRank createFromRecvs scenarioA 1 = Except.ok d1 ∧
      getNumSameIDs d0 = 2 ∧ d0.permuteToLIDs_ = [] ∧ d0.permuteFromLIDs_ = [] ∧
      d0.remoteLIDs_ = [2, 3] ∧
      d0.remoteLIDs_.map d0.target_.getGlobalElement = [some 4, some 5] ∧
      rankSubmission d0.source_ d0.target_ = ([4, 5], [1, 1]) ∧
      d1.exportLIDs_ = [0, 1] ∧ d1.exportPIDs_ = [0, 0] ∧
      d1.exportLIDs_.map d1.source_.getGlobalElement = [some 4, some 5] :=
  ⟨_, _, rfl, rfl, by decide, by decide, by decide, by decide, by decide, by decide,
    by decide, by decide, by decide⟩

/-- The same-prefix scan returns `i` when the lists agree below `i` and differ
at `i`. -/
theorem numSameLoop_eq_of_first_mismatch (S T : List Int) (i : Nat)
    (hi : i < min S.length T.length)
    (hpre : ∀ k, k < i → S.getD k 0 = T.getD k 0) (hne : S.getD i 0 ≠ T.getD i 0) :
    numSameLoop S T (min S.length T.length) (min S.length T.length) 0 = i := by
  obtain ⟨a, b, c⟩ := numSame_def S T
  rcases Nat.lt_trichotomy
    (numSameLoop S T (min S.length T.length) (min S.length T.length) 0) i with h | h | h
  · rcases c with c | c
    · omega
    · exact absurd (hpre _ h) c
  · exact h
  · exact absurd (b i h) hne

/-- The same-prefix scan of a list against itself returns its length. -/
theorem numSameLoop_self (L : List Int) :
    numSameLoop L L (min L.length L.length) (min L.length L.length) 0 = L.length := by
  obtain ⟨-, -, c⟩ := numSame_def L L
  rcases c with c | c
  · rw [c]; omega
  · exact absurd rfl c

/-- The classifier on a source and a target with the same element list: every
entry is a same ID and nothing else is produced. -/
theorem setupSamePermuteRemote_same_lists (source target : Map)
    (h : source.getNodeElementList = target.getNodeElementList) :
    (setupSamePermuteRemote (ImportData.new source target) []).1.numSameIDs_
      = target.getNodeElementList.length ∧
    (setupSamePermuteRemote (ImportData.new source target) []).1.permuteToLIDs_ = [] ∧
    (setupSamePermuteRemote (ImportData.new source target) []).1.permuteFromLIDs_ = [] ∧
    (setupSamePermuteRemote (ImportData.new source target) []).1.remoteLIDs_ = [] ∧
    (setupSamePermuteRemote (ImportData.new source target) []).2 = [] ∧
    (setupSamePermuteRemote (ImportData.new source target) []).1.exportLIDs_ = [] ∧
    (setupSamePermuteRemote (ImportData.new source target) []).1.exportPIDs_ = [] := by
  obtain ⟨hn, hP, hF, hR, hG, hEL, hEP, -⟩ :=
    setupSamePermuteRemote_fields (ImportData.new source target) []
  have hn2 : (setupSamePermuteRemote (ImportData.new source target) []).1.numSameIDs_
      = target.getNodeElementList.length := by
    rw [hn]
    simp only [ImportData.new, h]
    exact numSameLoop_self _
  rw [hP, hF, hR, hG, hEL, hEP, hn2]
  simp [ImportData.new]

/-- C8 (Scenario B): if on every rank the source and target Maps have the same
element list, the owner lookup of an empty GID list is empty, and
`createFromRecvs` returns empty output when every rank submits empty input,
then on every rank the plan has `numSame = |L|`, no permute pairs, no remote
LIDs and no exports. -/
theorem identical_maps_plan
    (exchange : List (List Int × List Int) → Nat → Except ImportError (List Int × List Int))
    (maps : List (Map × Map))
    (hsame : ∀ m ∈ maps, m.1.getNodeElementList = m.2.getNodeElementList)
    (hlookup : ∀ m ∈ maps, (m.1.getRemoteIndexList []).1 = [])
    (hex : ∀ submitted p, (∀ s ∈ submitted, s = ([], [])) →
      exchange submitted p = Except.ok ([], []))
    (p : Nat) (m : Map × Map) (hp : maps.get? p = some m) :
    ∃ d, importOnRank exchange maps p = Except.ok d ∧
      getNumSameIDs d = m.2.getNodeElementList.length ∧
      d.permuteToLIDs_ = [] ∧ d.permuteFromLIDs_ = [] ∧ getNumPermuteIDs d = 0 ∧
      d.remoteLIDs_ = [] ∧ getNumRemoteIDs d = 0 ∧
      d.exportLIDs_ = [] ∧ d.exportPIDs_ = [] ∧ getNumExportIDs d = 0 := by
  have hmem : m ∈ maps := by
    rw [List.get?_eq_getElem?] at hp
    obtain ⟨h, hm⟩ := List.getElem?_eq_some_iff.mp hp
    exact hm ▸ List.getElem_mem h
  -- the request of a rank whose two Maps have the same element list is empty
  have hreq : ∀ x ∈ maps, x.1.isDistributed = true →
      ∃ req, setupExportRemotes (setupSamePermuteRemote (ImportData.new x.1 x.2) []).1
          (setupSamePermuteRemote (ImportData.new x.1 x.2) []).2 false [] = Except.ok req ∧
        req.remoteGIDs = [] ∧ req.remoteProcIDs = [] ∧
        req.data.numSameIDs_ = x.2.getNodeElementList.length ∧
        req.data.permuteToLIDs_ = [] ∧ req.data.permuteFromLIDs_ = [] ∧
        req.data.remoteLIDs_ = [] ∧ req.data.exportLIDs_ = [] := by
    intro x hx _
    obtain ⟨c1, c2, c3, c4, c5, c6, -⟩ := setupSamePermuteRemote_same_lists x.1 x.2 (hsame x hx)
    have hsrc : (setupSamePermuteRemote (ImportData.new x.1 x.2) []).1.source_ = x.1 :=
      (setupSamePermuteRemote_fields (ImportData.new x.1 x.2) []).2.2.2.2.2.2.2.1
    obtain ⟨req, hr, -, hperm, -, -⟩ := setupExportRemotes_request
      (setupSamePermuteRemote (ImportData.new x.1 x.2) []).1
      (setupSamePermuteRemote (ImportData.new x.1 x.2) []).2 (by rw [c4, c5])
      (by rw [hsrc, c5, hlookup x hx])
    obtain ⟨kept, hk, -, -, -, -, e3, e4, e5, e6, -, e8, e9, e10⟩ :=
      setupExportRemotes_ok _ _ _ _ _ hr
    rw [hsrc, c5, c4] at hk
    simp only [Bool.not_false, if_true, Bool.false_eq_true, if_false, hlookup x hx] at hk
    have hkept : kept = ([], [], []) := by
      rcases dropInvalidRemotes_ok_lengths _ _ _ _ _ hk with ⟨k1, k2⟩
      by_cases hst : (x.1.getRemoteIndexList []).2 = LookupStatus.IDNotPresent
      · obtain ⟨a, b, c⟩ := k1 hst
        simp only [List.countP_nil, List.length_nil, Nat.add_zero] at c
        have h3 : kept.2.2 = [] := List.eq_nil_of_length_eq_zero c
        have h2 : kept.2.1 = [] := List.eq_nil_of_length_eq_zero (by omega)
        have h1 : kept.1 = [] := List.eq_nil_of_length_eq_zero (by omega)
        exact Prod.ext h1 (Prod.ext h2 h3)
      · exact k2 hst
    rw [hkept] at e8 e9 e10
    simp only [sort3_nil] at e8 e9 e10
    exact ⟨req, hr, e9, e10, e3.trans c1, e4.trans c2, e5.trans c3, e8, e6.trans c6⟩
  have hsub : ∀ s ∈ allSubmissions maps, s = ([], []) := by
    intro s hs
    simp only [allSubmissions, List.mem_map] at hs
    obtain ⟨x, hx, rfl⟩ := hs
    simp only [rankSubmission]
    cases hd : x.1.isDistributed with
    | false => simp
    | true =>
      obtain ⟨req, hr, g1, g2, -⟩ := hreq x hx hd
      simp only [if_true, hr, g1, g2]
  cases hd : m.1.isDistributed with
  | false =>
    obtain ⟨c1, c2, c3, c4, -, c6, c7⟩ := setupSamePermuteRemote_same_lists m.1 m.2 (hsame m hmem)
    refine ⟨(setupSamePermuteRemote (ImportData.new m.1 m.2) []).1, ?_, ?_⟩
    · simp only [importOnRank, hp, init, hd, Bool.false_eq_true, if_false]
    · simp only [getNumSameIDs, getNumPermuteIDs, getNumRemoteIDs, getNumExportIDs, c1, c2, c3,
        c4, c6, c7, List.length_nil, and_self]
  | true =>
    obtain ⟨req, hr, g1, g2, r1, r2, r3, r4, r5⟩ := hreq m hmem hd
    have hout : exchange ((allSubmissions maps).set p (req.remoteGIDs, req.remoteProcIDs)) p
        = Except.ok ([], []) := by
      apply hex
      intro s hs
      rcases List.mem_or_eq_of_mem_set hs with h1 | h1
      · exact hsub s h1
      · rw [h1, g1, g2]
    refine ⟨setExportLIDs { req.data with exportPIDs_ := [] } [], ?_, ?_⟩
    · simp only [importOnRank, hp, init, hd, if_true, setupExport, hr, hout]
    · obtain ⟨-, -, s3, s4, s5, s6, s7⟩ := setExportLIDs_with_exportPIDs req.data [] []
      have s8 := setExportLIDs_exportLIDs { req.data with exportPIDs_ := [] } [] r5
      exact ⟨s3.trans r1, s4.trans r2, s5.trans r3,
        by unfold getNumPermuteIDs; rw [s5, r3]; rfl, s6.trans r4,
        by unfold getNumRemoteIDs; rw [s6, r4]; rfl, s8, s7,
        by unfold getNumExportIDs; rw [s8]; rfl⟩

theorem requestsNaming_of_empty (submitted : List (List Int × List Int)) (p : Nat)
    (h : ∀ s ∈ submitted, s = ([], [])) : requestsNaming submitted p = [] := by
  simp only [requestsNaming, List.flatMap_eq_nil_iff, List.mem_range]
  intro q hq
  split
  · rfl
  · have hmem : submitted.getD q ([], []) ∈ submitted := by
      rw [List.getD_eq_getElem _ _ hq]
      exact List.getElem_mem hq
    rw [h _ hmem]
    rfl

theorem createFromRecvs_of_empty (submitted : List (List Int × List Int)) (p : Nat)
    (h : ∀ s ∈ submitted, s = ([], [])) : createFromRecvs submitted p = Except.ok ([], []) := by
  simp only [createFromRecvs, requestsNaming_of_empty submitted p h, List.map_nil]

theorem scenarioB_same : ∀ m ∈ scenarioB, m.1.getNodeElementList = m.2.getNodeElementList := by
  intro m hm
  simp only [scenarioB, List.mem_cons, List.mem_singleton, List.not_mem_nil, or_false] at hm
  rcases hm with rfl | rfl <;> rfl

theorem scenarioB_lookup : ∀ m ∈ scenarioB, (m.1.getRemoteIndexList []).1 = [] := by
  intro m hm
  simp only [scenarioB, List.mem_cons, List.mem_singleton, List.not_mem_nil, or_false] at hm
  rcases hm with rfl | rfl <;> rfl

/-- Witness for C8: rank 0 of `scenarioB` with the dual exchange. -/
theorem identical_maps_plan_witness :
    (∀ m ∈ scenarioB, m.1.getNodeElementList = m.2.getNodeElementList) ∧
    (∀ m ∈ scenarioB, (m.1.getRemoteIndexList []).1 = []) ∧
    (∀ submitted p, (∀ s ∈ submitted, s = ([], [])) →
      createFromRecvs submitted p = Except.ok ([], [])) ∧
    ∃ d, importOnRank createFromRecvs scenarioB 0 = Except.ok d ∧
      getNumSameIDs d = 2 ∧
      d.permuteToLIDs_ = [] ∧ d.permuteFromLIDs_ = [] ∧ getNumPermuteIDs d = 0 ∧
      d.remoteLIDs_ = [] ∧ getNumRemoteIDs d = 0 ∧
      d.exportLIDs_ = [] ∧ d.exportPIDs_ = [] ∧ getNumExportIDs d = 0 :=
  ⟨scenarioB_same, scenarioB_lookup, createFromRecvs_of_empty,
   identical_maps_plan createFromRecvs scenarioB scenarioB_same scenarioB_lookup
     createFromRecvs_of_empty 0
     (Map.ofList [0, 1] true (directoryLookup [[0, 1], [2, 3]]),
      Map.ofList [0, 1] true (directoryLookup [[0, 1], [2, 3]])) rfl⟩

theorem swapEntries_length (S : List Int) (i j : Nat) : (swapEntries S i j).length = S.length := by
  simp [swapEntries]

theorem swapEntries_getD (S : List Int) (i j k : Nat) (hij : i < j) (hj : j < S.length) :
    (swapEntries S i j).getD k 0
      = if k = j then S.getD i 0 else if k = i then S.getD j 0 else S.getD k 0 := by
  simp only [swapEntries, List.getD_eq_getElem?_getD, List.getElem?_set, List.length_set]
  by_cases h1 : k = j
  · subst h1
    simp [hj]
  · by_cases h2 : k = i
    · subst h2
      have h3 : ¬ j = k := fun h => h1 h.symm
      have h4 : k < S.length := by omega
      simp [h1, h3, h4]
    · have h3 : ¬ j = k := fun h => h1 h.symm
      have h4 : ¬ i = k := fun h => h2 h.symm
      simp [h1, h2, h3, h4]

theorem getD_mem_of_lt (S : List Int) (k : Nat) (h : k < S.length) : S.getD k 0 ∈ S := by
  rw [List.getD_eq_getElem _ _ h]
  exact List.getElem_mem h

theorem getD_ne_of_nodup (S : List Int) (hS : S.Nodup) (i j : Nat) (hi : i < S.length)
    (hj : j < S.length) (hij : i ≠ j) : S.getD i 0 ≠ S.getD j 0 := by
  rw [List.getD_eq_getElem _ _ hi, List.getD_eq_getElem _ _ hj]
  intro h
  exact hij ((List.Nodup.getElem_inj_iff hS).mp h)

/-- The amended C9: for a source element list `S` of distinct GIDs held by a
source Map whose `getLocalElement` is valid exactly on the GIDs of `S`, and a
target whose element list is `S` with the entries at positions `i < j` swapped,
the classified plan has `numSame = i`, lists every target LID from `i` on as a
permute (`|S| - i` pairs), and has no remotes. -/
theorem swapped_target_plan (S : List Int) (hS : S.Nodup) (i j : Nat) (hij : i < j)
    (hj : j < S.length) (source target : Map) (hsrc : source.getNodeElementList = S)
    (hloc : ∀ g, source.getLocalElement g ≠ LINVALID ↔ g ∈ S)
    (htgt : target.getNodeElementList = swapEntries S i j) :
    getNumSameIDs (setupSamePermuteRemote (ImportData.new source target) []).1 = i ∧
    getNumPermuteIDs (setupSamePermuteRemote (ImportData.new source target) []).1
      = S.length - i ∧
    (setupSamePermuteRemote (ImportData.new source target) []).1.permuteToLIDs_
      = (List.range' i (S.length - i)).map Int.ofNat ∧
    getNumRemoteIDs (setupSamePermuteRemote (ImportData.new source target) []).1 = 0 := by
  obtain ⟨hn, hP, hF, hR, -⟩ := setupSamePermuteRemote_fields (ImportData.new source target) []
  have hlenT : target.getNodeElementList.length = S.length := by
    rw [htgt, swapEntries_length]
  have hn2 : (setupSamePermuteRemote (ImportData.new source target) []).1.numSameIDs_ = i := by
    rw [hn]
    simp only [ImportData.new, hsrc]
    apply numSameLoop_eq_of_first_mismatch
    · omega
    · intro k hk
      rw [htgt, swapEntries_getD S i j k hij hj, if_neg (by omega), if_neg (by omega)]
    · rw [htgt, swapEntries_getD S i j i hij hj, if_neg (by omega), if_pos rfl]
      exact getD_ne_of_nodup S hS i j (by omega) hj (by omega)
  have hall : ∀ t ∈ List.range' i (S.length - i),
      inSource source target.getNodeElementList t = true := by
    intro t ht
    rw [List.mem_range'] at ht
    obtain ⟨x, hx, rfl⟩ := ht
    simp only [inSource, decide_eq_true_eq, hloc, htgt]
    rw [swapEntries_getD S i j _ hij hj]
    split
    · exact getD_mem_of_lt S i (by omega)
    · split
      · exact getD_mem_of_lt S j hj
      · exact getD_mem_of_lt S _ (by omega)
  have hfilt : (List.range' i (S.length - i)).filter (inSource source target.getNodeElementList)
      = List.range' i (S.length - i) := List.filter_eq_self.mpr hall
  have hfilt2 : (List.range' i (S.length - i)).filter
      (fun t => !inSource source target.getNodeElementList t) = [] := by
    rw [List.filter_eq_nil_iff]
    intro t ht
    simp [hall t ht]
  simp only [getNumSameIDs, getNumPermuteIDs, getNumRemoteIDs]
  rw [hP, hF, hR, hn2]
  simp only [ImportData.new, List.nil_append, hlenT, hfilt, hfilt2, List.length_map,
    List.length_range', List.map_nil, List.length_nil, and_self]

theorem Map.ofList_getLocalElement_valid_iff (elems : List Int) (distributed : Bool)
    (lookup : List Int → List Int × LookupStatus) (g : Int) :
    (Map.ofList elems distributed lookup).getLocalElement g ≠ LINVALID ↔ g ∈ elems := by
  simp only [Map.ofList]
  by_cases h : g ∈ elems
  · simp only [h, iff_true, LINVALID, if_true]
    intro hc
    have h0 : (0 : Int) ≤ (List.indexOf g elems : Int) := Int.ofNat_nonneg _
    rw [hc] at h0
    exact absurd h0 (by decide)
  · simp [if_neg h, h]

/-- Witness for the amended C9: `S = [0, 1, 2]` with positions 0 and 1
swapped. -/
theorem swapped_target_plan_witness :
    [(0 : Int), 1, 2].Nodup ∧ 0 < 1 ∧ 1 < [(0 : Int), 1, 2].length ∧
    getNumSameIDs (setupSamePermuteRemote (ImportData.new
        (Map.ofList [0, 1, 2] false (directoryLookup [[0, 1, 2]]))
        (Map.ofList (swapEntries [0, 1, 2] 0 1) false (directoryLookup [[0, 1, 2]]))) []).1 = 0 ∧
    getNumPermuteIDs (setupSamePermuteRemote (ImportData.new
        (Map.ofList [0, 1, 2] false (directoryLookup [[0, 1, 2]]))
        (Map.ofList (swapEntries [0, 1, 2] 0 1) false (directoryLookup [[0, 1, 2]]))) []).1
      = [(0 : Int), 1, 2].length - 0 ∧
    (setupSamePermuteRemote (ImportData.new
        (Map.ofList [0, 1, 2] false (directoryLookup [[0, 1, 2]]))
        (Map.ofList (swapEntries [0, 1, 2] 0 1) false (directoryLookup [[0, 1, 2]]))) []).1.permuteToLIDs_
      = (List.range' 0 ([(0 : Int), 1, 2].length - 0)).map Int.ofNat ∧
    getNumRemoteIDs (setupSamePermuteRemote (ImportData.new
        (Map.ofList [0, 1, 2] false (directoryLookup [[0, 1, 2]]))
        (Map.ofList (swapEntries [0, 1, 2] 0 1) false (directoryLookup [[0, 1, 2]]))) []).1 = 0 :=
  ⟨by decide, by decide, by decide,
   swapped_target_plan [0, 1, 2] (by decide) 0 1 (by decide) (by decide)
    (Map.ofList [0, 1, 2] false (directoryLookup [[0, 1, 2]]))
    (Map.ofList (swapEntries [0, 1, 2] 0 1) false (directoryLookup [[0, 1, 2]])) rfl
    (Map.ofList_getLocalElement_valid_iff _ _ _) rfl⟩

/-- C9, counterexample: for `S = [0, 1, 2]` and the target `[1, 0, 2]` (positions
0 and 1 swapped) the classifier produces three permute pairs, not two. -/
theorem swapped_target_two_permutes_counterexample :
    ¬ (getNumSameIDs (setupSamePermuteRemote (ImportData.new
          (Map.ofList [0, 1, 2] false (directoryLookup [[0, 1, 2]]))
          (Map.ofList (swapEntries [0, 1, 2] 0 1) false (directoryLookup [[0, 1, 2]]))) []).1 = 0 ∧
      getNumPermuteIDs (setupSamePermuteRemote (ImportData.new
          (Map.ofList [0, 1, 2] false (directoryLookup [[0, 1, 2]]))
          (Map.ofList (swapEntries [0, 1, 2] 0 1) false (directoryLookup [[0, 1, 2]]))) []).1 = 2 ∧
      getNumRemoteIDs (setupSamePermuteRemote (ImportData.new
          (Map.ofList [0, 1, 2] false (directoryLookup [[0, 1, 2]]))
          (Map.ofList (swapEntries [0, 1, 2] 0 1) false (directoryLookup [[0, 1, 2]]))) []).1 = 0) := by
  decide

/-! ## Sources that are not distributed -/

theorem setupSamePermuteRemote_warns (d : ImportData) (remoteGIDs : List Int)
    (hd : d.source_.isDistributed = false)
    (h : getNumRemoteIDs (setupSamePermuteRemote d remoteGIDs).1 > 0) :
    AbuseWarning.remoteLIDsButSourceNotDistributed
      ∈ (setupSamePermuteRemote d remoteGIDs).1.abuseWarnings := by
  simp only [setupSamePermuteRemote, getNumRemoteIDs, TPETRA_ABUSE_WARNING_remoteLIDs] at h ⊢
  simp only [TPETRA_ABUSE_WARNING, getNumRemoteIDs, hd, Bool.not_false, Bool.and_true,
    decide_eq_true_eq]
  rw [if_pos h]
  simp

/-- The amended C10: for a source Map with `isDistributed () = false` the
from-Maps constructor succeeds with empty export lists; its remote LIDs are
exactly the target LIDs at or after `numSame` whose GID the source Map does not
hold, so `getNumRemoteIDs () = 0` only when there is no such LID, and a
non-empty remote set is reported through the abuse warning. -/
theorem init_source_not_distributed
    (cfr : List Int → List Int → Except ImportError (List Int × List Int))
    (source target : Map) (useRemotePIDs : Bool) (remotePIDs : List Int)
    (hd : source.isDistributed = false) :
    ∃ d, init cfr source target useRemotePIDs remotePIDs = Except.ok d ∧
      d.exportLIDs_ = [] ∧ d.exportPIDs_ = [] ∧ getNumExportIDs d = 0 ∧
      (∀ t : Nat, Int.ofNat t ∈ d.remoteLIDs_ ↔
        (getNumSameIDs d ≤ t ∧ t < target.getNodeElementList.length ∧
          source.getLocalElement (target.getNodeElementList.getD t 0) = LINVALID)) ∧
      (getNumRemoteIDs d = 0 ↔
        ∀ t : Nat, getNumSameIDs d ≤ t → t < target.getNodeElementList.length →
          source.getLocalElement (target.getNodeElementList.getD t 0) ≠ LINVALID) ∧
      (getNumRemoteIDs d > 0 →
        AbuseWarning.remoteLIDsButSourceNotDistributed ∈ d.abuseWarnings) := by
  refine ⟨(setupSamePermuteRemote (ImportData.new source target) []).1, ?_, ?_⟩
  · simp only [init, hd, Bool.false_eq_true, if_false]
  obtain ⟨hn, -, -, hR, -, hEL, hEP, -⟩ :=
    setupSamePermuteRemote_fields (ImportData.new source target) []
  have hle : (setupSamePermuteRemote (ImportData.new source target) []).1.numSameIDs_
      ≤ target.getNodeElementList.length := by
    rw [hn]
    have := (numSame_def source.getNodeElementList target.getNodeElementList).1
    simp only [ImportData.new]
    omega
  have hmem : ∀ t : Nat,
      Int.ofNat t ∈ (setupSamePermuteRemote (ImportData.new source target) []).1.remoteLIDs_ ↔
      ((setupSamePermuteRemote (ImportData.new source target) []).1.numSameIDs_ ≤ t ∧
        t < target.getNodeElementList.length ∧
        source.getLocalElement (target.getNodeElementList.getD t 0) = LINVALID) := by
    intro t
    rw [hR]
    generalize (setupSamePermuteRemote (ImportData.new source target) []).1.numSameIDs_ = n
      at hle ⊢
    simp only [ImportData.new, List.nil_append, List.mem_map, List.mem_filter, List.mem_range']
    constructor
    · rintro ⟨x, ⟨⟨k, hk, rfl⟩, hx⟩, hxt⟩
      have : n + 1 * k = t := Int.ofNat.inj hxt
      subst this
      exact ⟨by omega, by omega, by simpa [inSource] using hx⟩
    · rintro ⟨h1, h2, h3⟩
      exact ⟨t, ⟨⟨t - n, by omega, by omega⟩, by simpa [inSource] using h3⟩, rfl⟩
  refine ⟨hEL, hEP, by unfold getNumExportIDs; rw [hEL]; rfl, hmem, ?_,
    setupSamePermuteRemote_warns _ _ hd⟩
  constructor
  · intro h0 t h1 h2 h3
    have hin := (hmem t).mpr ⟨h1, h2, h3⟩
    have hnil : (setupSamePermuteRemote (ImportData.new source target) []).1.remoteLIDs_ = [] :=
      List.eq_nil_of_length_eq_zero h0
    rw [hnil] at hin
    exact absurd hin (List.not_mem_nil _)
  · intro hall
    unfold getNumRemoteIDs
    rw [List.length_eq_zero, List.eq_nil_iff_forall_not_mem]
    intro r hr
    have hr2 := hr
    rw [hR] at hr2
    simp only [ImportData.new, List.nil_append, List.mem_map] at hr2
    obtain ⟨t, -, rfl⟩ := hr2
    obtain ⟨h1, h2, h3⟩ := (hmem t).mp hr
    exact hall t h1 h2 h3

/-- Witness for the amended C10 on `scenarioSubmap`. -/
theorem init_source_not_distributed_witness :
    (Map.ofList [0] false (directoryLookup [[0]])).isDistributed = false ∧
    ∃ d, init (fun gids pids => createFromRecvs ((allSubmissions scenarioSubmap).set 0 (gids, pids)) 0)
        (Map.ofList [0] false (directoryLookup [[0]]))
        (Map.ofList [0, 5] false (directoryLookup [[0]])) false [] = Except.ok d ∧
      d.exportLIDs_ = [] ∧ d.exportPIDs_ = [] ∧ getNumExportIDs d = 0 ∧
      (∀ t : Nat, Int.ofNat t ∈ d.remoteLIDs_ ↔
        (getNumSameIDs d ≤ t ∧
          t < (Map.ofList [0, 5] false (directoryLookup [[0]])).getNodeElementList.length ∧
          (Map.ofList [0] false (directoryLookup [[0]])).getLocalElement
            ((Map.ofList [0, 5] false (directoryLookup [[0]])).getNodeElementList.getD t 0)
            = LINVALID)) ∧
      (getNumRemoteIDs d = 0 ↔
        ∀ t : Nat, getNumSameIDs d ≤ t →
          t < (Map.ofList [0, 5] false (directoryLookup [[0]])).getNodeElementList.length →
          (Map.ofList [0] false (directoryLookup [[0]])).getLocalElement
            ((Map.ofList [0, 5] false (directoryLookup [[0]])).getNodeElementList.getD t 0)
            ≠ LINVALID) ∧
      (getNumRemoteIDs d > 0 →
        AbuseWarning.remoteLIDsButSourceNotDistributed ∈ d.abuseWarnings) :=
  ⟨rfl, init_source_not_distributed _ _ _ false [] rfl⟩

/-- C10, counterexample: on `scenarioSubmap` the source Map is not distributed,
yet the completed plan has one remote LID (target slot 1, GID 5). -/
theorem init_source_not_distributed_counterexample :
    ∃ d, importOnRank createFromRecvs scenarioSubmap 0 = Except.ok d ∧
      d.source_.isDistributed = false ∧
      ¬ (getNumExportIDs d = 0 ∧ getNumRemoteIDs d = 0) :=
  ⟨_, rfl, rfl, by decide⟩

/-! ## Removal of remote entries without an owner -/

/-- C11: in `setupExport`, when the owner lookup reports `IDNotPresent` (on
parallel remote arrays and a lookup that fills one owner per GID), the removal
step does not throw and leaves in `remoteProcIDs`, `remoteGIDs` and
`remoteLIDs`, as handed to `sort3`, exactly the entries at the positions whose
owner is not `-1`, in their original order; when every owner is `-1` all three
arrays are empty; and the first part of `setupExport` completes with the
`sort3` of these arrays. -/
theorem setupExport_drops_unowned_remotes (d : ImportData) (G : List Int)
    (hG : G.length = d.remoteLIDs_.length)
    (hlen : (d.source_.getRemoteIndexList G).1.length = G.length)
    (hst : (d.source_.getRemoteIndexList G).2 = LookupStatus.IDNotPresent) :
    dropInvalidRemotes (d.source_.getRemoteIndexList G).2 (d.source_.getRemoteIndexList G).1 G
        d.remoteLIDs_
      = Except.ok (keepValid (d.source_.getRemoteIndexList G).1 (d.source_.getRemoteIndexList G).1,
          keepValid (d.source_.getRemoteIndexList G).1 G,
          keepValid (d.source_.getRemoteIndexList G).1 d.remoteLIDs_) ∧
    ((∀ pid ∈ (d.source_.getRemoteIndexList G).1, pid = -1) →
      keepValid (d.source_.getRemoteIndexList G).1 (d.source_.getRemoteIndexList G).1 = [] ∧
      keepValid (d.source_.getRemoteIndexList G).1 G = [] ∧
      keepValid (d.source_.getRemoteIndexList G).1 d.remoteLIDs_ = []) ∧
    ∃ req, setupExportRemotes d G false [] = Except.ok req ∧
      req.remoteProcIDs = (sort3
        (keepValid (d.source_.getRemoteIndexList G).1 (d.source_.getRemoteIndexList G).1)
        (keepValid (d.source_.getRemoteIndexList G).1 G)
        (keepValid (d.source_.getRemoteIndexList G).1 d.remoteLIDs_)).1 ∧
      req.remoteGIDs = (sort3
        (keepValid (d.source_.getRemoteIndexList G).1 (d.source_.getRemoteIndexList G).1)
        (keepValid (d.source_.getRemoteIndexList G).1 G)
        (keepValid (d.source_.getRemoteIndexList G).1 d.remoteLIDs_)).2.1 ∧
      req.data.remoteLIDs_ = (sort3
        (keepValid (d.source_.getRemoteIndexList G).1 (d.source_.getRemoteIndexList G).1)
        (keepValid (d.source_.getRemoteIndexList G).1 G)
        (keepValid (d.source_.getRemoteIndexList G).1 d.remoteLIDs_)).2.2 := by
  have hdrop := dropInvalidRemotes_eq (d.source_.getRemoteIndexList G).2
    (d.source_.getRemoteIndexList G).1 G d.remoteLIDs_ (by omega) (by omega)
  rw [if_pos hst] at hdrop
  refine ⟨hdrop, ?_, ?_⟩
  · intro hall
    have hc : (d.source_.getRemoteIndexList G).1.countP (fun pid => decide ((-1 : Int) = pid))
        = (d.source_.getRemoteIndexList G).1.length := by
      rw [List.countP_eq_length]
      intro a ha
      simp [hall a ha]
    exact ⟨keepValid_eq_nil_of_all_invalid _ _ hc, keepValid_eq_nil_of_all_invalid _ _ hc,
      keepValid_eq_nil_of_all_invalid _ _ hc⟩
  · simp only [setupExportRemotes, TPETRA_ABUSE_WARNING_remoteLIDs, List.length_nil,
      gt_iff_lt, Nat.lt_irrefl, decide_False, Bool.and_false, Bool.false_and,
      Bool.false_eq_true, if_false, Bool.not_false, if_true, hdrop]
    exact ⟨_, rfl, rfl, rfl, rfl⟩

/-- Witness for C11: owners `[1, -1, 0]` for the remote GIDs `[7, 8, 9]` at
target LIDs `[1, 2, 3]`. -/
theorem setupExport_drops_unowned_remotes_witness :
    dropInvalidRemotes LookupStatus.IDNotPresent [1, -1, 0] [7, 8, 9] [1, 2, 3]
      = Except.ok ([1, 0], [7, 9], [1, 3]) ∧
    ∃ req, setupExportRemotes
        { ImportData.new
            (Map.ofList [0] true (fun _ => ([1, -1, 0], LookupStatus.IDNotPresent)))
            (Map.ofList [0, 7, 8, 9] true (fun _ => ([1, -1, 0], LookupStatus.IDNotPresent)))
          with numSameIDs_ := 1, remoteLIDs_ := [1, 2, 3] }
        [7, 8, 9] false [] = Except.ok req ∧
      req.remoteProcIDs = [0, 1] ∧ req.remoteGIDs = [9, 7] ∧ req.data.remoteLIDs_ = [3, 1] :=
  have h := setupExport_drops_unowned_remotes
    { ImportData.new
        (Map.ofList [0] true (fun _ => ([1, -1, 0], LookupStatus.IDNotPresent)))
        (Map.ofList [0, 7, 8, 9] true (fun _ => ([1, -1, 0], LookupStatus.IDNotPresent)))
      with numSameIDs_ := 1, remoteLIDs_ := [1, 2, 3] }
    [7, 8, 9] rfl rfl rfl
  ⟨h.1, h.2.2⟩

/-! ## Export LIDs are not validated -/

/-- The amended C12: `setupExport` stores `source.getLocalElement (exportGIDs[k])`
for every exported GID without testing the result: whenever the first part of
`setupExport` and `createFromRecvs` succeed, construction succeeds, and
`exportLIDs[k]` is the invalid LID exactly at the positions whose exported GID
the source Map does not hold. -/
theorem setupExport_exportLIDs_unchecked
    (cfr : List Int → List Int → Except ImportError (List Int × List Int))
    (d : ImportData) (remoteGIDs : List Int) (useRemotePIDs : Bool)
    (userRemotePIDs : List Int) (req : ExportRequest) (out : List Int × List Int)
    (hexp : d.exportLIDs_ = [])
    (hreq : setupExportRemotes d remoteGIDs useRemotePIDs userRemotePIDs = Except.ok req)
    (hout : cfr req.remoteGIDs req.remoteProcIDs = Except.ok out) :
    ∃ plan, setupExport cfr d remoteGIDs useRemotePIDs userRemotePIDs = Except.ok plan ∧
      plan.exportLIDs_ = out.1.map d.source_.getLocalElement ∧
      plan.exportPIDs_ = out.2 ∧
      (∀ k, k < out.1.length → d.source_.getLocalElement (out.1.getD k 0) = LINVALID →
        plan.exportLIDs_.getD k 0 = LINVALID) := by
  obtain ⟨-, -, -, -, hsrc, -, -, -, -, hel, -⟩ := setupExportRemotes_ok _ _ _ _ _ hreq
  have hL : (setExportLIDs { req.data with exportPIDs_ := out.2 } out.1).exportLIDs_
      = out.1.map d.source_.getLocalElement := by
    have h1 := setExportLIDs_exportLIDs { req.data with exportPIDs_ := out.2 } out.1
      (hel.trans hexp)
    have h2 : ({ req.data with exportPIDs_ := out.2 } : ImportData).source_ = d.source_ := hsrc
    rw [h1, h2]
  refine ⟨setExportLIDs { req.data with exportPIDs_ := out.2 } out.1, ?_, hL,
    (setExportLIDs_with_exportPIDs req.data out.2 out.1).2.2.2.2.2.2, ?_⟩
  · simp only [setupExport, hreq, hout]
  · intro k hk hinv
    rw [hL, List.getD_eq_getElem _ _ (by simpa using hk), List.getElem_map,
      ← List.getD_eq_getElem _ 0 hk]
    exact hinv

/-- C12, counterexample: on rank 1 of `scenarioWrongOwner` the exchange delivers
a request for GID 9, which the source Map of rank 1 does not hold; construction
succeeds and the plan's `exportLIDs` is `[LINVALID]`. -/
theorem setupExport_invalid_exportLID_counterexample :
    ∃ plan, importOnRank createFromRecvs scenarioWrongOwner 1 = Except.ok plan ∧
      plan.exportLIDs_ = [LINVALID] ∧ plan.exportPIDs_ = [0] :=
  ⟨_, rfl, by decide, by decide⟩

/-- Witness for the amended C12: the plan of rank 1 of `scenarioWrongOwner`,
with `createFromRecvs` delivering the request for GID 9 from rank 0. -/
theorem setupExport_exportLIDs_unchecked_witness :
    ∃ plan, setupExport (fun _ _ => Except.ok ([9], [0]))
        (setupSamePermuteRemote (ImportData.new
          (Map.ofList [1] true (fun gids => (gids.map (fun _ => 1), LookupStatus.AllIDsPresent)))
          (Map.ofList [1] true (fun gids => (gids.map (fun _ => 1), LookupStatus.AllIDsPresent))))
          []).1 [] false [] = Except.ok plan ∧
      plan.exportLIDs_ = [(9 : Int)].map
        (Map.ofList [1] true (fun gids => (gids.map (fun _ => 1),
          LookupStatus.AllIDsPresent))).getLocalElement ∧
      plan.exportPIDs_ = [0] ∧
      (∀ k, k < [(9 : Int)].length →
        (Map.ofList [1] true (fun gids => (gids.map (fun _ => 1),
          LookupStatus.AllIDsPresent))).getLocalElement ([(9 : Int)].getD k 0) = LINVALID →
        plan.exportLIDs_.getD k 0 = LINVALID) :=
  setupExport_exportLIDs_unchecked (fun _ _ => Except.ok ([9], [0]))
    (setupSamePermuteRemote (ImportData.new
      (Map.ofList [1] true (fun gids => (gids.map (fun _ => 1), LookupStatus.AllIDsPresent)))
      (Map.ofList [1] true (fun gids => (gids.map (fun _ => 1), LookupStatus.AllIDsPresent))))
      []).1 [] false [] _ ([9], [0]) rfl rfl rfl

/-! ## The expert constructor -/

theorem Import.expert_eq (source target : Map) (numSameIDs : Nat) (args : ExpertArrays) :
    Import.expert source target numSameIDs args
      = Except.ok
        ({ source_ := source, target_ := target, numSameIDs_ := numSameIDs,
           permuteToLIDs_ := args.permuteToLIDs, permuteFromLIDs_ := args.permuteFromLIDs,
           remoteLIDs_ := args.remoteLIDs, exportLIDs_ := args.exportLIDs,
           exportPIDs_ := args.exportPIDs, abuseWarnings := [] },
         { permuteToLIDs := [], permuteFromLIDs := [], remoteLIDs := [], exportLIDs := [],
           exportPIDs := [] }) := rfl

/-- C17: if `target1.isSameAs (target2)`, `setUnion` returns a plan with exactly
the data of `this`: the same source and target Maps, `numSame`, permute, remote
and export lists. -/
theorem setUnion_same_targets (isSameAs : Map → Map → Bool) (mapCtor : List Int → Map)
    (cfr : List Int → List Int → Except ImportError (List Int × List Int))
    (this rhs : ImportData) (remotePIDs1 remotePIDs2 : List Int)
    (h : isSameAs this.target_ rhs.target_ = true) :
    setUnion isSameAs mapCtor cfr this rhs remotePIDs1 remotePIDs2 = Except.ok this := by
  simp only [setUnion, h, if_true, Import.copy]

/-- Witness for C17: the union of a plan with itself, `isSameAs` comparing the
node element lists. -/
theorem setUnion_same_targets_witness :
    sameElementLists
      (setupSamePermuteRemote (ImportData.new (Map.ofList [0, 1, 2] true (directoryLookup [[0, 1, 2]]))
        (Map.ofList [0, 2, 9] true (directoryLookup [[0, 1, 2]]))) []).1.target_
      (setupSamePermuteRemote (ImportData.new (Map.ofList [0, 1, 2] true (directoryLookup [[0, 1, 2]]))
        (Map.ofList [0, 2, 9] true (directoryLookup [[0, 1, 2]]))) []).1.target_ = true ∧
    setUnion sameElementLists (fun l => Map.ofList l true (directoryLookup [[0, 1, 2]]))
      (fun _ _ => Except.ok ([], []))
      (setupSamePermuteRemote (ImportData.new (Map.ofList [0, 1, 2] true (directoryLookup [[0, 1, 2]]))
        (Map.ofList [0, 2, 9] true (directoryLookup [[0, 1, 2]]))) []).1
      (setupSamePermuteRemote (ImportData.new (Map.ofList [0, 1, 2] true (directoryLookup [[0, 1, 2]]))
        (Map.ofList [0, 2, 9] true (directoryLookup [[0, 1, 2]]))) []).1 [1] [1]
      = Except.ok
        (setupSamePermuteRemote (ImportData.new (Map.ofList [0, 1, 2] true (directoryLookup [[0, 1, 2]]))
          (Map.ofList [0, 2, 9] true (directoryLookup [[0, 1, 2]]))) []).1 :=
  ⟨by decide, setUnion_same_targets sameElementLists _ _ _ _ [1] [1] (by decide)⟩

/-! ## setUnion without argument -/

/-- A loop that stores `f i` at position `o + i` for `i < n`: entry by entry
description of the resulting array. -/
theorem fill_loop_getElem? (f : Nat → Int) (o : Nat) :
    ∀ (n : Nat) (init : List Int) (j : Nat),
      ((List.range n).foldl (fun A i => A.set (o + i) (f i)) init).length = init.length ∧
      ((List.range n).foldl (fun A i => A.set (o + i) (f i)) init)[j]?
        = if o ≤ j ∧ j < o + n ∧ j < init.length then some (f (j - o)) else init[j]? := by
  intro n
  induction n with
  | zero =>
    intro init j
    simp only [List.range_zero, List.foldl_nil, true_and]
    rw [if_neg (by omega)]
  | succ n ih =>
    intro init j
    simp only [List.range_succ, List.foldl_append, List.foldl_cons, List.foldl_nil,
      List.length_set]
    obtain ⟨hl, hg⟩ := ih init j
    refine ⟨hl, ?_⟩
    rw [List.getElem?_set, hl, hg]
    by_cases h1 : o + n = j
    · subst h1
      by_cases h2 : o + n < init.length
      · rw [if_pos rfl, if_pos h2, if_pos ⟨by omega, by omega, h2⟩]
        congr 2
        omega
      · rw [if_pos rfl, if_neg h2, if_neg (by omega)]
        exact (List.getElem?_eq_none (by omega)).symm
    · rw [if_neg h1]
      by_cases h3 : o ≤ j ∧ j < o + n ∧ j < init.length
      · rw [if_pos h3, if_pos ⟨h3.1, by omega, h3.2.2⟩]
      · rw [if_neg h3, if_neg (by omega)]

/-- A loop that fills positions `o .. o + n - 1` of an array of length at least
`o + n`: closed form. -/
theorem fill_loop_eq (f : Nat → Int) (o n : Nat) (init : List Int)
    (h : o + n ≤ init.length) :
    (List.range n).foldl (fun A i => A.set (o + i) (f i)) init
      = init.take o ++ (List.range n).map f ++ init.drop (o + n) := by
  apply List.ext_getElem?
  intro j
  rw [(fill_loop_getElem? f o n init j).2]
  by_cases h1 : j < o
  · rw [if_neg (by omega), List.append_assoc, List.getElem?_append_left (by
      simp only [List.length_take]; omega), List.getElem?_take_of_lt h1]
  · by_cases h2 : j < o + n
    · rw [if_pos ⟨by omega, h2, by omega⟩, List.getElem?_append_left (by
        simp only [List.length_append, List.length_take, List.length_map, List.length_range]
        omega), List.getElem?_append_right (by simp only [List.length_take]; omega)]
      simp only [List.length_take]
      have hmin : min o init.length = o := by omega
      rw [hmin, List.getElem?_map, List.getElem?_range (by omega)]
      rfl
    · rw [if_neg (by omega), List.getElem?_append_right (by
        simp only [List.length_append, List.length_take, List.length_map, List.length_range]
        omega)]
      simp only [List.length_append, List.length_take, List.length_map, List.length_range,
        List.getElem?_drop]
      congr 1
      omega

theorem foldl_pair (g : List Int → Nat → List Int) (h : List Int → Nat → List Int) :
    ∀ (l : List Nat) (a b : List Int),
      l.foldl (fun (st : List Int × List Int) i => (g st.1 i, h st.2 i)) (a, b)
        = (l.foldl g a, l.foldl h b) := by
  intro l
  induction l with
  | nil => intro a b; rfl
  | cons x l ih => intro a b; simp only [List.foldl_cons]; exact ih _ _

theorem range_map_getD (l : List Int) :
    (List.range l.length).map (fun i => l.getD i 0) = l := by
  apply List.ext_getElem?
  intro j
  by_cases hj : j < l.length
  · rw [List.getElem?_map, List.getElem?_range hj, List.getElem?_eq_getElem hj]
    simp only [Option.map_some', List.getD_eq_getElem l 0 hj]
  · rw [List.getElem?_eq_none (by simpa using hj), List.getElem?_eq_none (by simpa using hj)]

theorem range_map_comp_getD {β : Type} (l : List Int) (f : Int → β) :
    (List.range l.length).map (fun i => f (l.getD i 0)) = l.map f := by
  have h : (fun i => f (l.getD i 0)) = f ∘ (fun i => l.getD i 0) := rfl
  rw [h, ← List.map_map, range_map_getD]

theorem Map.globalElement_of_valid (m : Map) (r : Int) (h0 : 0 ≤ r)
    (h1 : r < (m.getNodeElementList.length : Int)) :
    m.globalElement r = m.getNodeElementList.getD r.toNat 0 := by
  have hlt : r.toNat < m.getNodeElementList.length := by omega
  simp only [Map.globalElement, Map.getGlobalElement, if_pos h0, List.get?_eq_getElem?,
    List.getElem?_eq_getElem hlt, Option.getD_some, List.getD_eq_getElem _ _ hlt]

/-- Closed form of the two arrays built by the loops of `setUnion ()`. -/
theorem setUnionSelf_loops (S T old : List Int) :
    (List.range old.length).foldl
      (fun (st : List Int × List Int) i =>
        (st.1.set (S.length + i) (T.getD (old.getD i 0).toNat 0),
         st.2.set i (Int.ofNat S.length + Int.ofNat i)))
      ((List.range S.length).foldl (fun GIDs i => GIDs.set i (S.getD i 0))
          (List.replicate (S.length + old.length) (0 : Int)),
        List.replicate old.length (0 : Int))
      = (S ++ old.map (fun r => T.getD r.toNat 0),
         (List.range old.length).map (fun (i : Nat) => Int.ofNat S.length + Int.ofNat i)) := by
  have h1 : (List.range S.length).foldl (fun GIDs i => GIDs.set i (S.getD i 0))
      (List.replicate (S.length + old.length) (0 : Int))
      = S ++ List.replicate old.length (0 : Int) := by
    have h := fill_loop_eq (fun i => S.getD i 0) 0 S.length
      (List.replicate (S.length + old.length) (0 : Int)) (by simp)
    simp only [Nat.zero_add, List.take_zero, List.nil_append, range_map_getD,
      List.drop_replicate, Nat.add_sub_cancel_left] at h
    exact h
  rw [h1, foldl_pair (fun A i => A.set (S.length + i) (T.getD (old.getD i 0).toNat 0))
    (fun A i => A.set i (Int.ofNat S.length + Int.ofNat i))]
  have h2 := fill_loop_eq (fun i => T.getD (old.getD i 0).toNat 0) S.length old.length
    (S ++ List.replicate old.length (0 : Int)) (by simp)
  have h3 := fill_loop_eq (fun i => Int.ofNat S.length + Int.ofNat i) 0 old.length
    (List.replicate old.length (0 : Int)) (by simp)
  simp only [Nat.zero_add, List.take_zero, List.nil_append, List.drop_replicate,
    Nat.sub_self, List.replicate_zero, List.append_nil] at h3
  rw [h2, h3]
  have h4 : (S ++ List.replicate old.length (0 : Int)).take S.length = S := by
    rw [List.take_left' rfl]
  have h5 : (S ++ List.replicate old.length (0 : Int)).drop (S.length + old.length) = [] := by
    apply List.drop_of_length_le
    simp
  rw [h4, h5, List.append_nil,
    range_map_comp_getD old (fun r => T.getD r.toNat 0)]

/-- C18: for a plan with source element list `S`, target element list `T` and
remote LIDs `r_0 .. r_{m-1}` (valid target LIDs), `setUnion ()` returns a plan
over the same source whose target element list is `S ++ [T[r_0], .., T[r_{m-1}]]`,
with `numSame = |S|`, no permute pairs, `remoteLIDs[i] = |S| + i`, and the export
LID and PID lists of the input plan. -/
theorem setUnionSelf_plan (mapCtor : List Int → Map) (this : ImportData)
    (hctor : ∀ l, (mapCtor l).getNodeElementList = l)
    (hvalid : ∀ r ∈ this.remoteLIDs_,
      0 ≤ r ∧ r < (this.target_.getNodeElementList.length : Int)) :
    ∃ plan, setUnionSelf mapCtor this = Except.ok plan ∧
      plan.source_ = this.source_ ∧
      plan.target_.getNodeElementList
        = this.source_.getNodeElementList ++ this.remoteLIDs_.map this.target_.globalElement ∧
      getNumSameIDs plan = this.source_.getNodeElementList.length ∧
      plan.permuteToLIDs_ = [] ∧ plan.permuteFromLIDs_ = [] ∧
      plan.remoteLIDs_ = (List.range this.remoteLIDs_.length).map
        (fun (i : Nat) => Int.ofNat this.source_.getNodeElementList.length + Int.ofNat i) ∧
      plan.exportLIDs_ = this.exportLIDs_ ∧ plan.exportPIDs_ = this.exportPIDs_ := by
  have hloops := setUnionSelf_loops this.source_.getNodeElementList
    this.target_.getNodeElementList this.remoteLIDs_
  have hmap : this.remoteLIDs_.map (fun r => this.target_.getNodeElementList.getD r.toNat 0)
      = this.remoteLIDs_.map this.target_.globalElement := by
    apply List.map_congr_left
    intro r hr
    exact (Map.globalElement_of_valid _ r (hvalid r hr).1 (hvalid r hr).2).symm
  simp only [setUnionSelf, Map.getNodeNumElements, getNumRemoteIDs, hloops, Import.expert_eq,
    hmap]
  exact ⟨_, rfl, rfl, hctor _, rfl, rfl, rfl, rfl, rfl, rfl⟩

/-- Witness for C18: source `[0, 1, 2]`, target `[0, 2, 9, 7]`, remote LIDs
`[2, 3]`. -/
theorem setUnionSelf_plan_witness :
    ∃ plan, setUnionSelf (fun l => Map.ofList l true (directoryLookup [[0, 1, 2]]))
        (setupSamePermuteRemote (ImportData.new
          (Map.ofList [0, 1, 2] true (directoryLookup [[0, 1, 2]]))
          (Map.ofList [0, 2, 9, 7] true (directoryLookup [[0, 1, 2]]))) []).1 = Except.ok plan ∧
      plan.target_.getNodeElementList = [0, 1, 2, 9, 7] ∧ getNumSameIDs plan = 3 ∧
      plan.permuteToLIDs_ = [] ∧ plan.permuteFromLIDs_ = [] ∧ plan.remoteLIDs_ = [3, 4] ∧
      plan.exportLIDs_ = [] ∧ plan.exportPIDs_ = [] :=
  have h := setUnionSelf_plan (fun l => Map.ofList l true (directoryLookup [[0, 1, 2]]))
    (setupSamePermuteRemote (ImportData.new
      (Map.ofList [0, 1, 2] true (directoryLookup [[0, 1, 2]]))
      (Map.ofList [0, 2, 9, 7] true (directoryLookup [[0, 1, 2]]))) []).1
    (fun _ => rfl) (by decide)
  match h with
  | ⟨plan, h0, _, h2, h3, h4, h5, h6, h7, h8⟩ => ⟨plan, h0, h2, h3, h4, h5, h6, h7, h8⟩

/-! ## createRemoteOnlyImport -/

theorem getD_of_take_eq_map (A : List Int) (f : Nat → Int) (k i : Nat) (hik : i < k)
    (h : A.take k = (List.range k).map f) : A.getD i 0 = f i := by
  have h1 : (A.take k)[i]? = ((List.range k).map f)[i]? := by rw [h]
  rw [List.getElem?_take_of_lt hik, List.getElem?_map, List.getElem?_range hik] at h1
  simp only [List.getD_eq_getElem?_getD, h1, Option.map_some', Option.getD_some]

/-- The loop of `createRemoteOnlyImport`, run from iteration `k` on an array
whose first `k` entries are already computed: it throws exactly when a later
entry is smaller than its predecessor, and otherwise returns all entries. Here
`f i` is the value stored by iteration `i`. -/
theorem remoteOnlyLoop_spec (remoteTarget target : Map) (old : List Int) (n : Nat) :
    ∀ (m k : Nat) (A : List Int), k + m = n → A.length = n →
      A.take k = (List.range k).map
        (fun i => remoteTarget.getLocalElement (target.globalElement (old.getD i 0))) →
      (remoteOnlyLoop remoteTarget target old (List.range' k m) A
          = Except.ok ((List.range n).map
            (fun i => remoteTarget.getLocalElement (target.globalElement (old.getD i 0)))) ∧
        ∀ i, k ≤ i → i < n → ¬ (0 < i ∧
          remoteTarget.getLocalElement (target.globalElement (old.getD i 0))
            < remoteTarget.getLocalElement (target.globalElement (old.getD (i - 1) 0)))) ∨
      (remoteOnlyLoop remoteTarget target old (List.range' k m) A
          = Except.error ImportError.runtime_error ∧
        ∃ i, k ≤ i ∧ i < n ∧ 0 < i ∧
          remoteTarget.getLocalElement (target.globalElement (old.getD i 0))
            < remoteTarget.getLocalElement (target.globalElement (old.getD (i - 1) 0))) := by
  intro m
  induction m with
  | zero =>
    intro k A hkm hA htake
    left
    have hk : k = n := by omega
    subst hk
    refine ⟨?_, fun i h1 h2 => absurd h2 (by omega)⟩
    simp only [List.range'_zero, remoteOnlyLoop]
    rw [← htake, ← hA, List.take_length]
  | succ m ih =>
    intro k A hkm hA htake
    have hkA : k < A.length := by omega
    have hstored : (A.set k (remoteTarget.getLocalElement
        (target.globalElement (old.getD k 0)))).getD k 0
        = remoteTarget.getLocalElement (target.globalElement (old.getD k 0)) := by
      rw [List.getD_eq_getElem _ _ (by rw [List.length_set]; exact hkA)]
      simp
    have hprev : 0 < k → (A.set k (remoteTarget.getLocalElement
        (target.globalElement (old.getD k 0)))).getD (k - 1) 0
        = remoteTarget.getLocalElement (target.globalElement (old.getD (k - 1) 0)) := by
      intro hk0
      have hne : k ≠ k - 1 := by omega
      simp only [List.getD_eq_getElem?_getD, List.getElem?_set_ne hne]
      have := getD_of_take_eq_map A _ k (k - 1) (by omega) htake
      simpa only [List.getD_eq_getElem?_getD] using this
    simp only [List.range'_succ, remoteOnlyLoop, remoteOnlyStep]
    by_cases hc : k > 0 ∧ remoteTarget.getLocalElement (target.globalElement (old.getD k 0))
        < remoteTarget.getLocalElement (target.globalElement (old.getD (k - 1) 0))
    · right
      have hc2 : k > 0 ∧ (A.set k (remoteTarget.getLocalElement
          (target.globalElement (old.getD k 0)))).getD k 0
          < (A.set k (remoteTarget.getLocalElement
            (target.globalElement (old.getD k 0)))).getD (k - 1) 0 := by
        rw [hstored, hprev hc.1]
        exact hc
      rw [if_pos hc2]
      exact ⟨rfl, k, le_refl _, by omega, hc.1, hc.2⟩
    · have hc2 : ¬ (k > 0 ∧ (A.set k (remoteTarget.getLocalElement
          (target.globalElement (old.getD k 0)))).getD k 0
          < (A.set k (remoteTarget.getLocalElement
            (target.globalElement (old.getD k 0)))).getD (k - 1) 0) := by
        intro h
        apply hc
        rw [hstored, hprev h.1] at h
        exact h
      rw [if_neg hc2]
      have hnext := ih (k + 1) (A.set k (remoteTarget.getLocalElement
          (target.globalElement (old.getD k 0)))) (by omega) (by rw [List.length_set]; exact hA)
        (by
          rw [take_set_succ _ _ _ hkA, htake, List.range_succ, List.map_append]
          rfl)
      rcases hnext with ⟨h1, h2⟩ | ⟨h1, i, h2, h3, h4, h5⟩
      · left
        refine ⟨h1, ?_⟩
        intro i hki hin
        by_cases hik : i = k
        · subst hik
          exact hc
        · exact h2 i (by omega) hin
      · right
        exact ⟨h1, i, by omega, h3, h4, h5⟩

/-- Inversion-free description of a run of `createRemoteOnlyImport`: with
matching counts it throws exactly when the recomputed remote LIDs have an
inversion, and otherwise returns the plan built by the expert constructor. -/
theorem createRemoteOnlyImport_cases (this : ImportData) (remoteTarget : Map)
    (hcount : getNumRemoteIDs this = remoteTarget.getNodeNumElements) :
    (createRemoteOnlyImport this remoteTarget
        = Except.ok
          { source_ := this.source_, target_ := remoteTarget, numSameIDs_ := 0,
            permuteToLIDs_ := [], permuteFromLIDs_ := [],
            remoteLIDs_ := recomputedRemoteLIDs this remoteTarget,
            exportLIDs_ := this.exportLIDs_, exportPIDs_ := this.exportPIDs_,
            abuseWarnings := [] } ∧
      ∀ i, 0 < i → i < (recomputedRemoteLIDs this remoteTarget).length →
        ¬ (recomputedRemoteLIDs this remoteTarget).getD i 0
          < (recomputedRemoteLIDs this remoteTarget).getD (i - 1) 0) ∨
    (createRemoteOnlyImport this remoteTarget = Except.error ImportError.runtime_error ∧
      ∃ i, 0 < i ∧ i < (recomputedRemoteLIDs this remoteTarget).length ∧
        (recomputedRemoteLIDs this remoteTarget).getD i 0
          < (recomputedRemoteLIDs this remoteTarget).getD (i - 1) 0) := by
  have hrec : recomputedRemoteLIDs this remoteTarget
      = (List.range this.remoteLIDs_.length).map
        (fun i => remoteTarget.getLocalElement
          (this.target_.globalElement (this.remoteLIDs_.getD i 0))) := by
    simp only [recomputedRemoteLIDs]
    exact (range_map_comp_getD this.remoteLIDs_
      (fun r => remoteTarget.getLocalElement (this.target_.globalElement r))).symm
  have hlen : (recomputedRemoteLIDs this remoteTarget).length = this.remoteLIDs_.length := by
    simp [recomputedRemoteLIDs]
  have hget : ∀ i, i < this.remoteLIDs_.length →
      (recomputedRemoteLIDs this remoteTarget).getD i 0
        = remoteTarget.getLocalElement
          (this.target_.globalElement (this.remoteLIDs_.getD i 0)) := by
    intro i hi
    rw [hrec, List.getD_eq_getElem _ _ (by simpa using hi), List.getElem_map,
      List.getElem_range]
  have hspec := remoteOnlyLoop_spec remoteTarget this.target_ this.remoteLIDs_
    this.remoteLIDs_.length this.remoteLIDs_.length 0
    (List.replicate this.remoteLIDs_.length (0 : Int)) (by omega) (by simp) (by simp)
  rw [← List.range_eq_range', ← hrec] at hspec
  simp only [createRemoteOnlyImport, hcount, ne_eq, not_true_eq_false, if_false]
  rw [← hcount]
  simp only [getNumRemoteIDs]
  rcases hspec with ⟨h1, h2⟩ | ⟨h1, i, -, h3, h4, h5⟩
  · left
    rw [h1]
    refine ⟨rfl, ?_⟩
    intro i hi0 hin hlt
    rw [hlen] at hin
    rw [hget i hin, hget (i - 1) (by omega)] at hlt
    exact h2 i (Nat.zero_le _) hin ⟨hi0, hlt⟩
  · right
    rw [h1]
    refine ⟨rfl, i, h4, by rw [hlen]; exact h3, ?_⟩
    rw [hget i h3, hget (i - 1) (by omega)]
    exact h5

/-- C19: `createRemoteOnlyImport` fails if and only if the local element count
of the remote target Map differs from the number of remote IDs of the plan, or
the recomputed remote LIDs contain an inversion (some `i > 0` with
`newRemoteLIDs[i] < newRemoteLIDs[i-1]`); otherwise it returns a plan. -/
theorem createRemoteOnlyImport_fails_iff (this : ImportData) (remoteTarget : Map) :
    ((∃ e, createRemoteOnlyImport this remoteTarget = Except.error e) ↔
      (getNumRemoteIDs this ≠ remoteTarget.getNodeNumElements ∨
        ∃ i, 0 < i ∧ i < (recomputedRemoteLIDs this remoteTarget).length ∧
          (recomputedRemoteLIDs this remoteTarget).getD i 0
            < (recomputedRemoteLIDs this remoteTarget).getD (i - 1) 0)) ∧
    ((∃ plan, createRemoteOnlyImport this remoteTarget = Except.ok plan) ↔
      ¬ (getNumRemoteIDs this ≠ remoteTarget.getNodeNumElements ∨
        ∃ i, 0 < i ∧ i < (recomputedRemoteLIDs this remoteTarget).length ∧
          (recomputedRemoteLIDs this remoteTarget).getD i 0
            < (recomputedRemoteLIDs this remoteTarget).getD (i - 1) 0)) := by
  by_cases hcount : getNumRemoteIDs this = remoteTarget.getNodeNumElements
  · rcases createRemoteOnlyImport_cases this remoteTarget hcount with ⟨h1, h2⟩ | ⟨h1, h2⟩
    · have hno : ¬ (getNumRemoteIDs this ≠ remoteTarget.getNodeNumElements ∨
          ∃ i, 0 < i ∧ i < (recomputedRemoteLIDs this remoteTarget).length ∧
            (recomputedRemoteLIDs this remoteTarget).getD i 0
              < (recomputedRemoteLIDs this remoteTarget).getD (i - 1) 0) := by
        rintro (h | ⟨i, h3, h4, h5⟩)
        · exact h hcount
        · exact h2 i h3 h4 h5
      rw [h1]
      constructor
      · constructor
        · rintro ⟨e, he⟩
          cases he
        · intro h
          exact absurd h hno
      · exact ⟨fun _ => hno, fun _ => ⟨_, rfl⟩⟩
    · rw [h1]
      constructor
      · exact ⟨fun _ => Or.inr h2, fun _ => ⟨_, rfl⟩⟩
      · constructor
        · rintro ⟨p, hp⟩
          cases hp
        · intro h
          exact absurd (Or.inr h2) h
  · have herr : createRemoteOnlyImport this remoteTarget
        = Except.error ImportError.runtime_error := by
      simp only [createRemoteOnlyImport, ne_eq, hcount, not_false_eq_true, if_true]
    rw [herr]
    constructor
    · exact ⟨fun _ => Or.inl hcount, fun _ => ⟨_, rfl⟩⟩
    · constructor
      · rintro ⟨p, hp⟩
        cases hp
      · intro h
        exact absurd (Or.inl hcount) h

/-- C20: whenever `createRemoteOnlyImport` succeeds, the returned plan has the
given remote Map as target and the source Map of the input plan as source,
`numSame = 0`, empty permute lists,
`remoteLIDs[i] = remoteTarget.getLocalElement (T[oldRemoteLIDs[i]])` for every
`i`, and the export LID and PID lists of the input plan. -/
theorem createRemoteOnlyImport_plan (this : ImportData) (remoteTarget : Map)
    (plan : ImportData) (h : createRemoteOnlyImport this remoteTarget = Except.ok plan) :
    plan.target_ = remoteTarget ∧ plan.source_ = this.source_ ∧ getNumSameIDs plan = 0 ∧
    plan.permuteToLIDs_ = [] ∧ plan.permuteFromLIDs_ = [] ∧
    plan.remoteLIDs_.length = this.remoteLIDs_.length ∧
    (∀ i, i < this.remoteLIDs_.length →
      plan.remoteLIDs_.getD i 0
        = remoteTarget.getLocalElement
          (this.target_.globalElement (this.remoteLIDs_.getD i 0))) ∧
    plan.exportLIDs_ = this.exportLIDs_ ∧ plan.exportPIDs_ = this.exportPIDs_ := by
  by_cases hcount : getNumRemoteIDs this = remoteTarget.getNodeNumElements
  · rcases createRemoteOnlyImport_cases this remoteTarget hcount with ⟨h1, -⟩ | ⟨h1, -⟩
    · rw [h1] at h
      cases h
      refine ⟨rfl, rfl, rfl, rfl, rfl, by simp [recomputedRemoteLIDs], ?_, rfl, rfl⟩
      intro i hi
      simp only [recomputedRemoteLIDs]
      rw [List.getD_eq_getElem _ _ (by simpa using hi), List.getElem_map,
        ← List.getD_eq_getElem _ 0 hi]
    · rw [h1] at h
      cases h
  · have herr : createRemoteOnlyImport this remoteTarget
        = Except.error ImportError.runtime_error := by
      simp only [createRemoteOnlyImport, ne_eq, hcount, not_false_eq_true, if_true]
    rw [herr] at h
    cases h

/-- Witness for C20: the plan for source `[0, 1, 2]` and target `[0, 2, 9, 7]`
restricted to the remote Map `[9, 7]`. -/
theorem createRemoteOnlyImport_plan_witness :
    ∃ plan, createRemoteOnlyImport
        (setupSamePermuteRemote (ImportData.new
          (Map.ofList [0, 1, 2] true (directoryLookup [[0, 1, 2]]))
          (Map.ofList [0, 2, 9, 7] true (directoryLookup [[0, 1, 2]]))) []).1
        (Map.ofList [9, 7] true (directoryLookup [[0, 1, 2]])) = Except.ok plan ∧
      plan.target_.getNodeElementList = [9, 7] ∧ getNumSameIDs plan = 0 ∧
      plan.permuteToLIDs_ = [] ∧ plan.permuteFromLIDs_ = [] ∧ plan.remoteLIDs_ = [0, 1] ∧
      plan.exportLIDs_ = [] ∧ plan.exportPIDs_ = [] :=
  have h := createRemoteOnlyImport_plan
    (setupSamePermuteRemote (ImportData.new
      (Map.ofList [0, 1, 2] true (directoryLookup [[0, 1, 2]]))
      (Map.ofList [0, 2, 9, 7] true (directoryLookup [[0, 1, 2]]))) []).1
    (Map.ofList [9, 7] true (directoryLookup [[0, 1, 2]])) _ rfl
  ⟨_, rfl, congrArg Map.getNodeElementList h.1, h.2.2.1, h.2.2.2.1, h.2.2.2.2.1, by decide,
    h.2.2.2.2.2.2.2.1, h.2.2.2.2.2.2.2.2⟩

/-! ## setUnion on different targets -/

theorem range_map_fst_getD (l : List (Int × Int)) :
    (List.range l.length).map (fun k => (l.getD k (0, 0)).1) = l.map (fun e => e.1) := by
  apply List.ext_getElem?
  intro j
  by_cases hj : j < l.length
  · rw [List.getElem?_map, List.getElem?_range hj, List.getElem?_map,
      List.getElem?_eq_getElem hj]
    simp only [Option.map_some', List.getD_eq_getElem l (0, 0) hj]
  · rw [List.getElem?_eq_none (by simpa using hj), List.getElem?_eq_none (by simpa using hj)]

theorem range_map_snd_getD (l : List (Int × Int)) :
    (List.range l.length).map (fun k => (l.getD k (0, 0)).2) = l.map (fun e => e.2) := by
  apply List.ext_getElem?
  intro j
  by_cases hj : j < l.length
  · rw [List.getElem?_map, List.getElem?_range hj, List.getElem?_map,
      List.getElem?_eq_getElem hj]
    simp only [Option.map_some', List.getD_eq_getElem l (0, 0) hj]
  · rw [List.getElem?_eq_none (by simpa using hj), List.getElem?_eq_none (by simpa using hj)]

theorem view_zero_length (xs : List Int) (n : Nat) (h : n ≤ xs.length) :
    (view xs 0 n).length = n := by
  simp only [view, List.drop_zero, List.length_take]
  omega

theorem unionSameGIDs_length (this rhs : ImportData)
    (h1 : getNumSameIDs this ≤ this.target_.getNodeElementList.length)
    (h2 : getNumSameIDs rhs ≤ rhs.target_.getNodeElementList.length) :
    (unionSameGIDs this rhs).length = unionNumSame this rhs := by
  simp only [unionSameGIDs, unionNumSame]
  split
  · exact view_zero_length _ _ h1
  · exact view_zero_length _ _ h2

/-- Inversion of a successful run of `setUnion` on targets that are not the
same, for inputs whose same-prefix fits in their target: every field of the
union plan in closed form. -/
theorem setUnion_ok (isSameAs : Map → Map → Bool) (mapCtor : List Int → Map)
    (cfr : List Int → List Int → Except ImportError (List Int × List Int))
    (this rhs : ImportData) (remotePIDs1 remotePIDs2 : List Int) (plan : ImportData)
    (hsame : isSameAs this.target_ rhs.target_ = false)
    (h1 : getNumSameIDs this ≤ this.target_.getNodeElementList.length)
    (h2 : getNumSameIDs rhs ≤ rhs.target_.getNodeElementList.length)
    (h : setUnion isSameAs mapCtor cfr this rhs remotePIDs1 remotePIDs2 = Except.ok plan) :
    ∃ out,
      cfr ((unionRemotePGs this rhs remotePIDs1 remotePIDs2).map (fun e => e.2))
        ((unionRemotePGs this rhs remotePIDs1 remotePIDs2).map (fun e => e.1)) = Except.ok out ∧
      plan.source_ = this.source_ ∧
      plan.target_ = mapCtor (unionTgtGIDs this rhs remotePIDs1 remotePIDs2) ∧
      plan.numSameIDs_ = unionNumSame this rhs ∧
      plan.permuteToLIDs_ = (List.range (unionPermuteGIDs this rhs).length).map
        (fun (k : Nat) => Int.ofNat (unionNumSame this rhs) + Int.ofNat k) ∧
      plan.permuteFromLIDs_ = (unionPermuteGIDs this rhs).map this.source_.getLocalElement ∧
      plan.remoteLIDs_
        = (List.range (unionRemotePGs this rhs remotePIDs1 remotePIDs2).length).map
          (fun (k : Nat) => Int.ofNat (unionNumSame this rhs)
            + Int.ofNat (unionPermuteGIDs this rhs).length + Int.ofNat k) ∧
      plan.exportLIDs_ = out.1.map this.source_.getLocalElement ∧
      plan.exportPIDs_ = out.2 := by
  have hlen := unionSameGIDs_length this rhs h1 h2
  have hA : (if decide (getNumSameIDs this ≥ getNumSameIDs rhs) = true then
        view this.target_.getNodeElementList 0 (getNumSameIDs this)
      else view rhs.target_.getNodeElementList 0 (getNumSameIDs rhs))
      = unionSameGIDs this rhs := by
    simp only [unionSameGIDs, decide_eq_true_eq]
  have hN : (if decide (getNumSameIDs this ≥ getNumSameIDs rhs) = true then getNumSameIDs this
      else getNumSameIDs rhs) = unionNumSame this rhs := by
    simp only [unionNumSame, decide_eq_true_eq]
  have hD : (if decide (getNumSameIDs this ≥ getNumSameIDs rhs) = true then
        view this.target_.getNodeElementList (getNumSameIDs rhs)
          (getNumSameIDs this - getNumSameIDs rhs)
      else view rhs.target_.getNodeElementList (getNumSameIDs this)
          (getNumSameIDs rhs - getNumSameIDs this))
      = unionDoubleCounted this rhs := by
    simp only [unionDoubleCounted, decide_eq_true_eq]
  have hP : std.set_union
      (if decide (getNumSameIDs this ≥ getNumSameIDs rhs) = true then sortedPermuteGIDs this
        else std.set_difference (sortedPermuteGIDs this) (unionDoubleCounted this rhs))
      (if decide (getNumSameIDs this ≥ getNumSameIDs rhs) = true then
          std.set_difference (sortedPermuteGIDs rhs) (unionDoubleCounted this rhs)
        else sortedPermuteGIDs rhs)
      = unionPermuteGIDs this rhs := by
    simp only [unionPermuteGIDs, decide_eq_true_eq]
    split <;> rfl
  have e1 : std.sort ((List.range (getNumPermuteIDs this)).map
      (fun k => this.target_.globalElement (this.permuteToLIDs_.getD k 0)))
      = sortedPermuteGIDs this := rfl
  have e2 : std.sort ((List.range (getNumPermuteIDs rhs)).map
      (fun k => rhs.target_.globalElement (rhs.permuteToLIDs_.getD k 0)))
      = sortedPermuteGIDs rhs := rfl
  have e3 : std.unique (std.merge
      (std.sortPairs ((List.range remotePIDs1.length).map
        (fun k => (remotePIDs1.getD k 0, this.target_.globalElement (this.remoteLIDs_.getD k 0)))))
      (std.sortPairs ((List.range remotePIDs2.length).map
        (fun k => (remotePIDs2.getD k 0, rhs.target_.globalElement (rhs.remoteLIDs_.getD k 0))))))
      = unionRemotePGs this rhs remotePIDs1 remotePIDs2 := rfl
  have hcnt : (unionSameGIDs this rhs ++ unionPermuteGIDs this rhs).length
      - unionNumSame this rhs = (unionPermuteGIDs this rhs).length := by
    rw [List.length_append, hlen]
    omega
  have hview : view (unionSameGIDs this rhs ++ unionPermuteGIDs this rhs)
      (unionNumSame this rhs) (unionPermuteGIDs this rhs).length = unionPermuteGIDs this rhs := by
    simp only [view]
    rw [List.drop_left' hlen, List.take_length]
  simp only [setUnion, hsame, Bool.false_eq_true, if_false, hA, hN, hD, e1, e2, hP, e3,
    range_map_fst_getD, range_map_snd_getD, hcnt, hview, Import.expert_eq] at h
  split at h
  · cases h
  · rename_i out hout
    refine ⟨out, hout, ?_⟩
    cases h
    refine ⟨rfl, ?_, rfl, rfl, ?_, rfl, ?_, rfl⟩
    · have hr := range_map_getD
        ((unionRemotePGs this rhs remotePIDs1 remotePIDs2).map (fun e => e.2))
      rw [List.length_map] at hr
      simp only [unionTgtGIDs, hr]
    · exact range_map_comp_getD _ _
    · exact range_map_comp_getD _ _

/-- Inversion of a successful run of `setUnion` on targets that are not the
same, with no assumption on the inputs: the count of same IDs and the target
Map of the union plan. -/
theorem setUnion_ok_target (isSameAs : Map → Map → Bool) (mapCtor : List Int → Map)
    (cfr : List Int → List Int → Except ImportError (List Int × List Int))
    (this rhs : ImportData) (remotePIDs1 remotePIDs2 : List Int) (plan : ImportData)
    (hsame : isSameAs this.target_ rhs.target_ = false)
    (h : setUnion isSameAs mapCtor cfr this rhs remotePIDs1 remotePIDs2 = Except.ok plan) :
    plan.numSameIDs_ = unionNumSame this rhs ∧
    plan.target_ = mapCtor (unionTgtGIDs this rhs remotePIDs1 remotePIDs2) := by
  have hA : (if decide (getNumSameIDs this ≥ getNumSameIDs rhs) = true then
        view this.target_.getNodeElementList 0 (getNumSameIDs this)
      else view rhs.target_.getNodeElementList 0 (getNumSameIDs rhs))
      = unionSameGIDs this rhs := by
    simp only [unionSameGIDs, decide_eq_true_eq]
  have hN : (if decide (getNumSameIDs this ≥ getNumSameIDs rhs) = true then getNumSameIDs this
      else getNumSameIDs rhs) = unionNumSame this rhs := by
    simp only [unionNumSame, decide_eq_true_eq]
  have hD : (if decide (getNumSameIDs this ≥ getNumSameIDs rhs) = true then
        view this.target_.getNodeElementList (getNumSameIDs rhs)
          (getNumSameIDs this - getNumSameIDs rhs)
      else view rhs.target_.getNodeElementList (getNumSameIDs this)
          (getNumSameIDs rhs - getNumSameIDs this))
      = unionDoubleCounted this rhs := by
    simp only [unionDoubleCounted, decide_eq_true_eq]
  have hP : std.set_union
      (if decide (getNumSameIDs this ≥ getNumSameIDs rhs) = true then sortedPermuteGIDs this
        else std.set_difference (sortedPermuteGIDs this) (unionDoubleCounted this rhs))
      (if decide (getNumSameIDs this ≥ getNumSameIDs rhs) = true then
          std.set_difference (sortedPermuteGIDs rhs) (unionDoubleCounted this rhs)
        else sortedPermuteGIDs rhs)
      = unionPermuteGIDs this rhs := by
    simp only [unionPermuteGIDs, decide_eq_true_eq]
    split <;> rfl
  have e1 : std.sort ((List.range (getNumPermuteIDs this)).map
      (fun k => this.target_.globalElement (this.permuteToLIDs_.getD k 0)))
      = sortedPermuteGIDs this := rfl
  have e2 : std.sort ((List.range (getNumPermuteIDs rhs)).map
      (fun k => rhs.target_.globalElement (rhs.permuteToLIDs_.getD k 0)))
      = sortedPermuteGIDs rhs := rfl
  have e3 : std.unique (std.merge
      (std.sortPairs ((List.range remotePIDs1.length).map
        (fun k => (remotePIDs1.getD k 0, this.target_.globalElement (this.remoteLIDs_.getD k 0)))))
      (std.sortPairs ((List.range remotePIDs2.length).map
        (fun k => (remotePIDs2.getD k 0, rhs.target_.globalElement (rhs.remoteLIDs_.getD k 0))))))
      = unionRemotePGs this rhs remotePIDs1 remotePIDs2 := rfl
  simp only [setUnion, hsame, Bool.false_eq_true, if_false, hA, hN, hD, e1, e2, hP, e3,
    range_map_fst_getD, range_map_snd_getD, Import.expert_eq] at h
  split at h
  · cases h
  · cases h
    refine ⟨rfl, ?_⟩
    have hr := range_map_getD
      ((unionRemotePGs this rhs remotePIDs1 remotePIDs2).map (fun e => e.2))
    rw [List.length_map] at hr
    simp only [unionTgtGIDs, hr]

/-- On targets that are not the same, `setUnion` returns a plan as soon as the
Distributor call `createFromRecvs` on the union remote arrays returns. -/
theorem setUnion_returns (isSameAs : Map → Map → Bool) (mapCtor : List Int → Map)
    (cfr : List Int → List Int → Except ImportError (List Int × List Int))
    (this rhs : ImportData) (remotePIDs1 remotePIDs2 : List Int)
    (out : List Int × List Int)
    (hsame : isSameAs this.target_ rhs.target_ = false)
    (hcfr : cfr ((unionRemotePGs this rhs remotePIDs1 remotePIDs2).map (fun e => e.2))
      ((unionRemotePGs this rhs remotePIDs1 remotePIDs2).map (fun e => e.1)) = Except.ok out) :
    ∃ plan, setUnion isSameAs mapCtor cfr this rhs remotePIDs1 remotePIDs2 = Except.ok plan := by
  have e3 : std.unique (std.merge
      (std.sortPairs ((List.range remotePIDs1.length).map
        (fun k => (remotePIDs1.getD k 0, this.target_.globalElement (this.remoteLIDs_.getD k 0)))))
      (std.sortPairs ((List.range remotePIDs2.length).map
        (fun k => (remotePIDs2.getD k 0, rhs.target_.globalElement (rhs.remoteLIDs_.getD k 0))))))
      = unionRemotePGs this rhs remotePIDs1 remotePIDs2 := rfl
  simp only [setUnion, hsame, Bool.false_eq_true, if_false, e3,
    range_map_fst_getD, range_map_snd_getD, Import.expert_eq, hcfr]
  exact ⟨_, rfl⟩

/-- C14: for two plans with targets that are not the same, `setUnion` (whenever
the Distributor call on the union remote arrays returns) produces a plan whose
`numSame` is the maximum of `numSame1` and `numSame2`, and whose target element
list begins with the first `numSame1` entries of target 1 when
`numSame1 ≥ numSame2` (a tie takes target 1), else with the first `numSame2`
entries of target 2. -/
theorem setUnion_same_prefix (isSameAs : Map → Map → Bool) (mapCtor : List Int → Map)
    (cfr : List Int → List Int → Except ImportError (List Int × List Int))
    (this rhs : ImportData) (remotePIDs1 remotePIDs2 : List Int)
    (out : List Int × List Int)
    (hctor : ∀ l, (mapCtor l).getNodeElementList = l)
    (hsame : isSameAs this.target_ rhs.target_ = false)
    (hcfr : cfr ((unionRemotePGs this rhs remotePIDs1 remotePIDs2).map (fun e => e.2))
      ((unionRemotePGs this rhs remotePIDs1 remotePIDs2).map (fun e => e.1)) = Except.ok out) :
    ∃ plan, setUnion isSameAs mapCtor cfr this rhs remotePIDs1 remotePIDs2 = Except.ok plan ∧
      getNumSameIDs plan = max (getNumSameIDs this) (getNumSameIDs rhs) ∧
      (if getNumSameIDs this ≥ getNumSameIDs rhs then
          this.target_.getNodeElementList.take (getNumSameIDs this)
        else rhs.target_.getNodeElementList.take (getNumSameIDs rhs))
        <+: plan.target_.getNodeElementList := by
  obtain ⟨plan, hplan⟩ := setUnion_returns isSameAs mapCtor cfr this rhs remotePIDs1 remotePIDs2
    out hsame hcfr
  obtain ⟨hn, ht⟩ := setUnion_ok_target isSameAs mapCtor cfr this rhs remotePIDs1 remotePIDs2
    plan hsame hplan
  refine ⟨plan, hplan, ?_, ?_⟩
  · show plan.numSameIDs_ = _
    rw [hn, unionNumSame]
    split
    · exact (max_eq_left (by assumption)).symm
    · exact (max_eq_right (by omega)).symm
  · rw [ht, hctor, unionTgtGIDs, List.append_assoc]
    have hs : (if getNumSameIDs this ≥ getNumSameIDs rhs then
          this.target_.getNodeElementList.take (getNumSameIDs this)
        else rhs.target_.getNodeElementList.take (getNumSameIDs rhs))
        = unionSameGIDs this rhs := by
      simp only [unionSameGIDs, view, List.drop_zero]
    rw [hs]
    exact List.prefix_append _ _

/-- Witness for C14: source `[2, 1]`, plan 1 onto target `[2, 1]` (two same
IDs) and plan 2 onto target `[1, 2]` (no same ID). -/
theorem setUnion_same_prefix_witness :
    (∀ l, (unionMapCtor [2, 1] l).getNodeElementList = l) ∧
    sameElementLists (classifiedPlan [2, 1] [2, 1]).target_
      (classifiedPlan [2, 1] [1, 2]).target_ = false ∧
    ∃ plan, setUnion sameElementLists (unionMapCtor [2, 1]) noExports
        (classifiedPlan [2, 1] [2, 1]) (classifiedPlan [2, 1] [1, 2]) [] [] = Except.ok plan ∧
      getNumSameIDs plan = max (getNumSameIDs (classifiedPlan [2, 1] [2, 1]))
        (getNumSameIDs (classifiedPlan [2, 1] [1, 2])) ∧
      (if getNumSameIDs (classifiedPlan [2, 1] [2, 1])
            ≥ getNumSameIDs (classifiedPlan [2, 1] [1, 2]) then
          (classifiedPlan [2, 1] [2, 1]).target_.getNodeElementList.take
            (getNumSameIDs (classifiedPlan [2, 1] [2, 1]))
        else (classifiedPlan [2, 1] [1, 2]).target_.getNodeElementList.take
            (getNumSameIDs (classifiedPlan [2, 1] [1, 2])))
        <+: plan.target_.getNodeElementList :=
  ⟨fun _ => rfl, by decide,
    setUnion_same_prefix sameElementLists (unionMapCtor [2, 1]) noExports
      (classifiedPlan [2, 1] [2, 1]) (classifiedPlan [2, 1] [1, 2]) [] [] ([], [])
      (fun _ => rfl) (by decide) rfl⟩

/-! ## setUnion: a GID listed twice in the union target -/

/-- C15 evaluated on the code: source element list `[2, 1]`, plan 1 onto target
`[2, 1]` (two same IDs) and plan 2 onto target `[1, 2]` (no same ID, permute
GIDs 1 and 2). Both plans satisfy the classifier invariants and neither target
repeats a GID, yet the union target built by `setUnion` is `[2, 1, 1]`: the
view `doubleCountedSameGIDs` is `[2, 1]`, not ascending, so `std::set_difference`
leaves GID 1 in the permute GIDs of plan 2, and GID 1 of the same-prefix
`[2, 1]` reappears in the permute block. -/
theorem setUnion_repeats_gid :
    ClassifierInvariant (classifiedPlan [2, 1] [2, 1]) ∧
    ClassifierInvariant (classifiedPlan [2, 1] [1, 2]) ∧
    (classifiedPlan [2, 1] [2, 1]).source_.getNodeElementList
      = (classifiedPlan [2, 1] [1, 2]).source_.getNodeElementList ∧
    (classifiedPlan [2, 1] [2, 1]).target_.getNodeElementList.Nodup ∧
    (classifiedPlan [2, 1] [1, 2]).target_.getNodeElementList.Nodup ∧
    unionDoubleCounted (classifiedPlan [2, 1] [2, 1]) (classifiedPlan [2, 1] [1, 2]) = [2, 1] ∧
    ∃ plan, setUnion sameElementLists (unionMapCtor [2, 1]) noExports
        (classifiedPlan [2, 1] [2, 1]) (classifiedPlan [2, 1] [1, 2]) [] [] = Except.ok plan ∧
      plan.target_.getNodeElementList = [2, 1, 1] ∧
      ¬ plan.target_.getNodeElementList.Nodup ∧
      getNumSameIDs plan = 2 ∧
      plan.permuteToLIDs_ = [2] ∧
      (1 : Int) ∈ plan.target_.getNodeElementList.take (getNumSameIDs plan) ∧
      (1 : Int) ∈ (plan.target_.getNodeElementList.drop (getNumSameIDs plan)).take
        (getNumPermuteIDs plan) := by
  refine ⟨?_, ?_, rfl, by decide, by decide, by decide, ?_⟩
  · unfold ClassifierInvariant
    decide
  · unfold ClassifierInvariant
    decide
  · refine ⟨_, rfl, ?_, ?_, ?_, ?_, ?_, ?_⟩ <;> decide

/-! ## Membership in the results of the standard algorithms -/

theorem dropWhile_cons_spec {α : Type} (p : α → Bool) :
    ∀ (l : List α) (b : α) (rest : List α), l.dropWhile p = b :: rest →
      p b = false ∧ ∀ y, y ∈ b :: rest → y ∈ l := by
  intro l
  induction l with
  | nil =>
    intro b rest h
    simp only [List.dropWhile_nil] at h
    cases h
  | cons c cs ih =>
    intro b rest h
    rw [List.dropWhile_cons] at h
    by_cases hc : p c = true
    · rw [if_pos hc] at h
      obtain ⟨hb, hsub⟩ := ih b rest h
      exact ⟨hb, fun y hy => List.mem_cons_of_mem c (hsub y hy)⟩
    · rw [if_neg hc] at h
      cases h
      exact ⟨by simpa using hc, fun y hy => hy⟩

theorem std.set_difference_subset (x : Int) :
    ∀ (A B : List Int), x ∈ std.set_difference A B → x ∈ A := by
  intro A
  induction A with
  | nil =>
    intro B h
    simp only [std.set_difference] at h
    cases h
  | cons a as ih =>
    intro B h
    rw [std.set_difference] at h
    split at h
    · exact h
    · rename_i b rest hdw
      by_cases hab : a < b
      · rw [if_pos hab] at h
        rcases List.mem_cons.mp h with h | h
        · exact h ▸ List.mem_cons_self a as
        · exact List.mem_cons_of_mem a (ih _ h)
      · rw [if_neg hab] at h
        exact List.mem_cons_of_mem a (ih _ h)

theorem std.set_difference_keeps (x : Int) :
    ∀ (A B : List Int), x ∈ A → x ∈ std.set_difference A B ∨ x ∈ B := by
  intro A
  induction A with
  | nil =>
    intro B h
    cases h
  | cons a as ih =>
    intro B h
    rw [std.set_difference]
    split
    · exact Or.inl h
    · rename_i b rest hdw
      obtain ⟨hb, hsub⟩ := dropWhile_cons_spec _ B b rest hdw
      have hba : ¬ b < a := by simpa using hb
      by_cases hab : a < b
      · rw [if_pos hab]
        rcases List.mem_cons.mp h with h | h
        · exact Or.inl (h ▸ List.mem_cons_self a _)
        · rcases ih (b :: rest) h with h | h
          · exact Or.inl (List.mem_cons_of_mem a h)
          · exact Or.inr (hsub x h)
      · rw [if_neg hab]
        have hEq : a = b := by omega
        rcases List.mem_cons.mp h with h | h
        · exact Or.inr (hsub x (by rw [h, hEq]; exact List.mem_cons_self b rest))
        · rcases ih rest h with h | h
          · exact Or.inl h
          · exact Or.inr (hsub x (List.mem_cons_of_mem b h))

theorem std.mem_set_union (x : Int) :
    ∀ (A B : List Int), x ∈ std.set_union A B ↔ x ∈ A ∨ x ∈ B := by
  intro A
  induction A with
  | nil =>
    intro B
    simp only [std.set_union, List.not_mem_nil, false_or]
  | cons a as ih =>
    intro B
    have hB := List.takeWhile_append_dropWhile (fun b => decide (b < a)) B
    rw [std.set_union]
    split
    · rename_i hdw
      rw [hdw, List.append_nil] at hB
      rw [hB, List.mem_append]
      exact Or.comm
    · rename_i b rest hdw
      obtain ⟨hb, -⟩ := dropWhile_cons_spec _ B b rest hdw
      have hba : ¬ b < a := by simpa using hb
      rw [hdw] at hB
      have hmemB : x ∈ B ↔ x ∈ List.takeWhile (fun b => decide (b < a)) B ∨ x ∈ b :: rest := by
        rw [← List.mem_append, hB]
      by_cases hab : a < b
      · rw [if_pos hab, hmemB]
        simp only [List.mem_append, List.mem_cons, ih]
        tauto
      · rw [if_neg hab, hmemB]
        have hEq : a = b := by omega
        subst hEq
        simp only [List.mem_append, List.mem_cons, ih]
        tauto

theorem std.mem_merge (x : Int × Int) :
    ∀ (A B : List (Int × Int)), x ∈ std.merge A B ↔ x ∈ A ∨ x ∈ B := by
  intro A
  induction A with
  | nil =>
    intro B
    simp only [std.merge, List.not_mem_nil, false_or]
  | cons a as ih =>
    intro B
    have hB := List.takeWhile_append_dropWhile (fun b => decide (¬ pairLE a b)) B
    have hmemB : x ∈ B ↔ x ∈ List.takeWhile (fun b => decide (¬ pairLE a b)) B
        ∨ x ∈ List.dropWhile (fun b => decide (¬ pairLE a b)) B := by
      rw [← List.mem_append, hB]
    rw [std.merge, hmemB]
    simp only [List.mem_append, List.mem_cons, ih]
    tauto

theorem std.mem_unique_cons (x : Int × Int) :
    ∀ (l : List (Int × Int)) (a : Int × Int),
      x ∈ std.unique (a :: l) ↔ x ∈ a :: l := by
  intro l
  induction l with
  | nil =>
    intro a
    simp only [std.unique]
  | cons b rest ih =>
    intro a
    rw [std.unique]
    by_cases hab : a = b
    · rw [if_pos hab, ih b, hab]
      simp only [List.mem_cons]
      tauto
    · rw [if_neg hab, List.mem_cons, ih b]
      simp only [List.mem_cons]

theorem std.mem_unique (x : Int × Int) (l : List (Int × Int)) :
    x ∈ std.unique l ↔ x ∈ l := by
  cases l with
  | nil => simp only [std.unique]
  | cons a l => exact std.mem_unique_cons x l a

theorem std.mem_sort (x : Int) (l : List Int) : x ∈ std.sort l ↔ x ∈ l :=
  (List.perm_insertionSort _ l).mem_iff

theorem std.mem_sortPairs (x : Int × Int) (l : List (Int × Int)) :
    x ∈ std.sortPairs l ↔ x ∈ l :=
  (List.perm_insertionSort _ l).mem_iff

/-! ## setUnion: the GIDs of the union target -/

theorem Map.globalElement_ofNat (m : Map) (t : Nat) (h : t < m.getNodeElementList.length) :
    m.globalElement (Int.ofNat t) = m.getNodeElementList.getD t 0 := by
  rw [Map.globalElement, Map.getGlobalElement_ofNat m t h, Option.getD_some]

/-- Under the classifier invariants a GID is in the target exactly when it is in
the same-prefix, or sits at a permute-to LID, or sits at a remote LID. -/
theorem ClassifierInvariant.mem_target (d : ImportData) (hinv : ClassifierInvariant d)
    (g : Int) :
    g ∈ d.target_.getNodeElementList ↔
      g ∈ d.target_.getNodeElementList.take d.numSameIDs_ ∨
      g ∈ d.permuteToLIDs_.map d.target_.globalElement ∨
      g ∈ d.remoteLIDs_.map d.target_.globalElement := by
  obtain ⟨-, -, -, -, hperm⟩ := hinv
  have hlid : ∀ l : Int, l ∈ d.permuteToLIDs_ ∨ l ∈ d.remoteLIDs_ →
      d.target_.globalElement l ∈ d.target_.getNodeElementList := by
    intro l hl
    have hm : l ∈ (List.range d.target_.getNodeElementList.length).map Int.ofNat := by
      apply hperm.mem_iff.mp
      simp only [List.mem_append]
      exact Or.inr hl
    obtain ⟨i, hi, rfl⟩ := List.mem_map.mp hm
    have hi2 : i < d.target_.getNodeElementList.length := List.mem_range.mp hi
    rw [Map.globalElement_ofNat _ _ hi2, List.getD_eq_getElem _ _ hi2]
    exact List.getElem_mem hi2
  constructor
  · intro hg
    obtain ⟨i, hi, rfl⟩ := List.getElem_of_mem hg
    have hm : Int.ofNat i ∈ (List.range d.numSameIDs_).map Int.ofNat
        ++ (d.permuteToLIDs_ ++ d.remoteLIDs_) := by
      apply hperm.mem_iff.mpr
      exact List.mem_map.mpr ⟨i, List.mem_range.mpr hi, rfl⟩
    have hge : d.target_.globalElement (Int.ofNat i) = d.target_.getNodeElementList[i] := by
      rw [Map.globalElement_ofNat _ _ hi, List.getD_eq_getElem _ _ hi]
    rcases List.mem_append.mp hm with hm | hm
    · left
      obtain ⟨j, hj, hji⟩ := List.mem_map.mp hm
      have hij : j = i := Int.ofNat.inj hji
      subst hij
      have hjn : j < d.numSameIDs_ := List.mem_range.mp hj
      have hlt : j < (d.target_.getNodeElementList.take d.numSameIDs_).length := by
        rw [List.length_take]
        omega
      have := List.getElem_mem hlt
      rwa [List.getElem_take] at this
    · rcases List.mem_append.mp hm with hm | hm
      · right; left
        exact List.mem_map.mpr ⟨_, hm, hge⟩
      · right; right
        exact List.mem_map.mpr ⟨_, hm, hge⟩
  · intro hg
    rcases hg with hg | hg | hg
    · exact List.mem_of_mem_take hg
    · obtain ⟨l, hl, rfl⟩ := List.mem_map.mp hg
      exact hlid l (Or.inl hl)
    · obtain ⟨l, hl, rfl⟩ := List.mem_map.mp hg
      exact hlid l (Or.inr hl)

theorem mem_sortedPermuteGIDs (d : ImportData)
    (hlen : d.permuteToLIDs_.length = d.permuteFromLIDs_.length) (g : Int) :
    g ∈ sortedPermuteGIDs d ↔ g ∈ d.permuteToLIDs_.map d.target_.globalElement := by
  rw [sortedPermuteGIDs, std.mem_sort, getNumPermuteIDs, ← hlen, range_map_comp_getD]

theorem mem_sortedRemotePGIDs_snd (d : ImportData) (remotePIDs : List Int)
    (hlen : remotePIDs.length = d.remoteLIDs_.length) (g : Int) :
    g ∈ (sortedRemotePGIDs d remotePIDs).map (fun e => e.2)
      ↔ g ∈ d.remoteLIDs_.map d.target_.globalElement := by
  have hsnd : ((List.range remotePIDs.length).map
      (fun k => (remotePIDs.getD k 0, d.target_.globalElement (d.remoteLIDs_.getD k 0)))).map
      (fun e => e.2) = d.remoteLIDs_.map d.target_.globalElement := by
    rw [List.map_map, hlen]
    exact range_map_comp_getD d.remoteLIDs_ d.target_.globalElement
  rw [← hsnd]
  simp only [List.mem_map, sortedRemotePGIDs, std.mem_sortPairs]

theorem mem_unionRemotePGs_snd (this rhs : ImportData) (remotePIDs1 remotePIDs2 : List Int)
    (h1 : remotePIDs1.length = this.remoteLIDs_.length)
    (h2 : remotePIDs2.length = rhs.remoteLIDs_.length) (g : Int) :
    g ∈ (unionRemotePGs this rhs remotePIDs1 remotePIDs2).map (fun e => e.2) ↔
      g ∈ this.remoteLIDs_.map this.target_.globalElement ∨
      g ∈ rhs.remoteLIDs_.map rhs.target_.globalElement := by
  rw [← mem_sortedRemotePGIDs_snd this remotePIDs1 h1, ← mem_sortedRemotePGIDs_snd rhs remotePIDs2 h2]
  simp only [List.mem_map, unionRemotePGs, std.mem_unique, std.mem_merge]
  constructor
  · rintro ⟨e, he | he, rfl⟩
    · exact Or.inl ⟨e, he, rfl⟩
    · exact Or.inr ⟨e, he, rfl⟩
  · rintro (⟨e, he, rfl⟩ | ⟨e, he, rfl⟩)
    · exact ⟨e, Or.inl he, rfl⟩
    · exact ⟨e, Or.inr he, rfl⟩

theorem mem_take_of_mem_view (l : List Int) (o n : Nat) (h : o ≤ n) (g : Int)
    (hg : g ∈ view l o (n - o)) : g ∈ l.take n := by
  have hn : n = o + (n - o) := by omega
  rw [hn, List.take_add]
  exact List.mem_append_right _ hg

theorem mem_take_of_le (l : List Int) (o n : Nat) (h : o ≤ n) (g : Int)
    (hg : g ∈ l.take o) : g ∈ l.take n := by
  have ht : l.take o = (l.take n).take o := by rw [List.take_take, min_eq_left h]
  rw [ht] at hg
  exact List.mem_of_mem_take hg

/-- The same GIDs followed by the permute GIDs of the union, when the GIDs
struck from the permute GIDs of the input with the shorter same-prefix are all
among the same GIDs of the other input. -/
theorem mem_same_append_permute (sameW sameL spW spL dc perm : List Int)
    (hdc : ∀ g, g ∈ dc → g ∈ sameW) (hsameL : ∀ g, g ∈ sameL → g ∈ sameW)
    (hperm : ∀ g, g ∈ perm ↔ g ∈ spW ∨ g ∈ std.set_difference spL dc) (g : Int) :
    g ∈ sameW ++ perm ↔ (g ∈ sameW ∨ g ∈ spW) ∨ (g ∈ sameL ∨ g ∈ spL) := by
  rw [List.mem_append, hperm]
  constructor
  · rintro (h | h | h)
    · exact Or.inl (Or.inl h)
    · exact Or.inl (Or.inr h)
    · exact Or.inr (Or.inr (std.set_difference_subset g _ _ h))
  · rintro ((h | h) | (h | h))
    · exact Or.inl h
    · exact Or.inr (Or.inl h)
    · exact Or.inl (hsameL g h)
    · rcases std.set_difference_keeps g spL dc h with h | h
      · exact Or.inr (Or.inr h)
      · exact Or.inl (hdc g h)

/-- The same and permute GIDs of the union target of `setUnion` are the same
and permute GIDs of the two inputs. -/
theorem mem_unionSame_append_unionPermute (this rhs : ImportData)
    (hinv1 : ClassifierInvariant this) (hinv2 : ClassifierInvariant rhs)
    (hsrc : rhs.source_.getNodeElementList = this.source_.getNodeElementList) (g : Int) :
    g ∈ unionSameGIDs this rhs ++ unionPermuteGIDs this rhs ↔
      (g ∈ this.target_.getNodeElementList.take this.numSameIDs_ ∨
        g ∈ this.permuteToLIDs_.map this.target_.globalElement) ∨
      (g ∈ rhs.target_.getNodeElementList.take rhs.numSameIDs_ ∨
        g ∈ rhs.permuteToLIDs_.map rhs.target_.globalElement) := by
  obtain ⟨-, -, ht1, hl1, -⟩ := hinv1
  obtain ⟨-, -, ht2, hl2, -⟩ := hinv2
  rw [hsrc] at ht2
  rw [← mem_sortedPermuteGIDs this hl1, ← mem_sortedPermuteGIDs rhs hl2]
  by_cases hge : getNumSameIDs this ≥ getNumSameIDs rhs
  · have hge2 : rhs.numSameIDs_ ≤ this.numSameIDs_ := hge
    simp only [unionSameGIDs, unionPermuteGIDs, unionDoubleCounted, if_pos hge]
    apply mem_same_append_permute
    · intro x hx
      simp only [view, List.drop_zero]
      exact mem_take_of_mem_view _ _ _ hge2 x hx
    · intro x hx
      simp only [view, List.drop_zero]
      show x ∈ this.target_.getNodeElementList.take this.numSameIDs_
      rw [ht1]
      rw [ht2] at hx
      exact mem_take_of_le _ _ _ hge2 x hx
    · intro x
      exact std.mem_set_union x _ _
  · have hlt : this.numSameIDs_ ≤ rhs.numSameIDs_ := by
      have : ¬ rhs.numSameIDs_ ≤ this.numSameIDs_ := hge
      omega
    simp only [unionSameGIDs, unionPermuteGIDs, unionDoubleCounted, if_neg hge]
    rw [or_comm]
    apply mem_same_append_permute
    · intro x hx
      simp only [view, List.drop_zero]
      exact mem_take_of_mem_view _ _ _ hlt x hx
    · intro x hx
      simp only [view, List.drop_zero]
      show x ∈ rhs.target_.getNodeElementList.take rhs.numSameIDs_
      rw [ht2]
      rw [ht1] at hx
      exact mem_take_of_le _ _ _ hlt x hx
    · intro x
      rw [std.mem_set_union, or_comm]
      exact Iff.rfl

/-- C16: for two plans over the same source element list that satisfy the
classifier invariants, with targets that are not the same and remote PID arrays
as long as the remote LID arrays, `setUnion` (whenever the Distributor call on
the union remote arrays returns) builds a union target Map whose GIDs are
exactly the GIDs of target 1 together with the GIDs of target 2. -/
theorem setUnion_target_gids (isSameAs : Map → Map → Bool) (mapCtor : List Int → Map)
    (cfr : List Int → List Int → Except ImportError (List Int × List Int))
    (this rhs : ImportData) (remotePIDs1 remotePIDs2 : List Int)
    (out : List Int × List Int)
    (hctor : ∀ l, (mapCtor l).getNodeElementList = l)
    (hsame : isSameAs this.target_ rhs.target_ = false)
    (hcfr : cfr ((unionRemotePGs this rhs remotePIDs1 remotePIDs2).map (fun e => e.2))
      ((unionRemotePGs this rhs remotePIDs1 remotePIDs2).map (fun e => e.1)) = Except.ok out)
    (hinv1 : ClassifierInvariant this) (hinv2 : ClassifierInvariant rhs)
    (hsrc : rhs.source_.getNodeElementList = this.source_.getNodeElementList)
    (hr1 : remotePIDs1.length = this.remoteLIDs_.length)
    (hr2 : remotePIDs2.length = rhs.remoteLIDs_.length) :
    ∃ plan, setUnion isSameAs mapCtor cfr this rhs remotePIDs1 remotePIDs2 = Except.ok plan ∧
      ∀ g : Int, g ∈ plan.target_.getNodeElementList ↔
        g ∈ this.target_.getNodeElementList ∨ g ∈ rhs.target_.getNodeElementList := by
  obtain ⟨plan, hplan⟩ := setUnion_returns isSameAs mapCtor cfr this rhs remotePIDs1 remotePIDs2
    out hsame hcfr
  obtain ⟨-, ht⟩ := setUnion_ok_target isSameAs mapCtor cfr this rhs remotePIDs1 remotePIDs2
    plan hsame hplan
  refine ⟨plan, hplan, ?_⟩
  intro g
  rw [ht, hctor, unionTgtGIDs, List.mem_append,
    mem_unionSame_append_unionPermute this rhs hinv1 hinv2 hsrc,
    mem_unionRemotePGs_snd this rhs remotePIDs1 remotePIDs2 hr1 hr2,
    ClassifierInvariant.mem_target this hinv1, ClassifierInvariant.mem_target rhs hinv2]
  tauto

/-- Witness for C16: source `[0, 1, 2]`, plan 1 onto target `[0, 1, 7, 2]` and
plan 2 onto target `[0, 2, 9, 7]`, the remote GIDs 7 and 9 owned by rank 1. -/
theorem setUnion_target_gids_witness :
    (∀ l, (unionMapCtor [0, 1, 2] l).getNodeElementList = l) ∧
    sameElementLists (classifiedPlan [0, 1, 2] [0, 1, 7, 2]).target_
      (classifiedPlan [0, 1, 2] [0, 2, 9, 7]).target_ = false ∧
    ClassifierInvariant (classifiedPlan [0, 1, 2] [0, 1, 7, 2]) ∧
    ClassifierInvariant (classifiedPlan [0, 1, 2] [0, 2, 9, 7]) ∧
    ∃ plan, setUnion sameElementLists (unionMapCtor [0, 1, 2]) noExports
        (classifiedPlan [0, 1, 2] [0, 1, 7, 2]) (classifiedPlan [0, 1, 2] [0, 2, 9, 7])
        [1] [1, 1] = Except.ok plan ∧
      ∀ g : Int, g ∈ plan.target_.getNodeElementList ↔
        g ∈ (classifiedPlan [0, 1, 2] [0, 1, 7, 2]).target_.getNodeElementList ∨
        g ∈ (classifiedPlan [0, 1, 2] [0, 2, 9, 7]).target_.getNodeElementList :=
  ⟨fun _ => rfl, by decide, by unfold ClassifierInvariant; decide,
    by unfold ClassifierInvariant; decide,
    setUnion_target_gids sameElementLists (unionMapCtor [0, 1, 2]) noExports
      (classifiedPlan [0, 1, 2] [0, 1, 7, 2]) (classifiedPlan [0, 1, 2] [0, 2, 9, 7])
      [1] [1, 1] ([], []) (fun _ => rfl) (by decide) rfl
      (by unfold ClassifierInvariant; decide) (by unfold ClassifierInvariant; decide)
      rfl rfl rfl⟩

/-! ## The count check of the packing loop -/

/-- The counter and the owner array of the packing loop do not depend on the
array of remote GIDs. -/
theorem packLoop_procIDs_indep (P G G2 L : List Int) :
    ∀ r, (packLoop P G L r).numValidRemote = (packLoop P G2 L r).numValidRemote ∧
      (packLoop P G L r).remoteProcIDs = (packLoop P G2 L r).remoteProcIDs ∧
      (packLoop P G L r).remoteLIDs = (packLoop P G2 L r).remoteLIDs := by
  intro r
  induction r with
  | zero => exact ⟨rfl, rfl, rfl⟩
  | succ r ih =>
    obtain ⟨h1, h2, h3⟩ := ih
    have e1 : packLoop P G L (r + 1) = packStep (packLoop P G L r) r := by
      simp only [packLoop, List.range_succ, List.foldl_append, List.foldl_cons, List.foldl_nil]
    have e2 : packLoop P G2 L (r + 1) = packStep (packLoop P G2 L r) r := by
      simp only [packLoop, List.range_succ, List.foldl_append, List.foldl_cons, List.foldl_nil]
    rw [e1, e2]
    simp only [packStep, h1, h2, h3]
    split
    · exact ⟨rfl, rfl, rfl⟩
    · exact ⟨h1, h2, h3⟩

/-- C24: the `std::logic_error` count check of the compaction in `setupExport`
cannot fail: for every array `remoteProcIDs` as long as `remoteLIDs_` (length
`getNumRemoteIDs ()`), the packing loop packs `totalNumRemote` minus the number
of entries equal to `-1` entries, and the removal step never raises
`std::logic_error`. -/
theorem setupExport_count_check_unreachable (lookup : LookupStatus) (P G L : List Int)
    (hP : P.length = L.length) :
    ((packLoop P G L L.length).numValidRemote : Int)
      = (L.length : Int) - (P.countP (fun pid => decide ((-1 : Int) = pid)) : Int) ∧
    dropInvalidRemotes lookup P G L ≠ Except.error ImportError.logic_error := by
  have hinv := (packLoop_invariant P P L rfl hP.symm P.length (le_refl _)).1
  rw [List.take_length] at hinv
  have hcnt := keepValid_length_add_countP P P rfl
  have hnum : ((packLoop P G L L.length).numValidRemote : Int)
      = (L.length : Int) - (P.countP (fun pid => decide ((-1 : Int) = pid)) : Int) := by
    rw [(packLoop_procIDs_indep P G P L L.length).1, ← hP, hinv]
    omega
  refine ⟨hnum, ?_⟩
  unfold dropInvalidRemotes
  split
  · dsimp only
    split
    · exact fun h => by cases h
    · rw [if_neg (not_not.mpr hnum)]
      exact fun h => by cases h
  · exact fun h => by cases h

/-- Witness for C24: owners `[1, -1, 0]` for three remote LIDs; two entries are
packed. -/
theorem setupExport_count_check_unreachable_witness :
    ([1, -1, 0] : List Int).length = ([1, 2, 3] : List Int).length ∧
    ((packLoop [1, -1, 0] [7, 8, 9] [1, 2, 3] ([1, 2, 3] : List Int).length).numValidRemote : Int)
      = (([1, 2, 3] : List Int).length : Int)
        - (([1, -1, 0] : List Int).countP (fun pid => decide ((-1 : Int) = pid)) : Int) ∧
    dropInvalidRemotes LookupStatus.IDNotPresent [1, -1, 0] [7, 8, 9] [1, 2, 3]
      ≠ Except.error ImportError.logic_error :=
  ⟨rfl, setupExport_count_check_unreachable LookupStatus.IDNotPresent
    [1, -1, 0] [7, 8, 9] [1, 2, 3] rfl⟩

/-! ## The sort by owning process -/

theorem sort3Insert_sorted (x : Int × Int × Int) (l : List (Int × Int × Int))
    (h : l.Pairwise (fun a b => a.1 ≤ b.1)) :
    (sort3Insert x l).Pairwise (fun a b => a.1 ≤ b.1) := by
  induction l with
  | nil => exact List.pairwise_singleton _ _
  | cons y ys ih =>
    obtain ⟨hy, hys⟩ := List.pairwise_cons.mp h
    simp only [sort3Insert]
    split
    · rename_i hxy
      refine List.pairwise_cons.mpr ⟨?_, h⟩
      intro z hz
      rcases List.mem_cons.mp hz with hz | hz
      · rw [hz]; exact hxy
      · exact le_trans hxy (hy z hz)
    · rename_i hxy
      refine List.pairwise_cons.mpr ⟨?_, ih hys⟩
      intro z hz
      rcases List.mem_cons.mp ((sort3Insert_perm x ys).mem_iff.mp hz) with hz | hz
      · rw [hz]; omega
      · exact hy z hz

theorem sort3Triples_sorted (l : List (Int × Int × Int)) :
    (sort3Triples l).Pairwise (fun a b => a.1 ≤ b.1) := by
  induction l with
  | nil => exact List.Pairwise.nil
  | cons x xs ih => exact sort3Insert_sorted x _ ih

theorem zip_map_triples (ts : List (Int × Int × Int)) :
    List.zip (ts.map (fun t => t.1))
      (List.zip (ts.map (fun t => t.2.1)) (ts.map (fun t => t.2.2))) = ts := by
  induction ts with
  | nil => rfl
  | cons t ts ih =>
    simp only [List.map_cons, List.zip_cons_cons, ih]

/-- On three arrays of one length `sort3` leaves the first array ascending and
the triples a permutation of the triples it was given. -/
theorem sort3_sorted_perm (f s t : List Int) (hs : s.length = f.length)
    (ht : t.length = f.length) :
    (sort3 f s t).1.Pairwise (fun a b => a ≤ b) ∧
    (List.zip (sort3 f s t).1 (List.zip (sort3 f s t).2.1 (sort3 f s t).2.2)).Perm
      (List.zip f (List.zip s t)) := by
  have hs2 : s.take f.length = s := by rw [← hs]; exact List.take_length _
  have ht2 : t.take f.length = t := by rw [← ht]; exact List.take_length _
  have hd : s.drop f.length = [] := by rw [← hs]; exact List.drop_length s
  have hd2 : t.drop f.length = [] := by rw [← ht]; exact List.drop_length t
  simp only [sort3, hs2, ht2, hd, hd2, List.append_nil]
  refine ⟨?_, ?_⟩
  · rw [List.pairwise_map]
    exact sort3Triples_sorted _
  · rw [zip_map_triples]
    exact sort3Triples_perm _

theorem keepValid_cons (p : Int) (P : List Int) (x : Int) (X : List Int) :
    keepValid (p :: P) (x :: X) = if p ≠ -1 then x :: keepValid P X else keepValid P X := by
  simp only [keepValid, List.zip_cons_cons, List.filter_cons]
  by_cases hp : p = -1
  · simp [hp]
  · simp [hp]

theorem keepValid_triples (P : List Int) :
    ∀ (G L : List Int), G.length = P.length → L.length = P.length →
      List.zip (keepValid P P) (List.zip (keepValid P G) (keepValid P L))
        = (List.zip P (List.zip G L)).filter (fun e => decide (e.1 ≠ -1)) := by
  induction P with
  | nil =>
    intro G L _ _
    simp [keepValid]
  | cons p P ih =>
    intro G L hG hL
    cases G with
    | nil => simp at hG
    | cons g G =>
      cases L with
      | nil => simp at hL
      | cons l L =>
        have hG2 : G.length = P.length := by simpa using hG
        have hL2 : L.length = P.length := by simpa using hL
        simp only [keepValid_cons, List.zip_cons_cons, List.filter_cons]
        by_cases hp : p = -1
        · simp only [hp, ne_eq, not_true_eq_false, if_false, decide_False, Bool.false_eq_true]
          exact ih G L hG2 hL2
        · simp only [ne_eq, hp, not_false_eq_true, if_true, decide_True, List.zip_cons_cons]
          rw [ih G L hG2 hL2]

theorem getD_zip3_mem (P G L : List Int) (hG : G.length = P.length) (hL : L.length = P.length)
    (i : Nat) (hi : i < P.length) :
    (P.getD i 0, G.getD i 0, L.getD i 0) ∈ List.zip P (List.zip G L) := by
  have hiG : i < G.length := by omega
  have hiL : i < L.length := by omega
  have hz : i < (List.zip P (List.zip G L)).length := by
    simp only [List.length_zip]
    omega
  have := List.getElem_mem hz
  rw [List.getElem_zip, List.getElem_zip] at this
  rwa [List.getD_eq_getElem _ _ hi, List.getD_eq_getElem _ _ hiG, List.getD_eq_getElem _ _ hiL]

/-- The classifier leaves `remoteGIDs` and `remoteLIDs_` paired: every remote
GID is the GID of the target at the remote LID beside it. -/
theorem setupSamePermuteRemote_pairing (source target : Map) :
    (setupSamePermuteRemote (ImportData.new source target) []).2.length
      = (setupSamePermuteRemote (ImportData.new source target) []).1.remoteLIDs_.length ∧
    ∀ e ∈ List.zip (setupSamePermuteRemote (ImportData.new source target) []).2
        (setupSamePermuteRemote (ImportData.new source target) []).1.remoteLIDs_,
      target.globalElement e.2 = e.1 := by
  obtain ⟨-, -, -, hL, hG, -⟩ := setupSamePermuteRemote_fields (ImportData.new source target) []
  rw [hL, hG]
  simp only [ImportData.new, List.nil_append, List.length_map, List.zip_map', true_and]
  intro e he
  obtain ⟨t, ht, rfl⟩ := List.mem_map.mp he
  have ht2 := (List.mem_filter.mp ht).1
  rw [List.mem_range'_1] at ht2
  have hlt : t < target.getNodeElementList.length := by omega
  exact Map.globalElement_ofNat target t hlt

/-- C23: on the arrays the classifier hands to `setupExport` (owner lookup
filling one owner per remote GID), the first part of `setupExport` returns, and
after its `sort3` step `remoteProcIDs` is non-decreasing, the triples
`(remoteProcIDs[i], remoteGIDs[i], remoteLIDs[i])` are a permutation of the
triples that entered `sort3`, and for every `i` the GID of the target at
`remoteLIDs[i]` is still `remoteGIDs[i]`. -/
theorem setupExport_sort3_keeps_pairing (source target : Map)
    (hlen : (source.getRemoteIndexList
        (setupSamePermuteRemote (ImportData.new source target) []).2).1.length
      = (setupSamePermuteRemote (ImportData.new source target) []).2.length) :
    ∃ req kept,
      setupExportRemotes (setupSamePermuteRemote (ImportData.new source target) []).1
        (setupSamePermuteRemote (ImportData.new source target) []).2 false [] = Except.ok req ∧
      dropInvalidRemotes
        (source.getRemoteIndexList (setupSamePermuteRemote (ImportData.new source target) []).2).2
        (source.getRemoteIndexList (setupSamePermuteRemote (ImportData.new source target) []).2).1
        (setupSamePermuteRemote (ImportData.new source target) []).2
        (setupSamePermuteRemote (ImportData.new source target) []).1.remoteLIDs_
        = Except.ok kept ∧
      req.remoteProcIDs.Pairwise (fun a b => a ≤ b) ∧
      (List.zip req.remoteProcIDs (List.zip req.remoteGIDs req.data.remoteLIDs_)).Perm
        (List.zip kept.1 (List.zip kept.2.1 kept.2.2)) ∧
      req.remoteGIDs.length = req.remoteProcIDs.length ∧
      req.data.remoteLIDs_.length = req.remoteProcIDs.length ∧
      ∀ i, i < req.remoteProcIDs.length →
        target.globalElement (req.data.remoteLIDs_.getD i 0) = req.remoteGIDs.getD i 0 := by
  obtain ⟨hGL, hpair⟩ := setupSamePermuteRemote_pairing source target
  have hsrc : (setupSamePermuteRemote (ImportData.new source target) []).1.source_ = source :=
    (setupSamePermuteRemote_fields (ImportData.new source target) []).2.2.2.2.2.2.2.1
  generalize (setupSamePermuteRemote (ImportData.new source target) []).1 = d at *
  generalize (setupSamePermuteRemote (ImportData.new source target) []).2 = G at *
  rw [← hsrc] at hlen ⊢
  obtain ⟨req, hreq, -⟩ := setupExportRemotes_request d G hGL hlen
  obtain ⟨kept, hk, -, -, -, -, -, -, -, -, -, hrl, hrg, hrp⟩ :=
    setupExportRemotes_ok d G false [] req hreq
  simp only [Bool.not_false, if_true, Bool.false_eq_true, if_false] at hk
  have hLP : d.remoteLIDs_.length = (d.source_.getRemoteIndexList G).1.length := by omega
  have hGP : G.length = (d.source_.getRemoteIndexList G).1.length := by omega
  rw [dropInvalidRemotes_eq _ _ _ _ hGP hLP] at hk
  have hkG : kept.2.1.length = kept.1.length := by
    cases hk
    split
    · exact keepValid_length_eq _ _ hGP
    · exact hGP
  have hkL : kept.2.2.length = kept.1.length := by
    cases hk
    split
    · exact keepValid_length_eq _ _ hLP
    · exact hLP
  have hkpair : ∀ e ∈ List.zip kept.1 (List.zip kept.2.1 kept.2.2),
      target.globalElement e.2.2 = e.2.1 := by
    intro e he
    have he2 : e ∈ List.zip (d.source_.getRemoteIndexList G).1 (List.zip G d.remoteLIDs_) := by
      cases hk
      split at he
      · rw [keepValid_triples _ _ _ hGP hLP] at he
        exact (List.mem_filter.mp he).1
      · exact he
    exact hpair e.2 (List.of_mem_zip he2).2
  obtain ⟨hsorted, hperm⟩ := sort3_sorted_perm kept.1 kept.2.1 kept.2.2 hkG hkL
  obtain ⟨hl1, hl2, hl3⟩ := sort3_length kept.1 kept.2.1 kept.2.2 (by omega) (by omega)
  rw [← hrp] at hsorted hperm hl1
  rw [← hrg] at hperm hl2
  rw [← hrl] at hperm hl3
  refine ⟨req, kept, hreq, ?_, hsorted, hperm, by omega, by omega, ?_⟩
  · rw [dropInvalidRemotes_eq _ _ _ _ hGP hLP]
    exact hk
  · intro i hi
    have hm := getD_zip3_mem req.remoteProcIDs req.remoteGIDs req.data.remoteLIDs_
      (by omega) (by omega) i hi
    exact hkpair _ (hperm.mem_iff.mp hm)

/-- Witness for C23: rank 0 of a three-rank run, source `[0, 1]`, target
`[0, 1, 9, 4]`, GID 9 owned by rank 2 and GID 4 by rank 1. -/
theorem setupExport_sort3_keeps_pairing_witness :
    ∃ req,
      setupExportRemotes
        (setupSamePermuteRemote (ImportData.new
          (Map.ofList [0, 1] true (fun _ => ([2, 1], LookupStatus.AllIDsPresent)))
          (Map.ofList [0, 1, 9, 4] true (fun _ => ([2, 1], LookupStatus.AllIDsPresent)))) []).1
        (setupSamePermuteRemote (ImportData.new
          (Map.ofList [0, 1] true (fun _ => ([2, 1], LookupStatus.AllIDsPresent)))
          (Map.ofList [0, 1, 9, 4] true (fun _ => ([2, 1], LookupStatus.AllIDsPresent)))) []).2
        false [] = Except.ok req ∧
      req.remoteProcIDs.Pairwise (fun a b => a ≤ b) ∧
      ∀ i, i < req.remoteProcIDs.length →
        (Map.ofList [0, 1, 9, 4] true (fun _ => ([2, 1], LookupStatus.AllIDsPresent))).globalElement
          (req.data.remoteLIDs_.getD i 0) = req.remoteGIDs.getD i 0 :=
  match setupExport_sort3_keeps_pairing
    (Map.ofList [0, 1] true (fun _ => ([2, 1], LookupStatus.AllIDsPresent)))
    (Map.ofList [0, 1, 9, 4] true (fun _ => ([2, 1], LookupStatus.AllIDsPresent)))
    (by decide) with
  | ⟨req, _, hreq, _, hsorted, _, _, _, hpair⟩ => ⟨req, hreq, hsorted, hpair⟩

/-! ## setUnion: layout of the union target -/

theorem getD_range_map (f : Nat → Int) (n k : Nat) (hk : k < n) :
    ((List.range n).map f).getD k 0 = f k := by
  have hlt : k < ((List.range n).map f).length := by simpa using hk
  rw [List.getD_eq_getElem _ _ hlt, List.getElem_map, List.getElem_range]

/-- C25: for two plans whose `numSame` does not exceed the size of their target,
with targets that are not the same, `setUnion` (whenever the Distributor call on
the union remote arrays returns) produces a plan whose target element list is
the same-prefix GIDs, then the union permute GIDs, then the union remote GIDs,
with `permuteToLIDs[k] = numSame + k` for every `k < numPermute`,
`remoteLIDs[k] = numSame + numPermute + k` for every `k < numRemote`, and
`numSame + numPermute + numRemote` the size of the union target. -/
theorem setUnion_target_layout (isSameAs : Map → Map → Bool) (mapCtor : List Int → Map)
    (cfr : List Int → List Int → Except ImportError (List Int × List Int))
    (this rhs : ImportData) (remotePIDs1 remotePIDs2 : List Int)
    (out : List Int × List Int)
    (hctor : ∀ l, (mapCtor l).getNodeElementList = l)
    (hsame : isSameAs this.target_ rhs.target_ = false)
    (hcfr : cfr ((unionRemotePGs this rhs remotePIDs1 remotePIDs2).map (fun e => e.2))
      ((unionRemotePGs this rhs remotePIDs1 remotePIDs2).map (fun e => e.1)) = Except.ok out)
    (h1 : getNumSameIDs this ≤ this.target_.getNodeElementList.length)
    (h2 : getNumSameIDs rhs ≤ rhs.target_.getNodeElementList.length) :
    ∃ plan, setUnion isSameAs mapCtor cfr this rhs remotePIDs1 remotePIDs2 = Except.ok plan ∧
      plan.target_.getNodeElementList
        = unionSameGIDs this rhs ++ unionPermuteGIDs this rhs
          ++ (unionRemotePGs this rhs remotePIDs1 remotePIDs2).map (fun e => e.2) ∧
      (unionSameGIDs this rhs).length = getNumSameIDs plan ∧
      (unionPermuteGIDs this rhs).length = getNumPermuteIDs plan ∧
      ((unionRemotePGs this rhs remotePIDs1 remotePIDs2).map (fun e => e.2)).length
        = getNumRemoteIDs plan ∧
      plan.permuteToLIDs_.length = getNumPermuteIDs plan ∧
      (∀ k, k < getNumPermuteIDs plan →
        plan.permuteToLIDs_.getD k 0 = (getNumSameIDs plan : Int) + (k : Int)) ∧
      (∀ k, k < getNumRemoteIDs plan →
        plan.remoteLIDs_.getD k 0
          = (getNumSameIDs plan : Int) + (getNumPermuteIDs plan : Int) + (k : Int)) ∧
      getNumSameIDs plan + getNumPermuteIDs plan + getNumRemoteIDs plan
        = plan.target_.getNodeElementList.length := by
  obtain ⟨plan, hplan⟩ := setUnion_returns isSameAs mapCtor cfr this rhs remotePIDs1 remotePIDs2
    out hsame hcfr
  obtain ⟨out2, -, -, ht, hn, hpt, hpf, hrl, -, -⟩ := setUnion_ok isSameAs mapCtor cfr this rhs
    remotePIDs1 remotePIDs2 plan hsame h1 h2 hplan
  have hlen := unionSameGIDs_length this rhs h1 h2
  have hnS : getNumSameIDs plan = unionNumSame this rhs := hn
  have hnP : getNumPermuteIDs plan = (unionPermuteGIDs this rhs).length := by
    rw [getNumPermuteIDs, hpf, List.length_map]
  have hnR : getNumRemoteIDs plan = (unionRemotePGs this rhs remotePIDs1 remotePIDs2).length := by
    rw [getNumRemoteIDs, hrl, List.length_map, List.length_range]
  refine ⟨plan, hplan, ?_, ?_, hnP.symm, ?_, ?_, ?_, ?_, ?_⟩
  · rw [ht, hctor, unionTgtGIDs]
  · rw [hlen, hnS]
  · rw [List.length_map, hnR]
  · rw [hpt, List.length_map, List.length_range, hnP]
  · intro k hk
    rw [hpt, getD_range_map _ _ _ (by omega), hnS]
    rfl
  · intro k hk
    rw [hrl, getD_range_map _ _ _ (by omega), hnS, hnP]
    rfl
  · rw [ht, hctor, unionTgtGIDs, List.length_append, List.length_append, List.length_map, hlen,
      hnS, hnP, hnR]

/-- Witness for C25: source `[0, 1, 2]`, plan 1 onto target `[0, 1, 7, 2]` and
plan 2 onto target `[0, 2, 9, 7]`, the remote GIDs 7 and 9 owned by rank 1; the
union target is `[0, 1] ++ [2] ++ [7, 9]`. -/
theorem setUnion_target_layout_witness :
    unionSameGIDs (classifiedPlan [0, 1, 2] [0, 1, 7, 2])
      (classifiedPlan [0, 1, 2] [0, 2, 9, 7]) = [0, 1] ∧
    unionPermuteGIDs (classifiedPlan [0, 1, 2] [0, 1, 7, 2])
      (classifiedPlan [0, 1, 2] [0, 2, 9, 7]) = [2] ∧
    (unionRemotePGs (classifiedPlan [0, 1, 2] [0, 1, 7, 2])
      (classifiedPlan [0, 1, 2] [0, 2, 9, 7]) [1] [1, 1]).map (fun e => e.2) = [7, 9] ∧
    ∃ plan, setUnion sameElementLists (unionMapCtor [0, 1, 2]) noExports
        (classifiedPlan [0, 1, 2] [0, 1, 7, 2]) (classifiedPlan [0, 1, 2] [0, 2, 9, 7])
        [1] [1, 1] = Except.ok plan ∧
      plan.target_.getNodeElementList
        = unionSameGIDs (classifiedPlan [0, 1, 2] [0, 1, 7, 2])
            (classifiedPlan [0, 1, 2] [0, 2, 9, 7])
          ++ unionPermuteGIDs (classifiedPlan [0, 1, 2] [0, 1, 7, 2])
            (classifiedPlan [0, 1, 2] [0, 2, 9, 7])
          ++ (unionRemotePGs (classifiedPlan [0, 1, 2] [0, 1, 7, 2])
            (classifiedPlan [0, 1, 2] [0, 2, 9, 7]) [1] [1, 1]).map (fun e => e.2) ∧
      getNumSameIDs plan + getNumPermuteIDs plan + getNumRemoteIDs plan
        = plan.target_.getNodeElementList.length :=
  match setUnion_target_layout sameElementLists (unionMapCtor [0, 1, 2]) noExports
      (classifiedPlan [0, 1, 2] [0, 1, 7, 2]) (classifiedPlan [0, 1, 2] [0, 2, 9, 7])
      [1] [1, 1] ([], []) (fun _ => rfl) (by decide) rfl (by decide) (by decide) with
  | ⟨plan, hplan, hlist, _, _, _, _, _, _, hsum⟩ =>
    ⟨by decide, by decide, by decide, plan, hplan, hlist, hsum⟩

/-! ## setUnion: the union remote pairs -/

theorem pairLE_total (a b : Int × Int) : pairLE a b ∨ pairLE b a := by
  obtain ⟨a1, a2⟩ := a
  obtain ⟨b1, b2⟩ := b
  simp only [pairLE]
  omega

theorem pairLE_trans (a b c : Int × Int) (h1 : pairLE a b) (h2 : pairLE b c) : pairLE a c := by
  obtain ⟨a1, a2⟩ := a
  obtain ⟨b1, b2⟩ := b
  obtain ⟨c1, c2⟩ := c
  simp only [pairLE] at *
  omega

theorem pairLT_of_le_of_ne (a b : Int × Int) (h1 : pairLE a b) (h2 : a ≠ b) : pairLT a b := by
  obtain ⟨a1, a2⟩ := a
  obtain ⟨b1, b2⟩ := b
  simp only [pairLE, pairLT, ne_eq, Prod.mk.injEq] at *
  omega

theorem pairLT_of_lt_of_le (a b c : Int × Int) (h1 : pairLT a b) (h2 : pairLE b c) :
    pairLT a c := by
  obtain ⟨a1, a2⟩ := a
  obtain ⟨b1, b2⟩ := b
  obtain ⟨c1, c2⟩ := c
  simp only [pairLE, pairLT] at *
  omega

theorem std.sortPairs_sorted (l : List (Int × Int)) : (std.sortPairs l).Pairwise pairLE := by
  haveI : IsTotal (Int × Int) pairLE := ⟨pairLE_total⟩
  haveI : IsTrans (Int × Int) pairLE := ⟨pairLE_trans⟩
  exact List.sorted_insertionSort pairLE l

theorem std.merge_sorted :
    ∀ (A B : List (Int × Int)), A.Pairwise pairLE → B.Pairwise pairLE →
      (std.merge A B).Pairwise pairLE := by
  intro A
  induction A with
  | nil =>
    intro B _ hB
    simpa only [std.merge] using hB
  | cons a as ih =>
    intro B hA hB
    obtain ⟨ha, has⟩ := List.pairwise_cons.mp hA
    have hsplit := List.takeWhile_append_dropWhile (fun b => decide (¬ pairLE a b)) B
    rw [← hsplit] at hB
    obtain ⟨htw, hdw, hcross⟩ := List.pairwise_append.mp hB
    have hdwa : ∀ y ∈ List.dropWhile (fun b => decide (¬ pairLE a b)) B, pairLE a y := by
      intro y hy
      cases hd : List.dropWhile (fun b => decide (¬ pairLE a b)) B with
      | nil => rw [hd] at hy; cases hy
      | cons b rest =>
        obtain ⟨hb, -⟩ := dropWhile_cons_spec _ B b rest hd
        have hab : pairLE a b := by simpa using hb
        rw [hd] at hy hdw
        rcases List.mem_cons.mp hy with hy | hy
        · rw [hy]; exact hab
        · exact pairLE_trans a b y hab ((List.pairwise_cons.mp hdw).1 y hy)
    rw [std.merge]
    refine List.pairwise_append.mpr ⟨htw, ?_, ?_⟩
    · refine List.pairwise_cons.mpr ⟨?_, ih _ has hdw⟩
      intro y hy
      rcases (std.mem_merge y _ _).mp hy with hy | hy
      · exact ha y hy
      · exact hdwa y hy
    · intro x hx y hy
      have hxa : pairLE x a := by
        have hnot : ¬ pairLE a x := by simpa using (List.mem_takeWhile_imp hx)
        exact (pairLE_total x a).resolve_right hnot
      rcases List.mem_cons.mp hy with hy | hy
      · rw [hy]; exact hxa
      · rcases (std.mem_merge y _ _).mp hy with hy | hy
        · exact pairLE_trans x a y hxa (ha y hy)
        · exact hcross x hx y hy

theorem std.unique_sorted_cons :
    ∀ (l : List (Int × Int)) (a : Int × Int), (a :: l).Pairwise pairLE →
      (std.unique (a :: l)).Pairwise pairLT := by
  intro l
  induction l with
  | nil =>
    intro a _
    simp only [std.unique, List.pairwise_cons, List.not_mem_nil, false_implies, implies_true,
      List.Pairwise.nil, and_self]
  | cons b rest ih =>
    intro a h
    obtain ⟨ha, hb⟩ := List.pairwise_cons.mp h
    rw [std.unique]
    by_cases hab : a = b
    · rw [if_pos hab]
      exact ih b hb
    · rw [if_neg hab]
      refine List.pairwise_cons.mpr ⟨?_, ih b hb⟩
      intro y hy
      have hy2 : y ∈ b :: rest := (std.mem_unique_cons y rest b).mp hy
      have hlt : pairLT a b := pairLT_of_le_of_ne a b (ha b (List.mem_cons_self b rest)) hab
      rcases List.mem_cons.mp hy2 with hy3 | hy3
      · rw [hy3]; exact hlt
      · exact pairLT_of_lt_of_le a b y hlt ((List.pairwise_cons.mp hb).1 y hy3)

theorem std.unique_sorted (l : List (Int × Int)) (h : l.Pairwise pairLE) :
    (std.unique l).Pairwise pairLT := by
  cases l with
  | nil => simp only [std.unique, List.Pairwise.nil]
  | cons a l => exact std.unique_sorted_cons l a h

theorem unionRemotePGs_sorted (this rhs : ImportData) (remotePIDs1 remotePIDs2 : List Int) :
    (unionRemotePGs this rhs remotePIDs1 remotePIDs2).Pairwise pairLT :=
  std.unique_sorted _ (std.merge_sorted _ _ (std.sortPairs_sorted _) (std.sortPairs_sorted _))

theorem mem_unionRemotePGs (this rhs : ImportData) (remotePIDs1 remotePIDs2 : List Int)
    (e : Int × Int) :
    e ∈ unionRemotePGs this rhs remotePIDs1 remotePIDs2 ↔
      e ∈ remotePGIDs this remotePIDs1 ∨ e ∈ remotePGIDs rhs remotePIDs2 := by
  simp only [unionRemotePGs, sortedRemotePGIDs, std.mem_unique, std.mem_merge,
    std.mem_sortPairs, remotePGIDs]

/-- A successful run of `setUnion` on targets that are not the same has called
the Distributor with the GIDs and the ranks of `remotePGUnion`. -/
theorem setUnion_ok_createFromRecvs (isSameAs : Map → Map → Bool) (mapCtor : List Int → Map)
    (cfr : List Int → List Int → Except ImportError (List Int × List Int))
    (this rhs : ImportData) (remotePIDs1 remotePIDs2 : List Int) (plan : ImportData)
    (hsame : isSameAs this.target_ rhs.target_ = false)
    (h : setUnion isSameAs mapCtor cfr this rhs remotePIDs1 remotePIDs2 = Except.ok plan) :
    ∃ out, cfr ((unionRemotePGs this rhs remotePIDs1 remotePIDs2).map (fun e => e.2))
      ((unionRemotePGs this rhs remotePIDs1 remotePIDs2).map (fun e => e.1)) = Except.ok out := by
  have e3 : std.unique (std.merge
      (std.sortPairs ((List.range remotePIDs1.length).map
        (fun k => (remotePIDs1.getD k 0, this.target_.globalElement (this.remoteLIDs_.getD k 0)))))
      (std.sortPairs ((List.range remotePIDs2.length).map
        (fun k => (remotePIDs2.getD k 0, rhs.target_.globalElement (rhs.remoteLIDs_.getD k 0))))))
      = unionRemotePGs this rhs remotePIDs1 remotePIDs2 := rfl
  simp only [setUnion, hsame, Bool.false_eq_true, if_false, e3,
    range_map_fst_getD, range_map_snd_getD, Import.expert_eq] at h
  split at h
  · cases h
  · rename_i out hout
    exact ⟨out, hout⟩

/-- C27: in `setUnion (rhs)` the array `remotePGUnion`, whose entry `k` is the
pair `(remotePIDsUnion[k], remoteGIDsUnion[k])`, is strictly increasing in the
lexicographic order (rank first, then GID), and a pair occurs in it if and only
if it is a remote (rank, GID) pair of `this` or of `rhs`; a run of `setUnion`
that returns on targets that are not the same has handed the GIDs and the ranks
of this array to the Distributor. -/
theorem setUnion_remote_pairs_sorted_unique (isSameAs : Map → Map → Bool)
    (mapCtor : List Int → Map)
    (cfr : List Int → List Int → Except ImportError (List Int × List Int))
    (this rhs : ImportData) (remotePIDs1 remotePIDs2 : List Int) :
    (unionRemotePGs this rhs remotePIDs1 remotePIDs2).Pairwise pairLT ∧
    (∀ k, k + 1 < (unionRemotePGs this rhs remotePIDs1 remotePIDs2).length →
      pairLT ((unionRemotePGs this rhs remotePIDs1 remotePIDs2).getD k (0, 0))
        ((unionRemotePGs this rhs remotePIDs1 remotePIDs2).getD (k + 1) (0, 0))) ∧
    (∀ e : Int × Int, e ∈ unionRemotePGs this rhs remotePIDs1 remotePIDs2 ↔
      e ∈ remotePGIDs this remotePIDs1 ∨ e ∈ remotePGIDs rhs remotePIDs2) ∧
    (∀ plan, isSameAs this.target_ rhs.target_ = false →
      setUnion isSameAs mapCtor cfr this rhs remotePIDs1 remotePIDs2 = Except.ok plan →
      ∃ out, cfr ((unionRemotePGs this rhs remotePIDs1 remotePIDs2).map (fun e => e.2))
        ((unionRemotePGs this rhs remotePIDs1 remotePIDs2).map (fun e => e.1))
          = Except.ok out) := by
  have hs := unionRemotePGs_sorted this rhs remotePIDs1 remotePIDs2
  refine ⟨hs, ?_, mem_unionRemotePGs this rhs remotePIDs1 remotePIDs2, ?_⟩
  · intro k hk
    rw [List.getD_eq_getElem _ _ (by omega), List.getD_eq_getElem _ _ hk]
    exact List.pairwise_iff_getElem.mp hs k (k + 1) (by omega) hk (by omega)
  · intro plan hsame h
    exact setUnion_ok_createFromRecvs isSameAs mapCtor cfr this rhs remotePIDs1 remotePIDs2
      plan hsame h

/-- Witness for C27: source `[0, 1, 2]`, plan 1 onto target `[0, 1, 7, 2]` with
GID 7 owned by rank 2, plan 2 onto target `[0, 2, 9, 7]` with GID 9 owned by
rank 1 and GID 7 by rank 2: the union remote pairs are `(1, 9), (2, 7)`. -/
theorem setUnion_remote_pairs_sorted_unique_witness :
    unionRemotePGs (classifiedPlan [0, 1, 2] [0, 1, 7, 2])
      (classifiedPlan [0, 1, 2] [0, 2, 9, 7]) [2] [1, 2] = [(1, 9), (2, 7)] ∧
    (unionRemotePGs (classifiedPlan [0, 1, 2] [0, 1, 7, 2])
      (classifiedPlan [0, 1, 2] [0, 2, 9, 7]) [2] [1, 2]).Pairwise pairLT ∧
    ∃ out, noExports
      ((unionRemotePGs (classifiedPlan [0, 1, 2] [0, 1, 7, 2])
        (classifiedPlan [0, 1, 2] [0, 2, 9, 7]) [2] [1, 2]).map (fun e => e.2))
      ((unionRemotePGs (classifiedPlan [0, 1, 2] [0, 1, 7, 2])
        (classifiedPlan [0, 1, 2] [0, 2, 9, 7]) [2] [1, 2]).map (fun e => e.1))
        = Except.ok out :=
  have h := setUnion_remote_pairs_sorted_unique sameElementLists (unionMapCtor [0, 1, 2])
    noExports (classifiedPlan [0, 1, 2] [0, 1, 7, 2]) (classifiedPlan [0, 1, 2] [0, 2, 9, 7])
    [2] [1, 2]
  ⟨by decide, h.1, h.2.2.2 _ (by decide) rfl⟩

/-! ## setUnion: the same-prefix of the union plan -/

/-- Under the classifier invariants of both inputs, on one source element list,
the same GIDs of the union are the first `unionNumSame` source GIDs. -/
theorem unionSameGIDs_eq_source_take (this rhs : ImportData)
    (hinv1 : ClassifierInvariant this) (hinv2 : ClassifierInvariant rhs)
    (hsrc : rhs.source_.getNodeElementList = this.source_.getNodeElementList) :
    unionSameGIDs this rhs = this.source_.getNodeElementList.take (unionNumSame this rhs) ∧
    unionNumSame this rhs ≤ this.source_.getNodeElementList.length := by
  obtain ⟨hs1, -, ht1, -, -⟩ := hinv1
  obtain ⟨hs2, -, ht2, -, -⟩ := hinv2
  rw [hsrc] at ht2 hs2
  simp only [unionSameGIDs, unionNumSame, view, List.drop_zero]
  split
  · exact ⟨ht1, hs1⟩
  · exact ⟨ht2, hs2⟩

theorem getD_eq_of_take_eq (A B : List Int) (k j : Nat) (hj : j < k)
    (h : A.take k = B.take k) : A.getD j 0 = B.getD j 0 := by
  have h1 : (A.take k)[j]? = (B.take k)[j]? := by rw [h]
  rw [List.getElem?_take_of_lt hj, List.getElem?_take_of_lt hj] at h1
  simp only [List.getD_eq_getElem?_getD, h1]

/-- A length up to which two lists agree is at most the result of the
same-prefix scan. -/
theorem le_numSameLoop_of_agree (S T : List Int) (k : Nat) (hk : k ≤ min S.length T.length)
    (h : ∀ j, j < k → S.getD j 0 = T.getD j 0) :
    k ≤ numSameLoop S T (min S.length T.length) (min S.length T.length) 0 := by
  obtain ⟨-, -, c⟩ := numSame_def S T
  by_contra hlt
  rcases c with c | c
  · omega
  · exact c (h _ (by omega))

/-- The amended C22: for two plans over one source element list that satisfy
the classifier invariants, with targets that are not the same, `setUnion`
(whenever the Distributor call on the union remote arrays returns) produces a
plan whose `numSame` is the maximum of `numSame1` and `numSame2`; the source and
the union target agree on their first `numSame` entries, so `numSame` is at most
the length of their longest common prefix. -/
theorem setUnion_numSame_common_prefix (isSameAs : Map → Map → Bool)
    (mapCtor : List Int → Map)
    (cfr : List Int → List Int → Except ImportError (List Int × List Int))
    (this rhs : ImportData) (remotePIDs1 remotePIDs2 : List Int)
    (out : List Int × List Int)
    (hctor : ∀ l, (mapCtor l).getNodeElementList = l)
    (hsame : isSameAs this.target_ rhs.target_ = false)
    (hcfr : cfr ((unionRemotePGs this rhs remotePIDs1 remotePIDs2).map (fun e => e.2))
      ((unionRemotePGs this rhs remotePIDs1 remotePIDs2).map (fun e => e.1)) = Except.ok out)
    (hinv1 : ClassifierInvariant this) (hinv2 : ClassifierInvariant rhs)
    (hsrc : rhs.source_.getNodeElementList = this.source_.getNodeElementList) :
    ∃ plan, setUnion isSameAs mapCtor cfr this rhs remotePIDs1 remotePIDs2 = Except.ok plan ∧
      getNumSameIDs plan = max (getNumSameIDs this) (getNumSameIDs rhs) ∧
      plan.target_.getNodeElementList.take (getNumSameIDs plan)
        = plan.source_.getNodeElementList.take (getNumSameIDs plan) ∧
      getNumSameIDs plan
        ≤ numSameLoop plan.source_.getNodeElementList plan.target_.getNodeElementList
            (min plan.source_.getNodeElementList.length plan.target_.getNodeElementList.length)
            (min plan.source_.getNodeElementList.length plan.target_.getNodeElementList.length)
            0 := by
  obtain ⟨plan, hplan⟩ := setUnion_returns isSameAs mapCtor cfr this rhs remotePIDs1 remotePIDs2
    out hsame hcfr
  have h1 : getNumSameIDs this ≤ this.target_.getNodeElementList.length := hinv1.2.1
  have h2 : getNumSameIDs rhs ≤ rhs.target_.getNodeElementList.length := hinv2.2.1
  obtain ⟨-, -, hs, ht, hn, -⟩ := setUnion_ok isSameAs mapCtor cfr this rhs
    remotePIDs1 remotePIDs2 plan hsame h1 h2 hplan
  have hlen := unionSameGIDs_length this rhs h1 h2
  obtain ⟨hsameS, hle⟩ := unionSameGIDs_eq_source_take this rhs hinv1 hinv2 hsrc
  have hnS : getNumSameIDs plan = unionNumSame this rhs := hn
  have hU : plan.target_.getNodeElementList
      = unionSameGIDs this rhs ++ (unionPermuteGIDs this rhs
        ++ (unionRemotePGs this rhs remotePIDs1 remotePIDs2).map (fun e => e.2)) := by
    rw [ht, hctor, unionTgtGIDs, List.append_assoc]
  have htake : plan.target_.getNodeElementList.take (getNumSameIDs plan)
      = plan.source_.getNodeElementList.take (getNumSameIDs plan) := by
    rw [hU, hnS, List.take_left' hlen, hs]
    exact hsameS
  refine ⟨plan, hplan, ?_, htake, ?_⟩
  · rw [hnS, unionNumSame]
    split
    · exact (max_eq_left (by assumption)).symm
    · exact (max_eq_right (by omega)).symm
  · apply le_numSameLoop_of_agree
    · have hUl : unionNumSame this rhs ≤ plan.target_.getNodeElementList.length := by
        rw [hU, List.length_append, hlen]
        omega
      rw [hnS, hs]
      omega
    · intro j hj
      exact (getD_eq_of_take_eq _ _ _ j hj htake).symm

/-- C22, counterexample: source `[0, 1]`, plan 1 onto target `[1, 0]` and plan 2
onto target `[1]`, both with `numSame = 0`. The union target is `[0, 1]`, the
source element list itself, so the longest common prefix has length 2, but the
union plan has `numSame = 0`. -/
theorem setUnion_numSame_not_longest_counterexample :
    ClassifierInvariant (classifiedPlan [0, 1] [1, 0]) ∧
    ClassifierInvariant (classifiedPlan [0, 1] [1]) ∧
    ∃ plan, setUnion sameElementLists (unionMapCtor [0, 1]) noExports
        (classifiedPlan [0, 1] [1, 0]) (classifiedPlan [0, 1] [1]) [] [] = Except.ok plan ∧
      plan.source_.getNodeElementList = [0, 1] ∧
      plan.target_.getNodeElementList = [0, 1] ∧
      getNumSameIDs plan = 0 ∧
      numSameLoop plan.source_.getNodeElementList plan.target_.getNodeElementList
        (min plan.source_.getNodeElementList.length plan.target_.getNodeElementList.length)
        (min plan.source_.getNodeElementList.length plan.target_.getNodeElementList.length)
        0 = 2 ∧
      ¬ (getNumSameIDs plan
          = min plan.source_.getNodeElementList.length plan.target_.getNodeElementList.length ∨
        plan.source_.getNodeElementList.getD (getNumSameIDs plan) 0
          ≠ plan.target_.getNodeElementList.getD (getNumSameIDs plan) 0) := by
  refine ⟨by unfold ClassifierInvariant; decide, by unfold ClassifierInvariant; decide,
    _, rfl, ?_, ?_, ?_, ?_, ?_⟩ <;> decide

/-- Witness for the amended C22: source `[0, 1, 2]`, plan 1 onto target
`[0, 1, 7, 2]` (two same IDs) and plan 2 onto target `[0, 2, 9, 7]` (one same
ID). -/
theorem setUnion_numSame_common_prefix_witness :
    ∃ plan, setUnion sameElementLists (unionMapCtor [0, 1, 2]) noExports
        (classifiedPlan [0, 1, 2] [0, 1, 7, 2]) (classifiedPlan [0, 1, 2] [0, 2, 9, 7])
        [1] [1, 1] = Except.ok plan ∧
      getNumSameIDs plan = max (getNumSameIDs (classifiedPlan [0, 1, 2] [0, 1, 7, 2]))
        (getNumSameIDs (classifiedPlan [0, 1, 2] [0, 2, 9, 7])) ∧
      plan.target_.getNodeElementList.take (getNumSameIDs plan)
        = plan.source_.getNodeElementList.take (getNumSameIDs plan) ∧
      getNumSameIDs plan
        ≤ numSameLoop plan.source_.getNodeElementList plan.target_.getNodeElementList
            (min plan.source_.getNodeElementList.length plan.target_.getNodeElementList.length)
            (min plan.source_.getNodeElementList.length plan.target_.getNodeElementList.length)
            0 :=
  setUnion_numSame_common_prefix sameElementLists (unionMapCtor [0, 1, 2]) noExports
    (classifiedPlan [0, 1, 2] [0, 1, 7, 2]) (classifiedPlan [0, 1, 2] [0, 2, 9, 7])
    [1] [1, 1] ([], [])
    (fun _ => rfl) (by decide) rfl (by unfold ClassifierInvariant; decide)
    (by unfold ClassifierInvariant; decide) rfl

/-! ## Order of the results of the standard algorithms -/

theorem eq_of_pairwise_of_mem_iff {α : Type} (r : α → α → Prop)
    (hasym : ∀ a b, r a b → ¬ r b a) :
    ∀ (l1 l2 : List α), l1.Pairwise r → l2.Pairwise r → (∀ x, x ∈ l1 ↔ x ∈ l2) → l1 = l2 := by
  intro l1
  induction l1 with
  | nil =>
    intro l2 _ _ h
    cases l2 with
    | nil => rfl
    | cons b l2 => exact absurd ((h b).mpr (List.mem_cons_self b l2)) (List.not_mem_nil b)
  | cons a l1 ih =>
    intro l2 h1 h2 h
    cases l2 with
    | nil => exact absurd ((h a).mp (List.mem_cons_self a l1)) (List.not_mem_nil a)
    | cons b l2 =>
      obtain ⟨ha, hl1⟩ := List.pairwise_cons.mp h1
      obtain ⟨hb, hl2⟩ := List.pairwise_cons.mp h2
      have hab : a = b := by
        rcases List.mem_cons.mp ((h a).mp (List.mem_cons_self a l1)) with h3 | h3
        · exact h3
        · rcases List.mem_cons.mp ((h b).mpr (List.mem_cons_self b l2)) with h4 | h4
          · exact h4.symm
          · exact absurd (ha b h4) (hasym b a (hb a h3))
      subst hab
      have htl : l1 = l2 := by
        apply ih l2 hl1 hl2
        intro x
        constructor
        · intro hx
          rcases List.mem_cons.mp ((h x).mp (List.mem_cons_of_mem a hx)) with h3 | h3
          · rw [h3] at hx
            exact absurd (ha a hx) (hasym a a (ha a hx))
          · exact h3
        · intro hx
          rcases List.mem_cons.mp ((h x).mpr (List.mem_cons_of_mem a hx)) with h3 | h3
          · rw [h3] at hx
            exact absurd (hb a hx) (hasym a a (hb a hx))
          · exact h3
      rw [htl]

theorem pairLT_asymm (a b : Int × Int) (h : pairLT a b) : ¬ pairLT b a := by
  obtain ⟨a1, a2⟩ := a
  obtain ⟨b1, b2⟩ := b
  simp only [pairLT] at *
  omega

theorem std.sort_strict (l : List Int) (h : l.Nodup) :
    (std.sort l).Pairwise (fun a b => a < b) := by
  have hs : (std.sort l).Pairwise (fun a b => a ≤ b) := List.sorted_insertionSort _ l
  have hn : (std.sort l).Nodup := (List.perm_insertionSort _ l).nodup_iff.mpr h
  exact List.Sorted.lt_of_le hs hn

theorem std.set_difference_nil (A : List Int) : std.set_difference A [] = A := by
  cases A with
  | nil => rfl
  | cons a as => simp only [std.set_difference, List.dropWhile_nil]

theorem std.set_difference_sublist :
    ∀ (A B : List Int), (std.set_difference A B).Sublist A := by
  intro A
  induction A with
  | nil =>
    intro B
    simp only [std.set_difference, List.Sublist.refl]
  | cons a as ih =>
    intro B
    rw [std.set_difference]
    split
    · exact List.Sublist.refl _
    · rename_i b rest hdw
      by_cases hab : a < b
      · rw [if_pos hab]
        exact (ih _).cons₂ a
      · rw [if_neg hab]
        exact (ih _).cons a

theorem std.set_union_strict :
    ∀ (A B : List Int), A.Pairwise (fun a b => a < b) → B.Pairwise (fun a b => a < b) →
      (std.set_union A B).Pairwise (fun a b => a < b) := by
  intro A
  induction A with
  | nil =>
    intro B _ hB
    simpa only [std.set_union] using hB
  | cons a as ih =>
    intro B hA hB
    obtain ⟨ha, has⟩ := List.pairwise_cons.mp hA
    have hsplit := List.takeWhile_append_dropWhile (fun b => decide (b < a)) B
    rw [← hsplit] at hB
    obtain ⟨htw, hdw, hcross⟩ := List.pairwise_append.mp hB
    have htwa : ∀ x ∈ List.takeWhile (fun b => decide (b < a)) B, x < a := by
      intro x hx
      simpa using (List.mem_takeWhile_imp hx)
    rw [std.set_union]
    split
    · rename_i hd
      refine List.pairwise_append.mpr ⟨htw, hA, ?_⟩
      intro x hx y hy
      rcases List.mem_cons.mp hy with hy | hy
      · rw [hy]; exact htwa x hx
      · exact lt_trans (htwa x hx) (ha y hy)
    · rename_i b rest hd
      obtain ⟨hb, -⟩ := dropWhile_cons_spec _ B b rest hd
      have hba : ¬ b < a := by simpa using hb
      rw [hd] at hdw hcross
      obtain ⟨hbr, hrest⟩ := List.pairwise_cons.mp hdw
      by_cases hab : a < b
      · rw [if_pos hab]
        have htail : (a :: std.set_union as (b :: rest)).Pairwise (fun a b => a < b) := by
          refine List.pairwise_cons.mpr ⟨?_, ih _ has hdw⟩
          intro y hy
          rcases (std.mem_set_union y _ _).mp hy with hy | hy
          · exact ha y hy
          · rcases List.mem_cons.mp hy with hy | hy
            · rw [hy]; exact hab
            · exact lt_trans hab (hbr y hy)
        refine List.pairwise_append.mpr ⟨htw, htail, ?_⟩
        intro x hx y hy
        rcases List.mem_cons.mp hy with hy | hy
        · rw [hy]; exact htwa x hx
        · rcases (std.mem_set_union y _ _).mp hy with hy | hy
          · exact lt_trans (htwa x hx) (ha y hy)
          · exact hcross x hx y hy
      · rw [if_neg hab]
        have hEq : a = b := by omega
        have htail : (a :: std.set_union as rest).Pairwise (fun a b => a < b) := by
          refine List.pairwise_cons.mpr ⟨?_, ih _ has hrest⟩
          intro y hy
          rcases (std.mem_set_union y _ _).mp hy with hy | hy
          · exact ha y hy
          · rw [hEq]; exact hbr y hy
        refine List.pairwise_append.mpr ⟨htw, htail, ?_⟩
        intro x hx y hy
        rcases List.mem_cons.mp hy with hy | hy
        · rw [hy]; exact htwa x hx
        · rcases (std.mem_set_union y _ _).mp hy with hy | hy
          · exact lt_trans (htwa x hx) (ha y hy)
          · exact hcross x hx y (List.mem_cons_of_mem b hy)

/-! ## The classifier establishes the plan invariants -/

theorem take_eq_of_getD_eq (S T : List Int) (n : Nat) (hS : n ≤ S.length) (hT : n ≤ T.length)
    (h : ∀ j, j < n → S.getD j 0 = T.getD j 0) : T.take n = S.take n := by
  apply List.ext_getElem
  · simp only [List.length_take]
    omega
  · intro i h1 h2
    have hi : i < n := by
      simp only [List.length_take] at h1
      omega
    have := h i hi
    rw [List.getD_eq_getElem S 0 (by omega), List.getD_eq_getElem T 0 (by omega)] at this
    rw [List.getElem_take, List.getElem_take]
    exact this.symm

/-- The plan `setupSamePermuteRemote` builds from a fresh plan satisfies the
classifier invariants, for every source and target Map. -/
theorem setupSamePermuteRemote_planInvariant (source target : Map) :
    PlanInvariant (setupSamePermuteRemote (ImportData.new source target) []).1 := by
  obtain ⟨hn, hP, hF, hR, -, -, -, hs, ht⟩ :=
    setupSamePermuteRemote_fields (ImportData.new source target) []
  obtain ⟨hmin, hagree, -⟩ := numSame_def source.getNodeElementList target.getNodeElementList
  have hsrc : (setupSamePermuteRemote (ImportData.new source target) []).1.source_ = source := hs
  have htgt : (setupSamePermuteRemote (ImportData.new source target) []).1.target_ = target := ht
  have hn2 : (setupSamePermuteRemote (ImportData.new source target) []).1.numSameIDs_
      = numSameLoop source.getNodeElementList target.getNodeElementList
          (min source.getNodeElementList.length target.getNodeElementList.length)
          (min source.getNodeElementList.length target.getNodeElementList.length) 0 := hn
  have hleS : (setupSamePermuteRemote (ImportData.new source target) []).1.numSameIDs_
      ≤ source.getNodeElementList.length := by rw [hn2]; omega
  have hleT : (setupSamePermuteRemote (ImportData.new source target) []).1.numSameIDs_
      ≤ target.getNodeElementList.length := by rw [hn2]; omega
  rw [← hn2] at hagree
  refine ⟨⟨?_, ?_, ?_, ?_, ?_⟩, ?_⟩
  · rw [hsrc]; exact hleS
  · rw [htgt]; exact hleT
  · rw [hsrc, htgt]
    exact take_eq_of_getD_eq _ _ _ hleS hleT hagree
  · rw [hP, hF]
    simp only [ImportData.new, List.nil_append, List.length_map]
  · rw [hP, hR, htgt]
    generalize (setupSamePermuteRemote (ImportData.new source target) []).1.numSameIDs_ = n
      at hleT ⊢
    simp only [ImportData.new, List.nil_append]
    rw [← range_append_range' n _ hleT, List.map_append]
    exact (classified_lids_perm source target.getNodeElementList
      (List.range' n (target.getNodeElementList.length - n))).append_left _
  · intro l hl
    rw [hP] at hl
    rw [hsrc, htgt]
    generalize (setupSamePermuteRemote (ImportData.new source target) []).1.numSameIDs_ = n
      at hleT hl
    simp only [ImportData.new, List.nil_append] at hl
    obtain ⟨t, ht1, rfl⟩ := List.mem_map.mp hl
    obtain ⟨ht2, ht3⟩ := List.mem_filter.mp ht1
    rw [List.mem_range'_1] at ht2
    have hlt : t < target.getNodeElementList.length := by omega
    rw [Map.globalElement_ofNat target t hlt]
    simpa [inSource] using ht3

/-! ## setUnion: the permute block -/

/-- Under the classifier invariants, on a target without repeated GID, the GIDs
at the permute-to LIDs are pairwise distinct. -/
theorem permuteGIDs_nodup (d : ImportData) (hinv : ClassifierInvariant d)
    (hT : d.target_.getNodeElementList.Nodup) :
    (d.permuteToLIDs_.map d.target_.globalElement).Nodup := by
  obtain ⟨-, -, -, -, hperm⟩ := hinv
  have hnd : ((List.range d.numSameIDs_).map Int.ofNat
      ++ (d.permuteToLIDs_ ++ d.remoteLIDs_)).Nodup :=
    hperm.nodup_iff.mpr (nodup_map_ofNat _ (List.nodup_range _))
  have hndP : d.permuteToLIDs_.Nodup := hnd.of_append_right.of_append_left
  have hval : ∀ l ∈ d.permuteToLIDs_, ∃ i, ∃ hi : i < d.target_.getNodeElementList.length,
      l = Int.ofNat i ∧ d.target_.globalElement l = d.target_.getNodeElementList[i] := by
    intro l hl
    have hm : l ∈ (List.range d.target_.getNodeElementList.length).map Int.ofNat := by
      apply hperm.mem_iff.mp
      simp only [List.mem_append]
      exact Or.inr (Or.inl hl)
    obtain ⟨i, hi, rfl⟩ := List.mem_map.mp hm
    have hi2 : i < d.target_.getNodeElementList.length := List.mem_range.mp hi
    exact ⟨i, hi2, rfl, by rw [Map.globalElement_ofNat _ _ hi2, List.getD_eq_getElem _ _ hi2]⟩
  apply List.Nodup.map_on _ hndP
  intro x hx y hy hxy
  obtain ⟨i, hi, rfl, hgi⟩ := hval x hx
  obtain ⟨j, hj, rfl, hgj⟩ := hval y hy
  rw [hgi, hgj] at hxy
  rw [hT.getElem_inj_iff.mp hxy]

theorem sortedPermuteGIDs_strict (d : ImportData) (hinv : ClassifierInvariant d)
    (hT : d.target_.getNodeElementList.Nodup) :
    (sortedPermuteGIDs d).Pairwise (fun a b => a < b) := by
  have hlen : d.permuteToLIDs_.length = d.permuteFromLIDs_.length := hinv.2.2.2.1
  rw [sortedPermuteGIDs, getNumPermuteIDs, ← hlen, range_map_comp_getD]
  exact std.sort_strict _ (permuteGIDs_nodup d hinv hT)

/-- The permute GIDs of the union are strictly increasing when neither input
target repeats a GID. -/
theorem unionPermuteGIDs_strict (this rhs : ImportData)
    (hinv1 : ClassifierInvariant this) (hinv2 : ClassifierInvariant rhs)
    (hT1 : this.target_.getNodeElementList.Nodup)
    (hT2 : rhs.target_.getNodeElementList.Nodup) :
    (unionPermuteGIDs this rhs).Pairwise (fun a b => a < b) := by
  have hs1 := sortedPermuteGIDs_strict this hinv1 hT1
  have hs2 := sortedPermuteGIDs_strict rhs hinv2 hT2
  rw [unionPermuteGIDs]
  split
  · exact std.set_union_strict _ _ hs1 (List.Pairwise.sublist (std.set_difference_sublist _ _) hs2)
  · exact std.set_union_strict _ _ (List.Pairwise.sublist (std.set_difference_sublist _ _) hs1) hs2

/-- Every permute GID of the union is the GID at a permute-to LID of one of the
inputs. -/
theorem mem_unionPermuteGIDs_imp (this rhs : ImportData)
    (hl1 : this.permuteToLIDs_.length = this.permuteFromLIDs_.length)
    (hl2 : rhs.permuteToLIDs_.length = rhs.permuteFromLIDs_.length) (g : Int)
    (hg : g ∈ unionPermuteGIDs this rhs) :
    g ∈ this.permuteToLIDs_.map this.target_.globalElement ∨
    g ∈ rhs.permuteToLIDs_.map rhs.target_.globalElement := by
  rw [← mem_sortedPermuteGIDs this hl1, ← mem_sortedPermuteGIDs rhs hl2]
  rw [unionPermuteGIDs] at hg
  split at hg
  · rcases (std.mem_set_union g _ _).mp hg with h | h
    · exact Or.inl h
    · exact Or.inr (std.set_difference_subset g _ _ h)
  · rcases (std.mem_set_union g _ _).mp hg with h | h
    · exact Or.inl (std.set_difference_subset g _ _ h)
    · exact Or.inr h

/-- C26: for two plans over one consistent source Map that satisfy the
classifier invariants, on targets that name no GID twice (as every Map does) and
are not the same, `setUnion` (whenever the Distributor call on the union remote
arrays returns) produces a plan whose permute block of the union target is
strictly increasing in GID, and for every `k < numPermute`, `permuteFromLIDs[k]`
is `source.getLocalElement (unionTarget[permuteToLIDs[k]])`, a valid source LID,
and the source GID at `permuteFromLIDs[k]` is `unionTarget[permuteToLIDs[k]]`. -/
theorem setUnion_permute_block (isSameAs : Map → Map → Bool) (mapCtor : List Int → Map)
    (cfr : List Int → List Int → Except ImportError (List Int × List Int))
    (this rhs : ImportData) (remotePIDs1 remotePIDs2 : List Int)
    (out : List Int × List Int)
    (hctor : ∀ l, (mapCtor l).getNodeElementList = l)
    (hsame : isSameAs this.target_ rhs.target_ = false)
    (hcfr : cfr ((unionRemotePGs this rhs remotePIDs1 remotePIDs2).map (fun e => e.2))
      ((unionRemotePGs this rhs remotePIDs1 remotePIDs2).map (fun e => e.1)) = Except.ok out)
    (hplan1 : PlanInvariant this) (hplan2 : PlanInvariant rhs)
    (hsrc : rhs.source_ = this.source_) (hcons : Map.Consistent this.source_)
    (hT1 : this.target_.getNodeElementList.Nodup)
    (hT2 : rhs.target_.getNodeElementList.Nodup) :
    ∃ plan, setUnion isSameAs mapCtor cfr this rhs remotePIDs1 remotePIDs2 = Except.ok plan ∧
      ((plan.target_.getNodeElementList.drop (getNumSameIDs plan)).take
        (getNumPermuteIDs plan)).Pairwise (fun a b => a < b) ∧
      plan.permuteToLIDs_.length = getNumPermuteIDs plan ∧
      ∀ k, k < getNumPermuteIDs plan →
        plan.permuteFromLIDs_.getD k 0
          = plan.source_.getLocalElement
              (plan.target_.globalElement (plan.permuteToLIDs_.getD k 0)) ∧
        plan.permuteFromLIDs_.getD k 0 ≠ LINVALID ∧
        plan.source_.getGlobalElement (plan.permuteFromLIDs_.getD k 0)
          = some (plan.target_.globalElement (plan.permuteToLIDs_.getD k 0)) := by
  obtain ⟨hinv1, hp1⟩ := hplan1
  obtain ⟨hinv2, hp2⟩ := hplan2
  obtain ⟨plan, hplan⟩ := setUnion_returns isSameAs mapCtor cfr this rhs remotePIDs1 remotePIDs2
    out hsame hcfr
  have h1 : getNumSameIDs this ≤ this.target_.getNodeElementList.length := hinv1.2.1
  have h2 : getNumSameIDs rhs ≤ rhs.target_.getNodeElementList.length := hinv2.2.1
  obtain ⟨-, -, hs, ht, hn, hpt, hpf, -, -, -⟩ := setUnion_ok isSameAs mapCtor cfr this rhs
    remotePIDs1 remotePIDs2 plan hsame h1 h2 hplan
  have hlen := unionSameGIDs_length this rhs h1 h2
  have hnS : getNumSameIDs plan = unionNumSame this rhs := hn
  have hnP : getNumPermuteIDs plan = (unionPermuteGIDs this rhs).length := by
    rw [getNumPermuteIDs, hpf, List.length_map]
  have hU : plan.target_.getNodeElementList
      = unionSameGIDs this rhs ++ (unionPermuteGIDs this rhs
        ++ (unionRemotePGs this rhs remotePIDs1 remotePIDs2).map (fun e => e.2)) := by
    rw [ht, hctor, unionTgtGIDs, List.append_assoc]
  have hblock : (plan.target_.getNodeElementList.drop (getNumSameIDs plan)).take
      (getNumPermuteIDs plan) = unionPermuteGIDs this rhs := by
    rw [hU, hnS, hnP, List.drop_left' hlen, List.take_left' rfl]
  refine ⟨plan, hplan, ?_, ?_, ?_⟩
  · rw [hblock]
    exact unionPermuteGIDs_strict this rhs hinv1 hinv2 hT1 hT2
  · rw [hpt, List.length_map, List.length_range, hnP]
  · intro k hk
    have hk2 : k < (unionPermuteGIDs this rhs).length := by omega
    have hto : plan.permuteToLIDs_.getD k 0 = Int.ofNat (unionNumSame this rhs + k) := by
      rw [hpt, getD_range_map _ _ _ hk2]
      rfl
    have hUk : plan.target_.globalElement (plan.permuteToLIDs_.getD k 0)
        = (unionPermuteGIDs this rhs)[k] := by
      have hlt : unionNumSame this rhs + k < plan.target_.getNodeElementList.length := by
        rw [hU, List.length_append, List.length_append, hlen]
        omega
      rw [hto, Map.globalElement_ofNat _ _ hlt, List.getD_eq_getElem _ _ hlt]
      simp only [hU]
      rw [List.getElem_append_right (by omega), List.getElem_append_left (by omega)]
      simp only [hlen, Nat.add_sub_cancel_left]
    have hfrom : plan.permuteFromLIDs_.getD k 0
        = this.source_.getLocalElement (unionPermuteGIDs this rhs)[k] := by
      rw [hpf, List.getD_eq_getElem _ _ (by simpa using hk2), List.getElem_map]
    have hmem : (unionPermuteGIDs this rhs)[k] ∈ unionPermuteGIDs this rhs :=
      List.getElem_mem hk2
    have hvalid : this.source_.getLocalElement (unionPermuteGIDs this rhs)[k] ≠ LINVALID := by
      rcases mem_unionPermuteGIDs_imp this rhs hinv1.2.2.2.1 hinv2.2.2.2.1 _ hmem with h | h
      · obtain ⟨l, hl, hl2⟩ := List.mem_map.mp h
        rw [← hl2]
        exact hp1 l hl
      · obtain ⟨l, hl, hl2⟩ := List.mem_map.mp h
        rw [← hl2, ← hsrc]
        exact hp2 l hl
    rw [hUk, hfrom, hs]
    exact ⟨rfl, hvalid, hcons _ hvalid⟩

/-- Witness for C26: source `[0, 1, 2]`, plan 1 onto target `[2, 0, 7]` and
plan 2 onto target `[1, 9, 0]`, both built by the classifier; the permute block
of the union target is `[0, 1, 2]`. -/
theorem setUnion_permute_block_witness :
    ∃ plan, setUnion sameElementLists (unionMapCtor [0, 1, 2]) noExports
        (classifiedPlan [0, 1, 2] [2, 0, 7]) (classifiedPlan [0, 1, 2] [1, 9, 0])
        [1] [1] = Except.ok plan ∧
      ((plan.target_.getNodeElementList.drop (getNumSameIDs plan)).take
        (getNumPermuteIDs plan)).Pairwise (fun a b => a < b) ∧
      plan.permuteToLIDs_.length = getNumPermuteIDs plan ∧
      ∀ k, k < getNumPermuteIDs plan →
        plan.permuteFromLIDs_.getD k 0
          = plan.source_.getLocalElement
              (plan.target_.globalElement (plan.permuteToLIDs_.getD k 0)) ∧
        plan.permuteFromLIDs_.getD k 0 ≠ LINVALID ∧
        plan.source_.getGlobalElement (plan.permuteFromLIDs_.getD k 0)
          = some (plan.target_.globalElement (plan.permuteToLIDs_.getD k 0)) :=
  setUnion_permute_block sameElementLists (unionMapCtor [0, 1, 2]) noExports
    (classifiedPlan [0, 1, 2] [2, 0, 7]) (classifiedPlan [0, 1, 2] [1, 9, 0])
    [1] [1] ([], [])
    (fun _ => rfl) (by decide) rfl
    (setupSamePermuteRemote_planInvariant _ _) (setupSamePermuteRemote_planInvariant _ _)
    rfl (Map.ofList_consistent _ _ _) (by decide) (by decide)

/-! ## setUnion: exchanging the two inputs -/

theorem unionNumSame_comm (this rhs : ImportData) :
    unionNumSame rhs this = unionNumSame this rhs := by
  simp only [unionNumSame]
  split <;> split <;> omega

theorem unionDoubleCounted_comm (this rhs : ImportData) :
    unionDoubleCounted rhs this = unionDoubleCounted this rhs := by
  simp only [unionDoubleCounted]
  by_cases h1 : getNumSameIDs this ≥ getNumSameIDs rhs
  · by_cases h2 : getNumSameIDs rhs ≥ getNumSameIDs this
    · have he : getNumSameIDs this = getNumSameIDs rhs := by omega
      rw [if_pos h1, if_pos h2, he]
      simp only [view, Nat.sub_self, List.take_zero]
    · rw [if_pos h1, if_neg h2]
  · have h2 : getNumSameIDs rhs ≥ getNumSameIDs this := by omega
    rw [if_neg h1, if_pos h2]

theorem unionSameGIDs_comm (this rhs : ImportData)
    (hinv1 : ClassifierInvariant this) (hinv2 : ClassifierInvariant rhs)
    (hsrc : rhs.source_.getNodeElementList = this.source_.getNodeElementList) :
    unionSameGIDs rhs this = unionSameGIDs this rhs := by
  rw [(unionSameGIDs_eq_source_take this rhs hinv1 hinv2 hsrc).1,
    (unionSameGIDs_eq_source_take rhs this hinv2 hinv1 hsrc.symm).1, hsrc, unionNumSame_comm]

theorem mem_unionPermuteGIDs_comm (this rhs : ImportData) (x : Int) :
    x ∈ unionPermuteGIDs rhs this ↔ x ∈ unionPermuteGIDs this rhs := by
  have hdc := unionDoubleCounted_comm this rhs
  simp only [unionPermuteGIDs]
  by_cases h1 : getNumSameIDs this ≥ getNumSameIDs rhs
  · by_cases h2 : getNumSameIDs rhs ≥ getNumSameIDs this
    · have he : getNumSameIDs this = getNumSameIDs rhs := by omega
      have hnil : unionDoubleCounted this rhs = [] := by
        simp only [unionDoubleCounted, if_pos h1]
        rw [he]
        simp only [view, Nat.sub_self, List.take_zero]
      rw [if_pos h1, if_pos h2, hdc, hnil, std.set_difference_nil, std.set_difference_nil,
        std.mem_set_union, std.mem_set_union]
      exact Or.comm
    · rw [if_pos h1, if_neg h2, hdc, std.mem_set_union, std.mem_set_union]
      exact Or.comm
  · have h2 : getNumSameIDs rhs ≥ getNumSameIDs this := by omega
    rw [if_neg h1, if_pos h2, hdc, std.mem_set_union, std.mem_set_union]
    exact Or.comm

theorem unionPermuteGIDs_comm (this rhs : ImportData)
    (hinv1 : ClassifierInvariant this) (hinv2 : ClassifierInvariant rhs)
    (hT1 : this.target_.getNodeElementList.Nodup)
    (hT2 : rhs.target_.getNodeElementList.Nodup) :
    unionPermuteGIDs rhs this = unionPermuteGIDs this rhs :=
  eq_of_pairwise_of_mem_iff (fun a b => a < b) (fun a b hab hba => by omega) _ _
    (unionPermuteGIDs_strict rhs this hinv2 hinv1 hT2 hT1)
    (unionPermuteGIDs_strict this rhs hinv1 hinv2 hT1 hT2)
    (mem_unionPermuteGIDs_comm this rhs)

theorem unionRemotePGs_comm (this rhs : ImportData) (remotePIDs1 remotePIDs2 : List Int) :
    unionRemotePGs rhs this remotePIDs2 remotePIDs1
      = unionRemotePGs this rhs remotePIDs1 remotePIDs2 :=
  eq_of_pairwise_of_mem_iff pairLT pairLT_asymm _ _
    (unionRemotePGs_sorted rhs this remotePIDs2 remotePIDs1)
    (unionRemotePGs_sorted this rhs remotePIDs1 remotePIDs2)
    (fun e => by rw [mem_unionRemotePGs, mem_unionRemotePGs]; exact Or.comm)

/-- C28: for two plans over the same source Map that satisfy the classifier
invariants and whose targets are not the same and repeat no GID, `setUnion` is
commutative on the nose: whenever the Distributor call on the union remote
arrays returns, `this.setUnion (rhs)` and `rhs.setUnion (this)` both return, with
the same union target element list, the same `numSame`, the same permute-to,
permute-from and remote LID lists and the same export lists. -/
theorem setUnion_comm (isSameAs : Map → Map → Bool) (mapCtor : List Int → Map)
    (cfr : List Int → List Int → Except ImportError (List Int × List Int))
    (this rhs : ImportData) (remotePIDs1 remotePIDs2 : List Int)
    (out : List Int × List Int)
    (hsame : isSameAs this.target_ rhs.target_ = false)
    (hsame2 : isSameAs rhs.target_ this.target_ = false)
    (hcfr : cfr ((unionRemotePGs this rhs remotePIDs1 remotePIDs2).map (fun e => e.2))
      ((unionRemotePGs this rhs remotePIDs1 remotePIDs2).map (fun e => e.1)) = Except.ok out)
    (hinv1 : ClassifierInvariant this) (hinv2 : ClassifierInvariant rhs)
    (hsrc : rhs.source_ = this.source_)
    (hT1 : this.target_.getNodeElementList.Nodup)
    (hT2 : rhs.target_.getNodeElementList.Nodup) :
    ∃ plan12 plan21,
      setUnion isSameAs mapCtor cfr this rhs remotePIDs1 remotePIDs2 = Except.ok plan12 ∧
      setUnion isSameAs mapCtor cfr rhs this remotePIDs2 remotePIDs1 = Except.ok plan21 ∧
      plan21.target_ = plan12.target_ ∧
      plan21.target_.getNodeElementList = plan12.target_.getNodeElementList ∧
      getNumSameIDs plan21 = getNumSameIDs plan12 ∧
      plan21.permuteToLIDs_ = plan12.permuteToLIDs_ ∧
      plan21.permuteFromLIDs_ = plan12.permuteFromLIDs_ ∧
      plan21.remoteLIDs_ = plan12.remoteLIDs_ ∧
      plan21.exportLIDs_ = plan12.exportLIDs_ ∧
      plan21.exportPIDs_ = plan12.exportPIDs_ := by
  have hsrcL : rhs.source_.getNodeElementList = this.source_.getNodeElementList := by rw [hsrc]
  have hN := unionNumSame_comm this rhs
  have hS := unionSameGIDs_comm this rhs hinv1 hinv2 hsrcL
  have hP := unionPermuteGIDs_comm this rhs hinv1 hinv2 hT1 hT2
  have hR := unionRemotePGs_comm this rhs remotePIDs1 remotePIDs2
  have hcfr2 : cfr ((unionRemotePGs rhs this remotePIDs2 remotePIDs1).map (fun e => e.2))
      ((unionRemotePGs rhs this remotePIDs2 remotePIDs1).map (fun e => e.1)) = Except.ok out := by
    rw [hR]; exact hcfr
  obtain ⟨plan12, hplan12⟩ := setUnion_returns isSameAs mapCtor cfr this rhs remotePIDs1
    remotePIDs2 out hsame hcfr
  obtain ⟨plan21, hplan21⟩ := setUnion_returns isSameAs mapCtor cfr rhs this remotePIDs2
    remotePIDs1 out hsame2 hcfr2
  have h1 : getNumSameIDs this ≤ this.target_.getNodeElementList.length := hinv1.2.1
  have h2 : getNumSameIDs rhs ≤ rhs.target_.getNodeElementList.length := hinv2.2.1
  obtain ⟨o1, ho1, -, ht1, hn1, hpt1, hpf1, hrl1, hel1, hep1⟩ := setUnion_ok isSameAs mapCtor
    cfr this rhs remotePIDs1 remotePIDs2 plan12 hsame h1 h2 hplan12
  obtain ⟨o2, ho2, -, ht2, hn2, hpt2, hpf2, hrl2, hel2, hep2⟩ := setUnion_ok isSameAs mapCtor
    cfr rhs this remotePIDs2 remotePIDs1 plan21 hsame2 h2 h1 hplan21
  rw [hR] at ho2 hrl2
  rw [hP] at hpt2 hpf2 hrl2
  rw [hN] at hn2 hpt2 hrl2
  have ho : o2 = o1 := Except.ok.inj (ho2.symm.trans ho1)
  have hU : unionTgtGIDs rhs this remotePIDs2 remotePIDs1
      = unionTgtGIDs this rhs remotePIDs1 remotePIDs2 := by
    simp only [unionTgtGIDs, hS, hP, hR]
  have htgt : plan21.target_ = plan12.target_ := by rw [ht2, ht1, hU]
  refine ⟨plan12, plan21, hplan12, hplan21, htgt, by rw [htgt], ?_, ?_, ?_, ?_, ?_, ?_⟩
  · exact hn2.trans hn1.symm
  · rw [hpt2, hpt1]
  · rw [hpf2, hpf1, hsrc]
  · rw [hrl2, hrl1]
  · rw [hel2, hel1, ho, hsrc]
  · rw [hep2, hep1, ho]

/-- Witness for C28: source `[0, 1, 2]`, plan 1 onto target `[0, 1, 7, 2]` and
plan 2 onto target `[0, 2, 9, 7]`, the remote GIDs 7 and 9 owned by rank 1. -/
theorem setUnion_comm_witness :
    ∃ plan12 plan21,
      setUnion sameElementLists (unionMapCtor [0, 1, 2]) noExports
        (classifiedPlan [0, 1, 2] [0, 1, 7, 2]) (classifiedPlan [0, 1, 2] [0, 2, 9, 7])
        [1] [1, 1] = Except.ok plan12 ∧
      setUnion sameElementLists (unionMapCtor [0, 1, 2]) noExports
        (classifiedPlan [0, 1, 2] [0, 2, 9, 7]) (classifiedPlan [0, 1, 2] [0, 1, 7, 2])
        [1, 1] [1] = Except.ok plan21 ∧
      plan21.target_ = plan12.target_ ∧
      plan21.target_.getNodeElementList = plan12.target_.getNodeElementList ∧
      getNumSameIDs plan21 = getNumSameIDs plan12 ∧
      plan21.permuteToLIDs_ = plan12.permuteToLIDs_ ∧
      plan21.permuteFromLIDs_ = plan12.permuteFromLIDs_ ∧
      plan21.remoteLIDs_ = plan12.remoteLIDs_ ∧
      plan21.exportLIDs_ = plan12.exportLIDs_ ∧
      plan21.exportPIDs_ = plan12.exportPIDs_ :=
  setUnion_comm sameElementLists (unionMapCtor [0, 1, 2]) noExports
    (classifiedPlan [0, 1, 2] [0, 1, 7, 2]) (classifiedPlan [0, 1, 2] [0, 2, 9, 7])
    [1] [1, 1] ([], []) (by decide) (by decide) rfl
    (by unfold ClassifierInvariant; decide) (by unfold ClassifierInvariant; decide) rfl
    (by decide) (by decide)

/-! ## createRemoteOnlyImport: the new remote LIDs are the identity -/

/-- A strictly increasing sequence of `n` integers in `[0, n)` is `0, 1, .., n-1`. -/
theorem strict_bounded_eq_id (a : Nat → Int) (n : Nat)
    (hstep : ∀ i, i + 1 < n → a i < a (i + 1))
    (hbound : ∀ i, i < n → 0 ≤ a i ∧ a i < (n : Int)) :
    ∀ i, i < n → a i = (i : Int) := by
  have hlow : ∀ i, i < n → (i : Int) ≤ a i := by
    intro i
    induction i with
    | zero => intro h; exact (hbound 0 h).1
    | succ i ih =>
      intro h
      have h1 := ih (by omega)
      have h2 := hstep i h
      push_cast
      omega
  have hup : ∀ d i, i + d + 1 = n → a i ≤ (i : Int) := by
    intro d
    induction d with
    | zero =>
      intro i h
      have := (hbound i (by omega)).2
      omega
    | succ d ih =>
      intro i h
      have h1 := ih (i + 1) (by omega)
      have h2 := hstep i (by omega)
      push_cast at h1
      omega
  intro i hi
  have h1 := hlow i hi
  have h2 := hup (n - 1 - i) i (by omega)
  omega

theorem Map.getGlobalElement_some_bounds (m : Map) (l g : Int)
    (h : m.getGlobalElement l = some g) :
    0 ≤ l ∧ l < (m.getNodeElementList.length : Int) ∧ m.getNodeElementList.getD l.toNat 0 = g := by
  simp only [Map.getGlobalElement] at h
  by_cases h0 : 0 ≤ l
  · rw [if_pos h0, List.get?_eq_getElem?] at h
    obtain ⟨hlt, hg⟩ := List.getElem?_eq_some_iff.mp h
    refine ⟨h0, by omega, ?_⟩
    rw [List.getD_eq_getElem _ _ hlt, hg]
  · rw [if_neg h0] at h
    cases h

/-- C29: if `createRemoteOnlyImport` succeeds on a plan whose remote GIDs are
pairwise distinct, and the remote target Map (a consistent Map) holds every one
of them, then the remote LIDs of the new plan are `0, 1, .., n-1`, and the
element list of the remote target Map is the list of the remote GIDs in the
order of the plan's `remoteLIDs`. -/
theorem createRemoteOnlyImport_identity (this : ImportData) (remoteTarget : Map)
    (plan : ImportData)
    (h : createRemoteOnlyImport this remoteTarget = Except.ok plan)
    (hdist : (this.remoteLIDs_.map this.target_.globalElement).Nodup)
    (hcons : Map.Consistent remoteTarget)
    (hheld : ∀ g ∈ this.remoteLIDs_.map this.target_.globalElement,
      remoteTarget.getLocalElement g ≠ LINVALID) :
    plan.remoteLIDs_ = (List.range (getNumRemoteIDs this)).map Int.ofNat ∧
    remoteTarget.getNodeElementList = this.remoteLIDs_.map this.target_.globalElement := by
  have hcount : getNumRemoteIDs this = remoteTarget.getNodeNumElements := by
    by_contra hne
    simp only [createRemoteOnlyImport, if_pos hne] at h
    cases h
  have hn : remoteTarget.getNodeElementList.length = this.remoteLIDs_.length := by
    simpa [getNumRemoteIDs, Map.getNodeNumElements] using hcount.symm
  rcases createRemoteOnlyImport_cases this remoteTarget hcount with ⟨hok, hord⟩ | ⟨herr, -⟩
  swap
  · rw [herr] at h
    cases h
  rw [hok] at h
  cases h
  have hlen : (recomputedRemoteLIDs this remoteTarget).length = this.remoteLIDs_.length := by
    simp [recomputedRemoteLIDs]
  have hget : ∀ i (hi : i < this.remoteLIDs_.length),
      (recomputedRemoteLIDs this remoteTarget).getD i 0
        = remoteTarget.getLocalElement (this.target_.globalElement this.remoteLIDs_[i]) := by
    intro i hi
    rw [List.getD_eq_getElem _ _ (by omega)]
    simp only [recomputedRemoteLIDs, List.getElem_map]
  have hglob : ∀ i (hi : i < this.remoteLIDs_.length),
      remoteTarget.getGlobalElement ((recomputedRemoteLIDs this remoteTarget).getD i 0)
        = some (this.target_.globalElement this.remoteLIDs_[i]) := by
    intro i hi
    rw [hget i hi]
    apply hcons
    apply hheld
    exact List.mem_map.mpr ⟨_, List.getElem_mem hi, rfl⟩
  have hinj : ∀ i j, i < this.remoteLIDs_.length → j < this.remoteLIDs_.length →
      (recomputedRemoteLIDs this remoteTarget).getD i 0
        = (recomputedRemoteLIDs this remoteTarget).getD j 0 → i = j := by
    intro i j hi hj hij
    have h1 := hglob i hi
    have h2 := hglob j hj
    rw [hij, h2] at h1
    have hi2 : i < (this.remoteLIDs_.map this.target_.globalElement).length := by
      simpa using hi
    have hj2 : j < (this.remoteLIDs_.map this.target_.globalElement).length := by
      simpa using hj
    have h3 : (this.remoteLIDs_.map this.target_.globalElement)[j]
        = (this.remoteLIDs_.map this.target_.globalElement)[i] := by
      simp only [List.getElem_map]
      exact Option.some.inj h1
    exact (hdist.getElem_inj_iff.mp h3).symm
  have hid := strict_bounded_eq_id
    (fun i => (recomputedRemoteLIDs this remoteTarget).getD i 0) this.remoteLIDs_.length
    (by
      intro i hi
      have h1 := hord (i + 1) (by omega) (by omega)
      have h2 : (recomputedRemoteLIDs this remoteTarget).getD i 0
          ≠ (recomputedRemoteLIDs this remoteTarget).getD (i + 1) 0 := by
        intro heq
        have := hinj i (i + 1) (by omega) hi heq
        omega
      simp only [Nat.add_sub_cancel] at h1
      show (recomputedRemoteLIDs this remoteTarget).getD i 0
        < (recomputedRemoteLIDs this remoteTarget).getD (i + 1) 0
      omega)
    (by
      intro i hi
      obtain ⟨h0, h1, -⟩ := Map.getGlobalElement_some_bounds _ _ _ (hglob i hi)
      rw [hn] at h1
      exact ⟨h0, h1⟩)
  constructor
  · show recomputedRemoteLIDs this remoteTarget = _
    apply List.ext_getElem
    · simp [hlen, getNumRemoteIDs]
    · intro i h1 h2
      have hi : i < this.remoteLIDs_.length := by omega
      have h3 : (recomputedRemoteLIDs this remoteTarget).getD i 0 = (i : Int) := hid i hi
      rw [List.getD_eq_getElem _ _ h1] at h3
      rw [h3, List.getElem_map, List.getElem_range]
      rfl
  · apply List.ext_getElem
    · simp [hn]
    · intro i h1 h2
      have hi : i < this.remoteLIDs_.length := by omega
      obtain ⟨-, -, h3⟩ := Map.getGlobalElement_some_bounds _ _ _ (hglob i hi)
      have h4 : (recomputedRemoteLIDs this remoteTarget).getD i 0 = (i : Int) := hid i hi
      rw [h4, Int.toNat_ofNat, List.getD_eq_getElem _ _ h1] at h3
      rw [h3, List.getElem_map]

/-- Witness for C29: the plan for source `[0, 1, 2]` and target `[0, 2, 9, 7]`
restricted to the remote Map `[9, 7]`. -/
theorem createRemoteOnlyImport_identity_witness :
    ∃ plan, createRemoteOnlyImport (classifiedPlan [0, 1, 2] [0, 2, 9, 7])
        (Map.ofList [9, 7] true (directoryLookup [[0, 1, 2]])) = Except.ok plan ∧
      plan.remoteLIDs_
        = (List.range (getNumRemoteIDs (classifiedPlan [0, 1, 2] [0, 2, 9, 7]))).map Int.ofNat ∧
      (Map.ofList [9, 7] true (directoryLookup [[0, 1, 2]])).getNodeElementList
        = (classifiedPlan [0, 1, 2] [0, 2, 9, 7]).remoteLIDs_.map
          (classifiedPlan [0, 1, 2] [0, 2, 9, 7]).target_.globalElement :=
  ⟨_, rfl, createRemoteOnlyImport_identity (classifiedPlan [0, 1, 2] [0, 2, 9, 7])
    (Map.ofList [9, 7] true (directoryLookup [[0, 1, 2]])) _ rfl (by decide)
    (Map.ofList_consistent _ _ _) (by decide)⟩

/-! ## The createExpert constructor with user remote PIDs and GIDs -/

theorem createExpertStep_true (source : Map) (targetGIDs : List Int)
    (st : ImportData × List Int) (tgtLid : Nat) :
    (createExpertStep source targetGIDs true st tgtLid).1.remoteLIDs_ = st.1.remoteLIDs_ ∧
    (createExpertStep source targetGIDs true st tgtLid).2 = st.2 := by
  simp only [createExpertStep, Bool.not_true, Bool.false_eq_true, if_false]
  split <;> exact ⟨rfl, rfl⟩

theorem createExpert_foldl_true (source : Map) (targetGIDs : List Int) :
    ∀ (l : List Nat) (st : ImportData × List Int),
      (l.foldl (createExpertStep source targetGIDs true) st).1.remoteLIDs_ = st.1.remoteLIDs_ ∧
      (l.foldl (createExpertStep source targetGIDs true) st).2 = st.2 := by
  intro l
  induction l with
  | nil => intro st; exact ⟨rfl, rfl⟩
  | cons t l ih =>
    intro st
    rw [List.foldl_cons]
    obtain ⟨h1, h2⟩ := ih (createExpertStep source targetGIDs true st t)
    obtain ⟨h3, h4⟩ := createExpertStep_true source targetGIDs st t
    exact ⟨h1.trans h3, h2.trans h4⟩

/-- With `useRemotePIDGID` the "createExpert" constructor reaches its size test
with the array `remoteGIDs` it was given and an empty `remoteLIDs_`: it returns
only when `userRemotePIDs` and `remoteGIDs` are empty, and every other run ends
in `std::runtime_error`. -/
theorem Import.createExpert_true_cases
    (cfsr : List Int → List Int → Except ImportError Unit)
    (source target : Map) (userRemotePIDs remoteGIDs userExportLIDs userExportPIDs : List Int) :
    (¬ (userRemotePIDs = [] ∧ remoteGIDs = []) →
      Import.createExpert cfsr source target userRemotePIDs remoteGIDs userExportLIDs
        userExportPIDs true = Except.error ImportError.runtime_error) ∧
    (∀ r, Import.createExpert cfsr source target userRemotePIDs remoteGIDs userExportLIDs
        userExportPIDs true = Except.ok r → r.plan.remoteLIDs_ = []) := by
  obtain ⟨hL, hG⟩ := createExpert_foldl_true source target.getNodeElementList
    (List.range' (numSameLoop source.getNodeElementList target.getNodeElementList
        (min source.getNodeElementList.length target.getNodeElementList.length)
        (min source.getNodeElementList.length target.getNodeElementList.length) 0)
      (target.getNodeElementList.length
        - numSameLoop source.getNodeElementList target.getNodeElementList
          (min source.getNodeElementList.length target.getNodeElementList.length)
          (min source.getNodeElementList.length target.getNodeElementList.length) 0))
    ({ ImportData.new source target with
        numSameIDs_ := numSameLoop source.getNodeElementList target.getNodeElementList
          (min source.getNodeElementList.length target.getNodeElementList.length)
          (min source.getNodeElementList.length target.getNodeElementList.length) 0 },
      remoteGIDs)
  have hL2 : _ = ([] : List Int) := hL
  simp only [Import.createExpert, Bool.not_true, Bool.false_eq_true, if_false, if_true,
    TPETRA_ABUSE_WARNING_remoteLIDs, hL2, hG, List.length_nil]
  constructor
  · intro hne
    split
    · rfl
    · rw [if_pos]
      intro hsz
      apply hne
      obtain ⟨h1, h2⟩ := hsz
      have hg : remoteGIDs = [] := List.length_eq_zero.mp h2
      rw [hg] at h1
      exact ⟨List.length_eq_zero.mp h1, hg⟩
  · intro r hr
    split at hr
    · cases hr
    · split at hr
      · cases hr
      · rename_i hsz
        have hsz2 := not_not.mp hsz
        have hg : remoteGIDs = [] := List.length_eq_zero.mp hsz2.2
        have hu : userRemotePIDs = [] := by
          have := hsz2.1
          rw [hg] at this
          exact List.length_eq_zero.mp this
        subst hg
        subst hu
        split at hr
        · cases hr
        · cases hr
          simp only [sort3_nil]

/-- C30: in the "createExpert" constructor with `useRemotePIDGID` the plan's
`remoteLIDs_` is never populated: every call with a non-empty array `remoteGIDs`
throws `std::runtime_error`, and a call that returns has `remoteGIDs` and
`userRemotePIDs` both empty and leaves the plan without remote LIDs. -/
theorem Import.createExpert_useRemotePIDGID
    (cfsr : List Int → List Int → Except ImportError Unit)
    (source target : Map) (userRemotePIDs remoteGIDs userExportLIDs userExportPIDs : List Int) :
    (remoteGIDs ≠ [] →
      Import.createExpert cfsr source target userRemotePIDs remoteGIDs userExportLIDs
        userExportPIDs true = Except.error ImportError.runtime_error) ∧
    (∀ r, Import.createExpert cfsr source target userRemotePIDs remoteGIDs userExportLIDs
        userExportPIDs true = Except.ok r →
      remoteGIDs = [] ∧ userRemotePIDs = [] ∧ r.plan.remoteLIDs_ = []) := by
  obtain ⟨herr, hok⟩ := Import.createExpert_true_cases cfsr source target userRemotePIDs
    remoteGIDs userExportLIDs userExportPIDs
  constructor
  · intro hne
    exact herr (fun h => hne h.2)
  · intro r hr
    have hboth : userRemotePIDs = [] ∧ remoteGIDs = [] := by
      by_contra hne
      rw [herr hne] at hr
      cases hr
    exact ⟨hboth.2, hboth.1, hok r hr⟩

/-- Witness for C30: source `[0, 1, 2]`, target `[0, 2, 9, 7]`; with the user
arrays `userRemotePIDs = [1, 1]`, `remoteGIDs = [9, 7]` the constructor throws,
with both arrays empty it returns a plan without remote LIDs. -/
theorem Import.createExpert_useRemotePIDGID_witness :
    Import.createExpert (fun _ _ => Except.ok ())
      (Map.ofList [0, 1, 2] true (directoryLookup [[0, 1, 2], [7, 9]]))
      (Map.ofList [0, 2, 9, 7] true (directoryLookup [[0, 1, 2], [7, 9]]))
      [1, 1] [9, 7] [1] [3] true = Except.error ImportError.runtime_error ∧
    ∃ r, Import.createExpert (fun _ _ => Except.ok ())
      (Map.ofList [0, 1, 2] true (directoryLookup [[0, 1, 2], [7, 9]]))
      (Map.ofList [0, 2, 9, 7] true (directoryLookup [[0, 1, 2], [7, 9]]))
      [] [] [1] [3] true = Except.ok r ∧ r.plan.remoteLIDs_ = [] ∧
      r.plan.permuteToLIDs_ = [1] ∧ r.plan.exportLIDs_ = [1] ∧ r.plan.exportPIDs_ = [3] :=
  ⟨(Import.createExpert_useRemotePIDGID (fun _ _ => Except.ok ())
      (Map.ofList [0, 1, 2] true (directoryLookup [[0, 1, 2], [7, 9]]))
      (Map.ofList [0, 2, 9, 7] true (directoryLookup [[0, 1, 2], [7, 9]]))
      [1, 1] [9, 7] [1] [3]).1 (by decide),
    _, rfl,
    ((Import.createExpert_useRemotePIDGID (fun _ _ => Except.ok ())
      (Map.ofList [0, 1, 2] true (directoryLookup [[0, 1, 2], [7, 9]]))
      (Map.ofList [0, 2, 9, 7] true (directoryLookup [[0, 1, 2], [7, 9]]))
      [] [] [1] [3]).2 _ rfl).2.2, by decide, by decide, by decide⟩

/-! ## The methods that build a new plan leave their inputs unchanged -/

theorem Heap.next_swap (h : Heap) (a b : Nat) : (h.swap a b).next = h.next := rfl

theorem Heap.next_alloc (h : Heap) (v : List Int) : (h.alloc v).1.next = h.next + 1 := rfl

theorem Heap.addr_alloc (h : Heap) (v : List Int) : (h.alloc v).2 = h.next := rfl

theorem Heap.read_swap_fst (h : Heap) (a b : Nat) : (h.swap a b).read a = h.read b := by
  simp only [Heap.swap, Heap.write, Heap.read]
  split_ifs with h1
  · rw [h1]
  · rfl

theorem Heap.read_swap_snd (h : Heap) (a b : Nat) : (h.swap a b).read b = h.read a := by
  simp only [Heap.swap, Heap.write, Heap.read, if_true]

theorem Heap.read_swap_ne (h : Heap) (a b c : Nat) (h1 : c ≠ a) (h2 : c ≠ b) :
    (h.swap a b).read c = h.read c := by
  simp only [Heap.swap, Heap.write, Heap.read, if_neg h1, if_neg h2]

theorem Heap.read_alloc_self (h : Heap) (v : List Int) : (h.alloc v).1.read h.next = v := by
  simp only [Heap.alloc, Heap.read, if_true]

theorem Heap.read_alloc_eq (h : Heap) (v : List Int) (c : Nat) (h1 : c = h.next) :
    (h.alloc v).1.read c = v := by
  simp only [Heap.alloc, Heap.read, if_pos h1]

theorem Heap.read_alloc_ne (h : Heap) (v : List Int) (c : Nat) (h1 : c ≠ h.next) :
    (h.alloc v).1.read c = h.read c := by
  simp only [Heap.alloc, Heap.read, if_neg h1]

/-- The expert constructor changes no array below the address `n` when the
argument arrays and every unused address are at or above `n`. -/
theorem Import.expertRef_frame (h : Heap) (source target : Map) (numSameIDs : Nat)
    (args : ArrayRefs) (n : Nat) (hn : n ≤ h.next)
    (h1 : n ≤ args.permuteToLIDs) (h2 : n ≤ args.permuteFromLIDs) (h3 : n ≤ args.remoteLIDs)
    (h4 : n ≤ args.exportLIDs) (h5 : n ≤ args.exportPIDs)
    (res : Heap × PlanRef)
    (hres : Import.expertRef h source target numSameIDs args = Except.ok res) :
    ∀ a, a < n → res.1.read a = h.read a := by
  intro a ha
  simp only [Import.expertRef] at hres
  cases hres
  simp (disch := first | omega | (simp only [Heap.next_alloc, Heap.addr_alloc]; omega) | simp only [Heap.next_alloc, Heap.addr_alloc]) only [Heap.read_swap_ne, Heap.read_alloc_ne, Heap.next_alloc,
    Heap.addr_alloc]

/-- The plan built by the expert constructor holds the contents of the argument
arrays, which are arrays of the heap; the permute arguments may be one array
when it is empty. -/
theorem Import.expertRef_load (h : Heap) (source target : Map) (numSameIDs : Nat)
    (args : ArrayRefs)
    (h1 : args.permuteToLIDs < h.next) (h2 : args.permuteFromLIDs < h.next)
    (h3 : args.remoteLIDs < h.next) (h4 : args.exportLIDs < h.next)
    (h5 : args.exportPIDs < h.next)
    (halias : args.permuteFromLIDs = args.permuteToLIDs → h.read args.permuteToLIDs = [])
    (d13 : args.remoteLIDs ≠ args.permuteToLIDs) (d23 : args.remoteLIDs ≠ args.permuteFromLIDs)
    (d14 : args.exportLIDs ≠ args.permuteToLIDs) (d24 : args.exportLIDs ≠ args.permuteFromLIDs)
    (d34 : args.exportLIDs ≠ args.remoteLIDs)
    (d15 : args.exportPIDs ≠ args.permuteToLIDs) (d25 : args.exportPIDs ≠ args.permuteFromLIDs)
    (d35 : args.exportPIDs ≠ args.remoteLIDs) (d45 : args.exportPIDs ≠ args.exportLIDs)
    (res : Heap × PlanRef)
    (hres : Import.expertRef h source target numSameIDs args = Except.ok res) :
    res.2.load res.1
      = { source_ := source, target_ := target, numSameIDs_ := numSameIDs,
          permuteToLIDs_ := h.read args.permuteToLIDs,
          permuteFromLIDs_ := h.read args.permuteFromLIDs,
          remoteLIDs_ := h.read args.remoteLIDs,
          exportLIDs_ := h.read args.exportLIDs,
          exportPIDs_ := h.read args.exportPIDs,
          abuseWarnings := [] } := by
  simp only [Import.expertRef] at hres
  cases hres
  simp only [PlanRef.load, Heap.addr_alloc, Heap.next_alloc]
  by_cases hal : args.permuteFromLIDs = args.permuteToLIDs
  · have hnil := halias hal
    simp (disch := first | omega | (simp only [Heap.next_alloc, Heap.addr_alloc]; omega) | simp only [Heap.next_alloc, Heap.addr_alloc]) only [Heap.read_swap_ne, Heap.read_swap_fst, Heap.read_swap_snd,
      Heap.read_alloc_ne, Heap.read_alloc_self, Heap.next_alloc, Heap.addr_alloc, hal, hnil]
  · simp (disch := first | omega | (simp only [Heap.next_alloc, Heap.addr_alloc]; omega) | simp only [Heap.next_alloc, Heap.addr_alloc]) only [Heap.read_swap_ne, Heap.read_swap_fst, Heap.read_swap_snd,
      Heap.read_alloc_ne, Heap.read_alloc_self, Heap.next_alloc, Heap.addr_alloc]

/-- `createRemoteOnlyImport` on the heap changes no array that existed before
the call, and returns the plan of `createRemoteOnlyImport` on the data read. -/
theorem createRemoteOnlyImportRef_spec (h : Heap) (this : PlanRef) (remoteTarget : Map)
    (hal : this.Allocated h) (res : Heap × PlanRef)
    (hres : createRemoteOnlyImportRef h this remoteTarget = Except.ok res) :
    (∀ a, a < h.next → res.1.read a = h.read a) ∧
    createRemoteOnlyImport (this.load h) remoteTarget = Except.ok (res.2.load res.1) := by
  obtain ⟨-, -, -, hel, hep⟩ := hal
  simp only [createRemoteOnlyImportRef] at hres
  split at hres
  · cases hres
  · rename_i hcount
    split at hres
    · cases hres
    · rename_i filled hloop
      constructor
      · intro a ha
        rw [Import.expertRef_frame _ _ _ _ _ h.next
          (by simp only [Heap.next_alloc]; omega)
          (by simp only [Heap.next_alloc, Heap.addr_alloc]; omega)
          (by simp only [Heap.next_alloc, Heap.addr_alloc]; omega)
          (by simp only [Heap.next_alloc, Heap.addr_alloc]; omega)
          (by simp only [Heap.next_alloc, Heap.addr_alloc]; omega)
          (by simp only [Heap.next_alloc, Heap.addr_alloc]; omega) res hres a ha]
        simp (disch := first | omega | (simp only [Heap.next_alloc, Heap.addr_alloc]; omega) | simp only [Heap.next_alloc, Heap.addr_alloc]) only
          [Heap.read_alloc_ne]
      · rw [Import.expertRef_load _ _ _ _ _
          (by simp only [Heap.next_alloc, Heap.addr_alloc]; omega)
          (by simp only [Heap.next_alloc, Heap.addr_alloc]; omega)
          (by simp only [Heap.next_alloc, Heap.addr_alloc]; omega)
          (by simp only [Heap.next_alloc, Heap.addr_alloc]; omega)
          (by simp only [Heap.next_alloc, Heap.addr_alloc]; omega)
          (by intro _; simp only [Heap.addr_alloc, Heap.read_alloc_self])
          (by simp only [Heap.next_alloc, Heap.addr_alloc]; omega)
          (by simp only [Heap.next_alloc, Heap.addr_alloc]; omega)
          (by simp only [Heap.next_alloc, Heap.addr_alloc]; omega)
          (by simp only [Heap.next_alloc, Heap.addr_alloc]; omega)
          (by simp only [Heap.next_alloc, Heap.addr_alloc]; omega)
          (by simp only [Heap.next_alloc, Heap.addr_alloc]; omega)
          (by simp only [Heap.next_alloc, Heap.addr_alloc]; omega)
          (by simp only [Heap.next_alloc, Heap.addr_alloc]; omega)
          (by simp only [Heap.next_alloc, Heap.addr_alloc]; omega) res hres]
        simp (disch := first | omega | (simp only [Heap.next_alloc, Heap.addr_alloc]; omega) | simp only [Heap.next_alloc, Heap.addr_alloc]) only
          [Heap.read_alloc_ne, Heap.read_alloc_eq, Heap.next_alloc, Heap.addr_alloc]
        have hcount2 : ¬ getNumRemoteIDs (this.load h) ≠ remoteTarget.getNodeNumElements := hcount
        have hloop2 : remoteOnlyLoop remoteTarget (this.load h).target_ (this.load h).remoteLIDs_
            (List.range (getNumRemoteIDs (this.load h)))
            (List.replicate (getNumRemoteIDs (this.load h)) (0 : Int)) = Except.ok filled := hloop
        simp only [createRemoteOnlyImport, if_neg hcount2, hloop2, Import.expert_eq]
        rfl

/-- `setUnion ()` on the heap changes no array that existed before the call, and
returns the plan of `setUnion ()` on the data read. -/
theorem setUnionSelfRef_spec (mapCtor : List Int → Map) (h : Heap) (this : PlanRef)
    (hal : this.Allocated h) (res : Heap × PlanRef)
    (hres : setUnionSelfRef mapCtor h this = Except.ok res) :
    (∀ a, a < h.next → res.1.read a = h.read a) ∧
    setUnionSelf mapCtor (this.load h) = Except.ok (res.2.load res.1) := by
  obtain ⟨-, -, hrl, hel, hep⟩ := hal
  simp only [setUnionSelfRef] at hres
  constructor
  · intro a ha
    rw [Import.expertRef_frame _ _ _ _ _ h.next
      (by simp only [Heap.next_alloc, Heap.addr_alloc]; omega) (by simp only [Heap.next_alloc, Heap.addr_alloc]; omega) (by simp only [Heap.next_alloc, Heap.addr_alloc]; omega) (by simp only [Heap.next_alloc, Heap.addr_alloc]; omega) (by simp only [Heap.next_alloc, Heap.addr_alloc]; omega) (by simp only [Heap.next_alloc, Heap.addr_alloc]; omega) res hres a ha]
    simp (disch := first | omega | (simp only [Heap.next_alloc, Heap.addr_alloc]; omega) | simp only [Heap.next_alloc, Heap.addr_alloc]) only
      [Heap.read_alloc_ne]
  · rw [Import.expertRef_load _ _ _ _ _
      (by simp only [Heap.next_alloc, Heap.addr_alloc]; omega) (by simp only [Heap.next_alloc, Heap.addr_alloc]; omega) (by simp only [Heap.next_alloc, Heap.addr_alloc]; omega) (by simp only [Heap.next_alloc, Heap.addr_alloc]; omega) (by simp only [Heap.next_alloc, Heap.addr_alloc]; omega)
      (by intro hc; simp only [Heap.next_alloc, Heap.addr_alloc] at hc; omega)
      (by simp only [Heap.next_alloc, Heap.addr_alloc]; omega) (by simp only [Heap.next_alloc, Heap.addr_alloc]; omega) (by simp only [Heap.next_alloc, Heap.addr_alloc]; omega) (by simp only [Heap.next_alloc, Heap.addr_alloc]; omega) (by simp only [Heap.next_alloc, Heap.addr_alloc]; omega) (by simp only [Heap.next_alloc, Heap.addr_alloc]; omega) (by simp only [Heap.next_alloc, Heap.addr_alloc]; omega) (by simp only [Heap.next_alloc, Heap.addr_alloc]; omega) (by simp only [Heap.next_alloc, Heap.addr_alloc]; omega) res hres]
    simp (disch := first | omega | (simp only [Heap.next_alloc, Heap.addr_alloc]; omega) | simp only [Heap.next_alloc, Heap.addr_alloc]) only
      [Heap.read_alloc_ne, Heap.read_alloc_eq, Heap.next_alloc, Heap.addr_alloc]
    simp only [setUnionSelf, Import.expert_eq]
    rfl

theorem setUnion_of_args (isSameAs : Map → Map → Bool) (mapCtor : List Int → Map)
    (cfr : List Int → List Int → Except ImportError (List Int × List Int))
    (this rhs : ImportData) (remotePIDs1 remotePIDs2 : List Int) :
    setUnion isSameAs mapCtor cfr this rhs remotePIDs1 remotePIDs2
      = match setUnionArgs isSameAs mapCtor cfr this rhs remotePIDs1 remotePIDs2 with
        | Except.error e => Except.error e
        | Except.ok none => Except.ok this
        | Except.ok (some a) =>
          Except.ok
            { source_ := this.source_, target_ := a.1, numSameIDs_ := a.2.1,
              permuteToLIDs_ := a.2.2.permuteToLIDs, permuteFromLIDs_ := a.2.2.permuteFromLIDs,
              remoteLIDs_ := a.2.2.remoteLIDs, exportLIDs_ := a.2.2.exportLIDs,
              exportPIDs_ := a.2.2.exportPIDs, abuseWarnings := [] } := by
  simp only [setUnion, setUnionArgs, Import.expert_eq, Import.copy]
  split
  · rfl
  · split <;> rfl

/-- `setUnion (rhs)` on the heap changes no array that existed before the call,
and returns the plan of `setUnion (rhs)` on the data read. -/
theorem setUnionRef_spec (isSameAs : Map → Map → Bool) (mapCtor : List Int → Map)
    (cfr : List Int → List Int → Except ImportError (List Int × List Int))
    (h : Heap) (this rhs : PlanRef) (remotePIDs1 remotePIDs2 : List Int)
    (res : Heap × PlanRef)
    (hres : setUnionRef isSameAs mapCtor cfr h this rhs remotePIDs1 remotePIDs2
      = Except.ok res) :
    (∀ a, a < h.next → res.1.read a = h.read a) ∧
    setUnion isSameAs mapCtor cfr (this.load h) (rhs.load h) remotePIDs1 remotePIDs2
      = Except.ok (res.2.load res.1) := by
  rw [setUnion_of_args]
  simp only [setUnionRef] at hres
  split at hres
  · cases hres
  · rename_i hargs
    cases hres
    exact ⟨fun _ _ => rfl, rfl⟩
  · rename_i a hargs
    constructor
    · intro b hb
      rw [Import.expertRef_frame _ _ _ _ _ h.next
        (by simp only [Heap.next_alloc, Heap.addr_alloc]; omega) (by simp only [Heap.next_alloc, Heap.addr_alloc]; omega) (by simp only [Heap.next_alloc, Heap.addr_alloc]; omega) (by simp only [Heap.next_alloc, Heap.addr_alloc]; omega) (by simp only [Heap.next_alloc, Heap.addr_alloc]; omega) (by simp only [Heap.next_alloc, Heap.addr_alloc]; omega) res hres b hb]
      simp (disch := first | omega | (simp only [Heap.next_alloc, Heap.addr_alloc]; omega) | simp only [Heap.next_alloc, Heap.addr_alloc]) only
        [Heap.read_alloc_ne]
    · rw [Import.expertRef_load _ _ _ _ _
        (by simp only [Heap.next_alloc, Heap.addr_alloc]; omega) (by simp only [Heap.next_alloc, Heap.addr_alloc]; omega) (by simp only [Heap.next_alloc, Heap.addr_alloc]; omega) (by simp only [Heap.next_alloc, Heap.addr_alloc]; omega) (by simp only [Heap.next_alloc, Heap.addr_alloc]; omega)
        (by intro hc; simp only [Heap.next_alloc, Heap.addr_alloc] at hc; omega)
        (by simp only [Heap.next_alloc, Heap.addr_alloc]; omega) (by simp only [Heap.next_alloc, Heap.addr_alloc]; omega) (by simp only [Heap.next_alloc, Heap.addr_alloc]; omega) (by simp only [Heap.next_alloc, Heap.addr_alloc]; omega) (by simp only [Heap.next_alloc, Heap.addr_alloc]; omega) (by simp only [Heap.next_alloc, Heap.addr_alloc]; omega) (by simp only [Heap.next_alloc, Heap.addr_alloc]; omega) (by simp only [Heap.next_alloc, Heap.addr_alloc]; omega) (by simp only [Heap.next_alloc, Heap.addr_alloc]; omega) res hres]
      simp (disch := first | omega | (simp only [Heap.next_alloc, Heap.addr_alloc]; omega) | simp only [Heap.next_alloc, Heap.addr_alloc]) only
        [Heap.read_alloc_ne, Heap.read_alloc_eq, Heap.next_alloc, Heap.addr_alloc]
      rfl

theorem PlanRef.load_eq_of_frame (p : PlanRef) (h h2 : Heap) (hal : p.Allocated h)
    (hf : ∀ a, a < h.next → h2.read a = h.read a) : p.load h2 = p.load h := by
  obtain ⟨h1, h3, h4, h5, h6⟩ := hal
  simp only [PlanRef.load, hf _ h1, hf _ h3, hf _ h4, hf _ h5, hf _ h6]

/-- The expert constructor handed the export PID array of an existing plan
leaves that array empty ("it ruins the existing object if we pass things in
directly"). -/
theorem Import.expertRef_empties_argument (h : Heap) (source target : Map) (numSameIDs : Nat)
    (args : ArrayRefs) (h1 : args.permuteToLIDs < h.next) (h2 : args.permuteFromLIDs < h.next)
    (h3 : args.remoteLIDs < h.next) (h4 : args.exportLIDs < h.next) (res : Heap × PlanRef)
    (hres : Import.expertRef h source target numSameIDs args = Except.ok res) :
    res.1.read args.exportPIDs = [] := by
  simp only [Import.expertRef] at hres
  cases hres
  simp (disch := first | omega | (simp only [Heap.next_alloc, Heap.addr_alloc]; omega) | simp only [Heap.next_alloc, Heap.addr_alloc]) only
    [Heap.read_swap_snd, Heap.read_swap_ne, Heap.read_alloc_eq, Heap.next_alloc,
      Heap.addr_alloc]

/-- C21: on a heap that holds the arrays of the plans `this` and `rhs`,
`setUnion (rhs)`, `setUnion ()` and `createRemoteOnlyImport` change no array that
existed before the call, so every field of their input plans reads as before
(`numSame`, `permuteToLIDs`, `permuteFromLIDs`, `remoteLIDs`, `exportLIDs`,
`exportPIDs`), and the plan they return is the plan of the method on the data
read; whereas the expert constructor they call, handed the arrays of `this`
themselves, would leave `exportPIDs` of `this` empty. -/
theorem new_plan_methods_keep_inputs (isSameAs : Map → Map → Bool) (mapCtor : List Int → Map)
    (cfr : List Int → List Int → Except ImportError (List Int × List Int))
    (h : Heap) (this rhs : PlanRef) (remotePIDs1 remotePIDs2 : List Int) (remoteTarget : Map)
    (hthis : this.Allocated h) (hrhs : rhs.Allocated h) :
    (∀ res, setUnionRef isSameAs mapCtor cfr h this rhs remotePIDs1 remotePIDs2 = Except.ok res →
      (∀ a, a < h.next → res.1.read a = h.read a) ∧
      this.load res.1 = this.load h ∧ rhs.load res.1 = rhs.load h ∧
      setUnion isSameAs mapCtor cfr (this.load h) (rhs.load h) remotePIDs1 remotePIDs2
        = Except.ok (res.2.load res.1)) ∧
    (∀ res, setUnionSelfRef mapCtor h this = Except.ok res →
      (∀ a, a < h.next → res.1.read a = h.read a) ∧
      this.load res.1 = this.load h ∧
      setUnionSelf mapCtor (this.load h) = Except.ok (res.2.load res.1)) ∧
    (∀ res, createRemoteOnlyImportRef h this remoteTarget = Except.ok res →
      (∀ a, a < h.next → res.1.read a = h.read a) ∧
      this.load res.1 = this.load h ∧
      createRemoteOnlyImport (this.load h) remoteTarget = Except.ok (res.2.load res.1)) ∧
    (∀ res, Import.expertRef h this.source_ this.target_ this.numSameIDs_
        { permuteToLIDs := this.permuteToLIDs_, permuteFromLIDs := this.permuteFromLIDs_,
          remoteLIDs := this.remoteLIDs_, exportLIDs := this.exportLIDs_,
          exportPIDs := this.exportPIDs_ } = Except.ok res →
      (this.load res.1).exportPIDs_ = []) := by
  refine ⟨?_, ?_, ?_, ?_⟩
  · intro res hres
    obtain ⟨hf, hp⟩ := setUnionRef_spec isSameAs mapCtor cfr h this rhs remotePIDs1 remotePIDs2
      res hres
    exact ⟨hf, PlanRef.load_eq_of_frame this h res.1 hthis hf,
      PlanRef.load_eq_of_frame rhs h res.1 hrhs hf, hp⟩
  · intro res hres
    obtain ⟨hf, hp⟩ := setUnionSelfRef_spec mapCtor h this hthis res hres
    exact ⟨hf, PlanRef.load_eq_of_frame this h res.1 hthis hf, hp⟩
  · intro res hres
    obtain ⟨hf, hp⟩ := createRemoteOnlyImportRef_spec h this remoteTarget hthis res hres
    exact ⟨hf, PlanRef.load_eq_of_frame this h res.1 hthis hf, hp⟩
  · intro res hres
    exact Import.expertRef_empties_argument h _ _ _ _ hthis.1 hthis.2.1 hthis.2.2.1
      hthis.2.2.2.1 res hres

/-- Witness for C21: on `exampleHeap`, `setUnion ()` and `createRemoteOnlyImport`
onto the remote Map `[9, 7]` return and leave the plan `examplePlanRef` with its
export arrays `[1]` and `[3]`; the new plans hold copies of them. -/
theorem new_plan_methods_keep_inputs_witness :
    examplePlanRef.Allocated exampleHeap ∧
    (∃ res, setUnionSelfRef (unionMapCtor [0, 1, 2]) exampleHeap examplePlanRef = Except.ok res ∧
      examplePlanRef.load res.1 = examplePlanRef.load exampleHeap ∧
      (examplePlanRef.load res.1).exportLIDs_ = [1] ∧
      (examplePlanRef.load res.1).exportPIDs_ = [3] ∧
      (res.2.load res.1).exportLIDs_ = [1] ∧ (res.2.load res.1).exportPIDs_ = [3] ∧
      (res.2.load res.1).remoteLIDs_ = [3, 4]) ∧
    (∃ res, createRemoteOnlyImportRef exampleHeap examplePlanRef
        (Map.ofList [9, 7] true (directoryLookup [[0, 1, 2], [7, 9]])) = Except.ok res ∧
      examplePlanRef.load res.1 = examplePlanRef.load exampleHeap ∧
      (examplePlanRef.load res.1).exportLIDs_ = [1] ∧
      (examplePlanRef.load res.1).exportPIDs_ = [3] ∧
      (res.2.load res.1).exportLIDs_ = [1] ∧ (res.2.load res.1).exportPIDs_ = [3] ∧
      (res.2.load res.1).remoteLIDs_ = [0, 1]) ∧
    (∃ res, Import.expertRef exampleHeap examplePlanRef.source_ examplePlanRef.target_
        examplePlanRef.numSameIDs_
        { permuteToLIDs := examplePlanRef.permuteToLIDs_,
          permuteFromLIDs := examplePlanRef.permuteFromLIDs_,
          remoteLIDs := examplePlanRef.remoteLIDs_, exportLIDs := examplePlanRef.exportLIDs_,
          exportPIDs := examplePlanRef.exportPIDs_ } = Except.ok res ∧
      (examplePlanRef.load res.1).exportPIDs_ = []) :=
  have hal : examplePlanRef.Allocated exampleHeap := by
    unfold PlanRef.Allocated
    decide
  have hthm := new_plan_methods_keep_inputs sameElementLists (unionMapCtor [0, 1, 2]) noExports
    exampleHeap examplePlanRef examplePlanRef [1, 1] [1, 1]
    (Map.ofList [9, 7] true (directoryLookup [[0, 1, 2], [7, 9]])) hal hal
  ⟨hal,
    ⟨_, rfl, (hthm.2.1 _ rfl).2.1, by decide, by decide, by decide, by decide, by decide⟩,
    ⟨_, rfl, (hthm.2.2.1 _ rfl).2.1, by decide, by decide, by decide, by decide, by decide⟩,
    ⟨_, rfl, hthm.2.2.2 _ rfl⟩⟩

end Tpetra
